import Mathlib

/-!
# Task manager backend: services over a relational task store

A shallow embedding of `backend-go/internal/models/task.go`,
`backend-go/internal/services/task_service.go`,
`backend-go/internal/middleware/auth.go` (AuthMiddleware over an abstract
reading of token strings, GetUserIDFromContext) and the eight handlers of
`backend-go/internal/handlers/task_handler.go`.

* Go `string`-based enums (`TaskStatus`, `TaskPriority`) are `String`.
* `time.Time` is a natural number of clock ticks; `time.Now()` is the
  argument `now` of every operation.
* Nullable pointers (`*string`, `*time.Time`, `*bool`) are `Option`.
* Go `int` is `Int`, with arithmetic wrapped to 64 bits by `wrapInt`.
* The database behind `*gorm.DB` is the table `DB.rows` together with the
  primary-key sequence `DB.nextID`.  Every gorm call may fail; the error it
  reports is supplied by a `Faults` argument (`healthy` = no call fails).
-/

namespace TaskApp

deriving instance DecidableEq for Except

/-! ## models/task.go -/

abbrev TaskStatus := String
abbrev TaskPriority := String
abbrev Time := Nat

def StatusPending : TaskStatus := "pending"
def StatusCompleted : TaskStatus := "completed"

def PriorityLow : TaskPriority := "low"
def PriorityMedium : TaskPriority := "medium"
def PriorityHigh : TaskPriority := "high"

/-- The `Task` record; `DeletedAt` is the soft-delete column. -/
structure Task where
  ID : Nat
  Title : String
  Description : Option String
  Status : TaskStatus
  Priority : TaskPriority
  DueDate : Option Time
  UserID : Nat
  CreatedAt : Time
  UpdatedAt : Time
  DeletedAt : Option Time
  deriving DecidableEq, Repr

/-- `Task.IsOverdue`, with `time.Now()` passed as `now`. -/
def Task.IsOverdue (t : Task) (now : Time) : Bool :=
  match t.DueDate with
  | none => false
  | some d => if t.Status = StatusCompleted then false else decide (d < now)

/-- `Task.IsCompleted`. -/
def Task.IsCompleted (t : Task) : Bool := decide (t.Status = StatusCompleted)

/-- `Task.MarkAsCompleted`. -/
def Task.MarkAsCompleted (t : Task) : Task := { t with Status := StatusCompleted }

/-- `Task.MarkAsPending`. -/
def Task.MarkAsPending (t : Task) : Task := { t with Status := StatusPending }

/-- `Task.GetPriorityWeight`. -/
def Task.GetPriorityWeight (t : Task) : Int :=
  if t.Priority = PriorityHigh then 3
  else if t.Priority = PriorityMedium then 2
  else if t.Priority = PriorityLow then 1
  else 2

/-- `CreateTaskRequest`. -/
structure CreateTaskRequest where
  Title : String
  Description : Option String
  Priority : Option TaskPriority
  DueDate : Option Time
  deriving DecidableEq, Repr

/-- `UpdateTaskRequest`. -/
structure UpdateTaskRequest where
  Title : Option String
  Description : Option String
  Status : Option TaskStatus
  Priority : Option TaskPriority
  DueDate : Option Time
  deriving DecidableEq, Repr

/-- `TaskFilter`. -/
structure TaskFilter where
  Status : Option TaskStatus
  Priority : Option TaskPriority
  Overdue : Option Bool
  Page : Int
  Limit : Int
  deriving DecidableEq, Repr

/-- `TaskStats`. -/
structure TaskStats where
  Total : Nat
  Pending : Nat
  Completed : Nat
  Overdue : Nat
  deriving DecidableEq, Repr

/-- `Task.BeforeCreate`: the hook gorm runs before an insert. -/
def Task.BeforeCreate (t : Task) : Task :=
  let t1 := if t.Priority = "" then { t with Priority := PriorityMedium } else t
  if t1.Status = "" then { t1 with Status := StatusPending } else t1

/-! ## Machine integers -/

/-- Two's-complement wrap of a Go `int` result (64-bit platforms). -/
def wrapInt (x : Int) : Int := (x + 2 ^ 63) % 2 ^ 64 - 2 ^ 63

/-! ## The store behind `*gorm.DB` -/

/-- The `tasks` table and its primary-key sequence. -/
structure DB where
  rows : List Task
  nextID : Nat
  deriving DecidableEq, Repr

/-- A freshly migrated database. -/
def DB.empty : DB := { rows := [], nextID := 1 }

/-- Schema invariant: `id` is a primary key drawn from a sequence starting at 1. -/
def DB.WF (db : DB) : Prop :=
  (db.rows.map Task.ID).Nodup ∧ 0 < db.nextID ∧ ∀ r ∈ db.rows, 0 < r.ID ∧ r.ID < db.nextID

instance (db : DB) : Decidable db.WF := by unfold DB.WF; infer_instance

/-- Error reported by the k-th gorm call of an operation, if that call fails. -/
abbrev Faults := Nat → Option String

/-- No gorm call fails. -/
def healthy : Faults := fun _ => none

/-! ### SQL conditions (three-valued) -/

/-- An SQL condition on a row: `none` is SQL `NULL` (unknown). -/
abbrev Cond := Task → Option Bool

def sqlAnd : Option Bool → Option Bool → Option Bool
  | some false, _ => some false
  | _, some false => some false
  | some true, some true => some true
  | _, _ => none

/-- `col = ?` on a non-null text/integer column. -/
def sqlEq {α : Type} [DecidableEq α] (col v : α) : Option Bool := some (decide (col = v))

/-- `col != ?` on a non-null text column. -/
def sqlNe {α : Type} [DecidableEq α] (col v : α) : Option Bool := some (decide (col ≠ v))

/-- `col < ?` on a nullable timestamp column. -/
def sqlLt (col : Option Time) (v : Time) : Option Bool :=
  match col with
  | none => none
  | some c => some (decide (c < v))

/-- A `WHERE` clause keeps the rows on which the condition is true. -/
def sqlHolds (c : Option Bool) : Bool := c == some true

/-- `"id = ? AND user_id = ?"`. -/
def condIDUser (taskID userID : Nat) : Cond :=
  fun r => sqlAnd (sqlEq r.ID taskID) (sqlEq r.UserID userID)

/-- `"user_id = ?"`. -/
def condUser (userID : Nat) : Cond := fun r => sqlEq r.UserID userID

/-- `"status = ?"`. -/
def condStatus (s : TaskStatus) : Cond := fun r => sqlEq r.Status s

/-- `"priority = ?"`. -/
def condPriority (p : TaskPriority) : Cond := fun r => sqlEq r.Priority p

/-- `"due_date < ? AND status != ?"`. -/
def condOverdue (now : Time) (s : TaskStatus) : Cond :=
  fun r => sqlAnd (sqlLt r.DueDate now) (sqlNe r.Status s)

/-- `"user_id = ? AND status = ?"`. -/
def condUserStatus (userID : Nat) (s : TaskStatus) : Cond :=
  fun r => sqlAnd (sqlEq r.UserID userID) (sqlEq r.Status s)

/-- `"user_id = ? AND due_date < ? AND status != ?"`. -/
def condUserOverdue (userID : Nat) (now : Time) (s : TaskStatus) : Cond :=
  fun r => sqlAnd (sqlAnd (sqlEq r.UserID userID) (sqlLt r.DueDate now)) (sqlNe r.Status s)

/-! ### Query builder -/

/-- The `ORDER BY` expression of the listing:
`CASE WHEN priority = 'high' THEN 3 WHEN priority = 'medium' THEN 2 ELSE 1 END`. -/
def priorityRank (p : TaskPriority) : Nat :=
  if p = "high" then 3 else if p = "medium" then 2 else 1

/-- Row `a` may precede row `b` under
`ORDER BY CASE ... END DESC, created_at DESC`. -/
def listOrder (a b : Task) : Prop :=
  priorityRank b.Priority < priorityRank a.Priority ∨
    (priorityRank a.Priority = priorityRank b.Priority ∧ b.CreatedAt ≤ a.CreatedAt)

instance : DecidableRel listOrder := fun a b => by unfold listOrder; infer_instance

instance : IsTotal Task listOrder := ⟨fun a b => by
  unfold listOrder
  rcases Nat.lt_trichotomy (priorityRank a.Priority) (priorityRank b.Priority) with h | h | h
  · exact Or.inr (Or.inl h)
  · rcases Nat.le_total a.CreatedAt b.CreatedAt with h1 | h1
    · exact Or.inr (Or.inr ⟨h.symm, h1⟩)
    · exact Or.inl (Or.inr ⟨h, h1⟩)
  · exact Or.inl (Or.inl h)⟩

instance : IsTrans Task listOrder := ⟨fun a b c h1 h2 => by
  unfold listOrder at *
  rcases h1 with h1 | ⟨h1, h1c⟩ <;> rcases h2 with h2 | ⟨h2, h2c⟩
  · exact Or.inl (Nat.lt_trans h2 h1)
  · exact Or.inl (h2 ▸ h1)
  · exact Or.inl (h1 ▸ h2)
  · exact Or.inr ⟨h1.trans h2, Nat.le_trans h2c h1c⟩⟩

/-- A chained gorm statement: accumulated `Where` conditions, `Offset`,
`Limit` and whether the listing `Order` was requested. -/
structure Query where
  conds : List Cond
  offset : Int
  limit : Option Int
  ordered : Bool

/-- `db.Where(cond)` on a fresh statement. -/
def Query.start (c : Cond) : Query := { conds := [c], offset := 0, limit := none, ordered := false }

/-- `query.Where(cond)`: conditions are joined by `AND`. -/
def Query.Where (q : Query) (c : Cond) : Query := { q with conds := q.conds ++ [c] }

/-- `query.Offset(n)`. -/
def Query.Offset (q : Query) (n : Int) : Query := { q with offset := n }

/-- `query.Limit(n)`. -/
def Query.Limit (q : Query) (n : Int) : Query := { q with limit := some n }

/-- `query.Order("CASE ... END DESC, created_at DESC")`. -/
def Query.Order (q : Query) : Query := { q with ordered := true }

/-- Rows selected by the statement: every condition holds and, because
`Task` has a `gorm.DeletedAt` column, `deleted_at IS NULL`. -/
def Query.matches (q : Query) (r : Task) : Bool :=
  r.DeletedAt.isNone && q.conds.all (fun c => sqlHolds (c r))

/-- `OFFSET` is emitted only for a positive offset. -/
def applyOffset (n : Int) (l : List Task) : List Task :=
  if 0 < n then l.drop n.toNat else l

/-- `LIMIT` is emitted only for a non-negative limit. -/
def applyLimit (n : Option Int) (l : List Task) : List Task :=
  match n with
  | none => l
  | some k => if 0 ≤ k then l.take k.toNat else l

/-- `query.Model(&Task{}).Count(&total)`. -/
def DB.Count (db : DB) (q : Query) : Nat := (db.rows.filter q.matches).length

/-- `query.Find(&tasks)`: filter, then order, then cut the page.  Rows that
tie under the `ORDER BY` keys are returned in storage order. -/
def DB.Find (db : DB) (q : Query) : List Task :=
  let sel := db.rows.filter q.matches
  let srt := if q.ordered then sel.insertionSort listOrder else sel
  applyLimit q.limit (applyOffset q.offset srt)

/-- The selected row with the least primary key (`ORDER BY id LIMIT 1`). -/
def minByID : List Task → Option Task
  | [] => none
  | r :: rs =>
    match minByID rs with
    | none => some r
    | some m => if r.ID ≤ m.ID then some r else some m

/-- `query.First(&task)`; `none` is `gorm.ErrRecordNotFound`. -/
def DB.First (db : DB) (q : Query) : Option Task := minByID (db.rows.filter q.matches)

/-- `db.Create(task)` for a task with a zero key: run `BeforeCreate`, stamp
`CreatedAt`/`UpdatedAt` where they are the zero time (tick 0), draw the key
from the sequence, insert. -/
def DB.Create (db : DB) (now : Time) (t : Task) : DB × Task :=
  let t1 := t.BeforeCreate
  let t2 := { t1 with
    ID := db.nextID
    CreatedAt := if t1.CreatedAt = 0 then now else t1.CreatedAt
    UpdatedAt := if t1.UpdatedAt = 0 then now else t1.UpdatedAt }
  ({ rows := db.rows ++ [t2], nextID := db.nextID + 1 }, t2)

/-- `db.Save(task)`: a zero primary key inserts; otherwise every column of the
live row with that key is written and `UpdatedAt` is stamped; when no live row
has the key, the row is inserted, overwriting a row that holds the key. -/
def DB.Save (db : DB) (now : Time) (t : Task) : DB × Task :=
  if t.ID = 0 then db.Create now t
  else
    let t1 := { t with UpdatedAt := now }
    if db.rows.any (fun r => decide (r.ID = t.ID) && r.DeletedAt.isNone) then
      ({ rows := db.rows.map (fun r => if r.ID = t.ID ∧ r.DeletedAt.isNone then t1 else r),
         nextID := db.nextID }, t1)
    else if db.rows.any (fun r => decide (r.ID = t.ID)) then
      ({ rows := db.rows.map (fun r => if r.ID = t.ID then t1 else r),
         nextID := db.nextID }, t1)
    else ({ rows := db.rows ++ [t1], nextID := db.nextID }, t1)

/-- `query.Delete(&Task{})`: soft delete of the selected rows; returns
`RowsAffected`. -/
def DB.Delete (db : DB) (now : Time) (q : Query) : DB × Nat :=
  ({ rows := db.rows.map
      (fun r => if q.matches r then { r with DeletedAt := some now } else r),
     nextID := db.nextID },
   (db.rows.filter q.matches).length)

/-! ## services/task_service.go -/

/-- The message of `errors.New("task not found")`. -/
def errTaskNotFound : String := "task not found"

/-- `TaskService.CreateTask`. -/
def CreateTask (db : DB) (now : Time) (fault : Faults) (userID : Nat)
    (req : CreateTaskRequest) : Except String Task × DB :=
  let task : Task :=
    { ID := 0, Title := req.Title, Description := req.Description, Status := "",
      Priority := "", DueDate := req.DueDate, UserID := userID,
      CreatedAt := 0, UpdatedAt := 0, DeletedAt := none }
  let task :=
    match req.Priority with
    | some p => { task with Priority := p }
    | none => { task with Priority := PriorityMedium }
  match fault 0 with
  | some e => (.error ("failed to create task: " ++ e), db)
  | none =>
    let res := db.Create now task
    (.ok res.2, res.1)

/-- `TaskService.GetTaskByID`. -/
def GetTaskByID (db : DB) (fault : Faults) (userID taskID : Nat) : Except String Task :=
  match fault 0 with
  | some e => .error ("failed to get task: " ++ e)
  | none =>
    match db.First (Query.start (condIDUser taskID userID)) with
    | none => .error errTaskNotFound
    | some task => .ok task

/-- `TaskService.GetTasksByUser`. -/
def GetTasksByUser (db : DB) (now : Time) (fault : Faults) (userID : Nat)
    (filter : TaskFilter) : Except String (List Task × Nat) :=
  let query := Query.start (condUser userID)
  let query := match filter.Status with
    | some s => query.Where (condStatus s)
    | none => query
  let query := match filter.Priority with
    | some p => query.Where (condPriority p)
    | none => query
  let query := if filter.Overdue = some true
    then query.Where (condOverdue now StatusCompleted) else query
  match fault 0 with
  | some e => .error ("failed to count tasks: " ++ e)
  | none =>
    let total := db.Count query
    let offset := wrapInt (wrapInt (filter.Page - 1) * filter.Limit)
    let query := (query.Offset offset).Limit filter.Limit
    let query := query.Order
    match fault 1 with
    | some e => .error ("failed to get tasks: " ++ e)
    | none => .ok (db.Find query, total)

/-- `TaskService.UpdateTask`. -/
def UpdateTask (db : DB) (now : Time) (fault : Faults) (userID taskID : Nat)
    (req : UpdateTaskRequest) : Except String Task × DB :=
  match GetTaskByID db fault userID taskID with
  | .error e => (.error e, db)
  | .ok task =>
    let task := match req.Title with
      | some v => { task with Title := v }
      | none => task
    let task := match req.Description with
      | some v => { task with Description := some v }
      | none => task
    let task := match req.Status with
      | some v => { task with Status := v }
      | none => task
    let task := match req.Priority with
      | some v => { task with Priority := v }
      | none => task
    let task := match req.DueDate with
      | some v => { task with DueDate := some v }
      | none => task
    match fault 1 with
    | some e => (.error ("failed to update task: " ++ e), db)
    | none =>
      let res := db.Save now task
      (.ok res.2, res.1)

/-- `TaskService.DeleteTask`. -/
def DeleteTask (db : DB) (now : Time) (fault : Faults) (userID taskID : Nat) :
    Except String Unit × DB :=
  match fault 0 with
  | some e => (.error ("failed to delete task: " ++ e), db)
  | none =>
    let res := db.Delete now (Query.start (condIDUser taskID userID))
    if res.2 = 0 then (.error errTaskNotFound, res.1) else (.ok (), res.1)

/-- `TaskService.GetTaskStats`. -/
def GetTaskStats (db : DB) (now : Time) (fault : Faults) (userID : Nat) :
    Except String TaskStats :=
  match fault 0 with
  | some e => .error ("failed to count total tasks: " ++ e)
  | none =>
    let total := db.Count (Query.start (condUser userID))
    match fault 1 with
    | some e => .error ("failed to count pending tasks: " ++ e)
    | none =>
      let pending := db.Count (Query.start (condUserStatus userID StatusPending))
      match fault 2 with
      | some e => .error ("failed to count completed tasks: " ++ e)
      | none =>
        let completed := db.Count (Query.start (condUserStatus userID StatusCompleted))
        match fault 3 with
        | some e => .error ("failed to count overdue tasks: " ++ e)
        | none =>
          let overdue := db.Count (Query.start (condUserOverdue userID now StatusCompleted))
          .ok { Total := total, Pending := pending, Completed := completed, Overdue := overdue }

/-- `TaskService.MarkTaskAsCompleted`. -/
def MarkTaskAsCompleted (db : DB) (now : Time) (fault : Faults) (userID taskID : Nat) :
    Except String Task × DB :=
  match GetTaskByID db fault userID taskID with
  | .error e => (.error e, db)
  | .ok task =>
    let task := task.MarkAsCompleted
    match fault 1 with
    | some e => (.error ("failed to mark task as completed: " ++ e), db)
    | none =>
      let res := db.Save now task
      (.ok res.2, res.1)

/-- `TaskService.MarkTaskAsPending`. -/
def MarkTaskAsPending (db : DB) (now : Time) (fault : Faults) (userID taskID : Nat) :
    Except String Task × DB :=
  match GetTaskByID db fault userID taskID with
  | .error e => (.error e, db)
  | .ok task =>
    let task := task.MarkAsPending
    match fault 1 with
    | some e => (.error ("failed to mark task as pending: " ++ e), db)
    | none =>
      let res := db.Save now task
      (.ok res.2, res.1)

/-! ## middleware/auth.go: the user id carried by the request context -/

/-- A value stored in the gin context under the key "userID", by its dynamic
Go type (`other` stands for every type the type switch does not list). -/
inductive CtxValue
  | uint (v : Nat)
  | int (v : Int)
  | str (s : String)
  | other
  deriving DecidableEq, Repr

/-- The message of `jwt.ErrTokenInvalidClaims`. -/
def errTokenInvalidClaims : String := "token has invalid claims"

/-- `strconv.ParseUint(s, 10, 32)`: a non-empty run of decimal digits whose
value fits 32 bits. -/
def parseUint32 (s : String) : Except String Nat :=
  if s = "" then .error "invalid syntax"
  else if s.toList.all Char.isDigit then
    let n := s.toList.foldl (fun acc c => acc * 10 + (c.toNat - 48)) 0
    if n < 2 ^ 32 then .ok n else .error "value out of range"
  else .error "invalid syntax"

/-- `GetUserIDFromContext`; the argument is the result of `c.Get("userID")`.
The conversion `uint(v)` of an `int` wraps modulo 2^64. -/
def GetUserIDFromContext (c : Option CtxValue) : Except String Nat :=
  match c with
  | none => .error errTokenInvalidClaims
  | some (.uint v) => .ok v
  | some (.int v) => .ok (v % 2 ^ 64).toNat
  | some (.str s) =>
    match parseUint32 s with
    | .error e => .error e
    | .ok id => .ok id
  | some .other => .error errTokenInvalidClaims

/-! ## Declared request validation (struct tags read by `validator.Struct`) -/

/-- `validate:"required,min=1,max=200"` on `Title` and
`validate:"omitempty,oneof=low medium high"` on `Priority`. -/
def validateCreateTaskRequest (r : CreateTaskRequest) : Bool :=
  (r.Title != "" && decide (1 ≤ r.Title.length) && decide (r.Title.length ≤ 200)) &&
  (match r.Priority with
   | none => true
   | some p => decide (p ∈ ["low", "medium", "high"]))

/-- `validate:"omitempty,min=1,max=200"` on `Title`,
`validate:"omitempty,oneof=pending completed"` on `Status` and
`validate:"omitempty,oneof=low medium high"` on `Priority`; a nil pointer is
skipped, a pointer to a value is checked. -/
def validateUpdateTaskRequest (r : UpdateTaskRequest) : Bool :=
  (match r.Title with
   | none => true
   | some t => decide (1 ≤ t.length) && decide (t.length ≤ 200)) &&
  (match r.Status with
   | none => true
   | some v => decide (v ∈ ["pending", "completed"])) &&
  (match r.Priority with
   | none => true
   | some p => decide (p ∈ ["low", "medium", "high"]))

/-! ## handlers/task_handler.go -/

/-- What a handler leaves behind: the HTTP status it wrote, the task in the
response body (if any), the store, and whether the task service was called. -/
structure HandlerResult where
  status : Nat
  task : Option Task
  db : DB
  serviceCalled : Bool
  deriving DecidableEq, Repr

/-- `TaskHandler.CreateTask` (POST /tasks); `body` is the outcome of
`c.ShouldBindJSON(&req)`. -/
def TaskHandler.CreateTask (db : DB) (now : Time) (fault : Faults) (ctx : Option CtxValue)
    (body : Except String CreateTaskRequest) : HandlerResult :=
  match GetUserIDFromContext ctx with
  | .error _ => { status := 401, task := none, db := db, serviceCalled := false }
  | .ok userID =>
    match body with
    | .error _ => { status := 400, task := none, db := db, serviceCalled := false }
    | .ok req =>
      if validateCreateTaskRequest req = false then
        { status := 400, task := none, db := db, serviceCalled := false }
      else
        match TaskApp.CreateTask db now fault userID req with
        | (.error _, db1) => { status := 500, task := none, db := db1, serviceCalled := true }
        | (.ok task, db1) => { status := 201, task := some task, db := db1, serviceCalled := true }

/-- `TaskHandler.UpdateTask` (PUT /tasks/:id); `idParam` is `c.Param("id")`
and `body` the outcome of `c.ShouldBindJSON(&req)`. -/
def TaskHandler.UpdateTask (db : DB) (now : Time) (fault : Faults) (ctx : Option CtxValue)
    (idParam : String) (body : Except String UpdateTaskRequest) : HandlerResult :=
  match GetUserIDFromContext ctx with
  | .error _ => { status := 401, task := none, db := db, serviceCalled := false }
  | .ok userID =>
    match parseUint32 idParam with
    | .error _ => { status := 400, task := none, db := db, serviceCalled := false }
    | .ok taskID =>
      match body with
      | .error _ => { status := 400, task := none, db := db, serviceCalled := false }
      | .ok req =>
        if validateUpdateTaskRequest req = false then
          { status := 400, task := none, db := db, serviceCalled := false }
        else
          match TaskApp.UpdateTask db now fault userID taskID req with
          | (.error e, db1) =>
            if e = "task not found" then
              { status := 404, task := none, db := db1, serviceCalled := true }
            else { status := 500, task := none, db := db1, serviceCalled := true }
          | (.ok task, db1) =>
            { status := 200, task := some task, db := db1, serviceCalled := true }

/-! ## middleware/auth.go: AuthMiddleware -/

/-- The claims object a token carries, as far as `Claims` reads it: the JSON
members "userId", "exp" and "nbf" (`none` = the member is absent). -/
structure ClaimsJSON where
  userId : Option Nat
  exp : Option Time
  nbf : Option Time
  deriving DecidableEq, Repr

/-- What `jwt.ParseWithClaims` finds in a token string.  `claims = none`: the
string is not three base64url segments holding a JSON header with a known
signing method and a JSON object that decodes into `Claims`.  `signedBy key`:
the signature segment verifies under `key` with the header's method. -/
structure TokenContent where
  claims : Option ClaimsJSON
  signedBy : String → Bool

/-- The struct `Claims`: `UserID uint` and the registered claims that the
validator reads. -/
structure Claims where
  UserID : Nat
  ExpiresAt : Option Time
  NotBefore : Option Time
  deriving DecidableEq, Repr

/-- Decoding the claims object into `Claims` with `encoding/json`: a member
that is absent leaves the field at its zero value. -/
def decodeClaims (j : ClaimsJSON) : Claims :=
  { UserID := match j.userId with
      | some n => n
      | none => 0
    ExpiresAt := j.exp
    NotBefore := j.nbf }

/-- The fields of `*jwt.Token` the middleware reads. -/
structure Token where
  Claims : Claims
  Valid : Bool
  deriving DecidableEq, Repr

/-- `jwt.ParseWithClaims(tokenString, &Claims{}, keyFunc)` where `keyFunc`
returns `[]byte(jwtSecret)`: decode, verify the signature, then validate
`exp` (now must be before it) and `nbf` (now must not be before it).
`content` is the reading of token strings (base64url, JSON and HMAC). -/
def ParseWithClaims (content : String → TokenContent) (jwtSecret : String) (now : Time)
    (tokenString : String) : Except String Token :=
  match (content tokenString).claims with
  | none => .error "token is malformed"
  | some j =>
    if (content tokenString).signedBy jwtSecret = false then
      .error "token signature is invalid"
    else
      let claims := decodeClaims j
      let expired := match claims.ExpiresAt with
        | some e => decide (¬ now < e)
        | none => false
      let early := match claims.NotBefore with
        | some n => decide (now < n)
        | none => false
      if expired = true then .error "token is expired"
      else if early = true then .error "token is not valid yet"
      else .ok { Claims := claims, Valid := true }

/-- The parts of an HTTP request: the Authorization header ("" when the header
is missing), and body, query string and path. -/
structure Request where
  Authorization : String
  Body : String
  Query : String
  Path : String
  deriving DecidableEq, Repr

/-- `strings.HasPrefix`. -/
def HasPrefix (s pre : String) : Bool := pre.toList.isPrefixOf s.toList

/-- What the middleware leaves behind: the status it wrote (if any), whether it
aborted the chain, whether it called `c.Next()`, and the value stored in the
context under "userID" (if any). -/
structure AuthResult where
  status : Option Nat
  aborted : Bool
  next : Bool
  userID : Option CtxValue
  deriving DecidableEq, Repr

/-- The result of answering 401 and aborting. -/
def unauthorized : AuthResult :=
  { status := some 401, aborted := true, next := false, userID := none }

/-- `AuthMiddleware(jwtSecret)` run on a request; the type assertion
`token.Claims.(*Claims)` always succeeds because the parser was handed a
`*Claims`. -/
def AuthMiddleware (content : String → TokenContent) (jwtSecret : String) (now : Time)
    (c : Request) : AuthResult :=
  let authHeader := c.Authorization
  if authHeader = "" then unauthorized
  else if HasPrefix authHeader "Bearer " = true then
    let tokenString := String.mk (authHeader.toList.drop 7)
    match ParseWithClaims content jwtSecret now tokenString with
    | .error _ => unauthorized
    | .ok token =>
      if token.Valid = false then unauthorized
      else
        { status := none, aborted := false, next := true,
          userID := some (.uint token.Claims.UserID) }
  else unauthorized

/-! ## handlers/task_handler.go: the remaining handlers -/

/-- The query parameters `TaskFilter` reads through its `form` tags, each with
its first value (`none` = the key is absent). -/
structure QueryParams where
  status : Option String
  priority : Option String
  overdue : Option String
  page : Option String
  limit : Option String
  deriving DecidableEq, Repr

/-- The value of a non-empty run of decimal digits, most significant first. -/
def digitsValue (cs : List Char) : Nat := cs.foldl (fun acc c => acc * 10 + (c.toNat - 48)) 0

/-- `strconv.ParseInt(s, 10, 64)`: an optional sign, then a non-empty run of
decimal digits, the value within the 64-bit range. -/
def parseInt64 (s : String) : Except String Int :=
  match s.toList with
  | [] => .error "invalid syntax"
  | c :: cs =>
    let neg := decide (c = '-')
    let digits := if c = '+' ∨ c = '-' then cs else c :: cs
    if digits.isEmpty then .error "invalid syntax"
    else if digits.all Char.isDigit then
      let n : Int := digitsValue digits
      let v : Int := if neg then -n else n
      if -(2 ^ 63) ≤ v ∧ v < 2 ^ 63 then .ok v else .error "value out of range"
    else .error "invalid syntax"

/-- `strconv.ParseBool`. -/
def parseBool (s : String) : Except String Bool :=
  if s ∈ ["1", "t", "T", "TRUE", "true", "True"] then .ok true
  else if s ∈ ["0", "f", "F", "FALSE", "false", "False"] then .ok false
  else .error "invalid syntax"

/-- `c.ShouldBindQuery(&filter)`: an absent key leaves the field at its zero
value (nil pointer, 0); an empty value reads as 0 for an int and false for a
bool; a value that does not parse is a binding error. -/
def bindQuery (q : QueryParams) : Except String TaskFilter :=
  let overdue : Except String (Option Bool) :=
    match q.overdue with
    | none => .ok none
    | some s =>
      match parseBool (if s = "" then "false" else s) with
      | .error e => .error e
      | .ok b => .ok (some b)
  let page : Except String Int :=
    match q.page with
    | none => .ok 0
    | some s => parseInt64 (if s = "" then "0" else s)
  let limit : Except String Int :=
    match q.limit with
    | none => .ok 0
    | some s => parseInt64 (if s = "" then "0" else s)
  match overdue, page, limit with
  | .ok o, .ok pg, .ok lm =>
    .ok { Status := q.status, Priority := q.priority, Overdue := o, Page := pg, Limit := lm }
  | .error e, _, _ => .error e
  | _, .error e, _ => .error e
  | _, _, .error e => .error e

/-- `validator.Struct(&filter)`: `omitempty,oneof=pending completed` on
`Status`, `omitempty,oneof=low medium high` on `Priority`, `min=1` on `Page`,
`min=1,max=100` on `Limit`. -/
def validateTaskFilter (f : TaskFilter) : Bool :=
  (match f.Status with
   | none => true
   | some v => decide (v ∈ ["pending", "completed"])) &&
  (match f.Priority with
   | none => true
   | some p => decide (p ∈ ["low", "medium", "high"])) &&
  decide (1 ≤ f.Page) && (decide (1 ≤ f.Limit) && decide (f.Limit ≤ 100))

/-- The default pagination values the handler fills in (source lines 69-75). -/
def withDefaults (filter : TaskFilter) : TaskFilter :=
  let filter := if filter.Page = 0 then { filter with Page := 1 } else filter
  if filter.Limit = 0 then { filter with Limit := 10 } else filter

/-- `TaskHandler.GetTasks` (GET /tasks). -/
def TaskHandler.GetTasks (db : DB) (now : Time) (fault : Faults) (ctx : Option CtxValue)
    (q : QueryParams) : HandlerResult :=
  match GetUserIDFromContext ctx with
  | .error _ => { status := 401, task := none, db := db, serviceCalled := false }
  | .ok userID =>
    match bindQuery q with
    | .error _ => { status := 400, task := none, db := db, serviceCalled := false }
    | .ok filter =>
      let filter := if filter.Page = 0 then { filter with Page := 1 } else filter
      let filter := if filter.Limit = 0 then { filter with Limit := 10 } else filter
      if validateTaskFilter filter = false then
        { status := 400, task := none, db := db, serviceCalled := false }
      else
        match TaskApp.GetTasksByUser db now fault userID filter with
        | .error _ => { status := 500, task := none, db := db, serviceCalled := true }
        | .ok _ => { status := 200, task := none, db := db, serviceCalled := true }

/-- `TaskHandler.GetTask` (GET /tasks/:id). -/
def TaskHandler.GetTask (db : DB) (fault : Faults) (ctx : Option CtxValue)
    (idParam : String) : HandlerResult :=
  match GetUserIDFromContext ctx with
  | .error _ => { status := 401, task := none, db := db, serviceCalled := false }
  | .ok userID =>
    match parseUint32 idParam with
    | .error _ => { status := 400, task := none, db := db, serviceCalled := false }
    | .ok taskID =>
      match TaskApp.GetTaskByID db fault userID taskID with
      | .error e =>
        if e = "task not found" then
          { status := 404, task := none, db := db, serviceCalled := true }
        else { status := 500, task := none, db := db, serviceCalled := true }
      | .ok task => { status := 200, task := some task, db := db, serviceCalled := true }

/-- `TaskHandler.DeleteTask` (DELETE /tasks/:id). -/
def TaskHandler.DeleteTask (db : DB) (now : Time) (fault : Faults) (ctx : Option CtxValue)
    (idParam : String) : HandlerResult :=
  match GetUserIDFromContext ctx with
  | .error _ => { status := 401, task := none, db := db, serviceCalled := false }
  | .ok userID =>
    match parseUint32 idParam with
    | .error _ => { status := 400, task := none, db := db, serviceCalled := false }
    | .ok taskID =>
      match TaskApp.DeleteTask db now fault userID taskID with
      | (.error e, db1) =>
        if e = "task not found" then
          { status := 404, task := none, db := db1, serviceCalled := true }
        else { status := 500, task := none, db := db1, serviceCalled := true }
      | (.ok _, db1) => { status := 200, task := none, db := db1, serviceCalled := true }

/-- `TaskHandler.GetTaskStats` (GET /tasks/stats). -/
def TaskHandler.GetTaskStats (db : DB) (now : Time) (fault : Faults)
    (ctx : Option CtxValue) : HandlerResult :=
  match GetUserIDFromContext ctx with
  | .error _ => { status := 401, task := none, db := db, serviceCalled := false }
  | .ok userID =>
    match TaskApp.GetTaskStats db now fault userID with
    | .error _ => { status := 500, task := none, db := db, serviceCalled := true }
    | .ok _ => { status := 200, task := none, db := db, serviceCalled := true }

/-- `TaskHandler.MarkTaskAsCompleted` (PATCH /tasks/:id/complete). -/
def TaskHandler.MarkTaskAsCompleted (db : DB) (now : Time) (fault : Faults)
    (ctx : Option CtxValue) (idParam : String) : HandlerResult :=
  match GetUserIDFromContext ctx with
  | .error _ => { status := 401, task := none, db := db, serviceCalled := false }
  | .ok userID =>
    match parseUint32 idParam with
    | .error _ => { status := 400, task := none, db := db, serviceCalled := false }
    | .ok taskID =>
      match TaskApp.MarkTaskAsCompleted db now fault userID taskID with
      | (.error e, db1) =>
        if e = "task not found" then
          { status := 404, task := none, db := db1, serviceCalled := true }
        else { status := 500, task := none, db := db1, serviceCalled := true }
      | (.ok task, db1) =>
        { status := 200, task := some task, db := db1, serviceCalled := true }

/-- `TaskHandler.MarkTaskAsPending` (PATCH /tasks/:id/pending). -/
def TaskHandler.MarkTaskAsPending (db : DB) (now : Time) (fault : Faults)
    (ctx : Option CtxValue) (idParam : String) : HandlerResult :=
  match GetUserIDFromContext ctx with
  | .error _ => { status := 401, task := none, db := db, serviceCalled := false }
  | .ok userID =>
    match parseUint32 idParam with
    | .error _ => { status := 400, task := none, db := db, serviceCalled := false }
    | .ok taskID =>
      match TaskApp.MarkTaskAsPending db now fault userID taskID with
      | (.error e, db1) =>
        if e = "task not found" then
          { status := 404, task := none, db := db1, serviceCalled := true }
        else { status := 500, task := none, db := db1, serviceCalled := true }
      | (.ok task, db1) =>
        { status := 200, task := some task, db := db1, serviceCalled := true }

/-! ## Histories of service calls -/

/-- A mutating call of the task service. -/
inductive Op
  | create (u : Nat) (req : CreateTaskRequest)
  | update (u t : Nat) (req : UpdateTaskRequest)
  | complete (u t : Nat)
  | pending (u t : Nat)
  | delete (u t : Nat)

/-- The request body of the call passes the declared validation. -/
def Op.valid : Op → Bool
  | .create _ req => validateCreateTaskRequest req
  | .update _ _ req => validateUpdateTaskRequest req
  | .complete _ _ => true
  | .pending _ _ => true
  | .delete _ _ => true

/-- The store after the call. -/
def Op.apply (db : DB) (now : Time) (fault : Faults) : Op → DB
  | .create u req => (CreateTask db now fault u req).2
  | .update u t req => (UpdateTask db now fault u t req).2
  | .complete u t => (MarkTaskAsCompleted db now fault u t).2
  | .pending u t => (MarkTaskAsPending db now fault u t).2
  | .delete u t => (DeleteTask db now fault u t).2

/-- A call together with the clock reading and the store faults it meets. -/
structure Call where
  now : Time
  fault : Faults
  op : Op

/-- The store after a history of calls. -/
def run (db : DB) : List Call → DB
  | [] => db
  | c :: cs => run (c.op.apply db c.now c.fault) cs

/-- Status and priority are among their enumerated values. -/
def enumOK (r : Task) : Prop :=
  (r.Status = StatusPending ∨ r.Status = StatusCompleted) ∧
  (r.Priority = PriorityLow ∨ r.Priority = PriorityMedium ∨ r.Priority = PriorityHigh)

instance (r : Task) : Decidable (enumOK r) := by unfold enumOK; infer_instance

/-! ## Predicates and sample data used in the statements -/

/-- Each of the five task-addressed operations, called as user `u` on task
`t`, answers "task not found" and hands back the store as it was. -/
def AllNotFound (db : DB) (now : Time) (fault : Faults) (u t : Nat)
    (req : UpdateTaskRequest) : Prop :=
  GetTaskByID db fault u t = .error errTaskNotFound ∧
  UpdateTask db now fault u t req = (.error errTaskNotFound, db) ∧
  MarkTaskAsCompleted db now fault u t = (.error errTaskNotFound, db) ∧
  MarkTaskAsPending db now fault u t = (.error errTaskNotFound, db) ∧
  DeleteTask db now fault u t = (.error errTaskNotFound, db)

/-- A live row with the given key, priority, owner and creation time. -/
def sampleTask (id : Nat) (p : TaskPriority) (u : Nat) (c : Time) : Task :=
  { ID := id, Title := "t", Description := none, Status := StatusPending, Priority := p,
    DueDate := none, UserID := u, CreatedAt := c, UpdatedAt := c, DeletedAt := none }

/-- Five tasks of user 1 (four of them high priority) and one task of user 2. -/
def sampleDB : DB :=
  { rows := [sampleTask 1 "low" 1 1, sampleTask 2 "high" 1 2, sampleTask 3 "high" 1 3,
             sampleTask 4 "high" 1 4, sampleTask 5 "high" 1 5, sampleTask 6 "high" 2 6],
    nextID := 7 }

/-- An update request that carries no field. -/
def emptyUpdate : UpdateTaskRequest :=
  { Title := none, Description := none, Status := none, Priority := none, DueDate := none }

/-- The listing predicate in the words of the specification: owner is the
caller, the row is not soft-deleted, the optional status and priority filters
agree, and under `overdue = true` the row has a due date strictly before `now`
and is not completed. -/
def specMatch (now : Time) (u : Nat) (f : TaskFilter) (r : Task) : Bool :=
  decide (r.UserID = u) && r.DeletedAt.isNone &&
  (match f.Status with
   | none => true
   | some s => decide (r.Status = s)) &&
  (match f.Priority with
   | none => true
   | some p => decide (r.Priority = p)) &&
  (if f.Overdue = some true then
     (match r.DueDate with
      | none => false
      | some d => decide (d < now) && decide (r.Status ≠ StatusCompleted))
   else true)

/-- The statement `GetTasksByUser` has built when it counts (source lines 58-69). -/
def listQuery (now : Time) (userID : Nat) (filter : TaskFilter) : Query :=
  let query := Query.start (condUser userID)
  let query := match filter.Status with
    | some s => query.Where (condStatus s)
    | none => query
  let query := match filter.Priority with
    | some p => query.Where (condPriority p)
    | none => query
  if filter.Overdue = some true
    then query.Where (condOverdue now StatusCompleted) else query

/-- The page offset `GetTasksByUser` computes (source line 78). -/
def pageOffset (filter : TaskFilter) : Int := wrapInt (wrapInt (filter.Page - 1) * filter.Limit)

/-- All rows matching the filter, in listing order, before the page is cut. -/
def sortedMatches (db : DB) (now : Time) (u : Nat) (f : TaskFilter) : List Task :=
  (db.rows.filter (specMatch now u f)).insertionSort listOrder

/-- A filter without status, priority or overdue restriction. -/
def pageFilter (page limit : Int) : TaskFilter :=
  { Status := none, Priority := none, Overdue := none, Page := page, Limit := limit }

/-- The updated task in the words of the specification: the loaded task in
which each of title, description, status, priority and due date that the
request carries takes the request's value, and nothing else differs. -/
def specUpdate (t : Task) (req : UpdateTaskRequest) : Task :=
  { ID := t.ID
    Title := match req.Title with
      | some v => v
      | none => t.Title
    Description := match req.Description with
      | some v => some v
      | none => t.Description
    Status := match req.Status with
      | some v => v
      | none => t.Status
    Priority := match req.Priority with
      | some v => v
      | none => t.Priority
    DueDate := match req.DueDate with
      | some v => some v
      | none => t.DueDate
    UserID := t.UserID
    CreatedAt := t.CreatedAt
    UpdatedAt := t.UpdatedAt
    DeletedAt := t.DeletedAt }

/-- The table after the row with key `id` has been overwritten by `t`. -/
def DB.replaceRow (db : DB) (id : Nat) (t : Task) : DB :=
  { rows := db.rows.map (fun r => if r.ID = id then t else r), nextID := db.nextID }

/-- The task value `CreateTask` hands to `db.Create` (source lines 23-34). -/
def newTask (userID : Nat) (req : CreateTaskRequest) : Task :=
  { ID := 0, Title := req.Title, Description := req.Description, Status := "",
    Priority := match req.Priority with
      | some p => p
      | none => PriorityMedium
    DueDate := req.DueDate, UserID := userID, CreatedAt := 0, UpdatedAt := 0,
    DeletedAt := none }

/-- The table with the rows of key `t` and owner `u` physically erased. -/
def DB.purge (db : DB) (t u : Nat) : DB :=
  { rows := db.rows.filter (fun r => !(decide (r.ID = t) && decide (r.UserID = u))),
    nextID := db.nextID }

/-- The specification's `total`: rows owned by `u` and not soft-deleted. -/
def specTotal (u : Nat) (r : Task) : Bool :=
  decide (r.UserID = u) && r.DeletedAt.isNone

/-- The specification's `pending`: those with status pending. -/
def specPending (u : Nat) (r : Task) : Bool :=
  specTotal u r && decide (r.Status = StatusPending)

/-- The specification's `completed`: those with status completed. -/
def specCompleted (u : Nat) (r : Task) : Bool :=
  specTotal u r && decide (r.Status = StatusCompleted)

/-- The specification's `overdue`: those with a due date strictly before `now`
and a status other than completed. -/
def specOverdue (now : Time) (u : Nat) (r : Task) : Bool :=
  specTotal u r &&
  (match r.DueDate with
   | some d => decide (d < now)
   | none => false) &&
  decide (r.Status ≠ StatusCompleted)

/-- Rows for the statistics of user 1 at time 10: an overdue pending task, a
completed task with a past due date, a pending task without due date, a
soft-deleted overdue task, and an overdue task of user 2. -/
def statsDB : DB :=
  { rows := [{ sampleTask 1 "low" 1 1 with DueDate := some 3 },
             { sampleTask 2 "high" 1 2 with DueDate := some 3, Status := StatusCompleted },
             sampleTask 3 "medium" 1 3,
             { sampleTask 4 "low" 1 4 with DueDate := some 3, DeletedAt := some 5 },
             { sampleTask 5 "low" 2 5 with DueDate := some 3 }],
    nextID := 6 }

/-- A history: user 1 creates two tasks, edits and completes the first,
deletes the second, and reopens the first. -/
def sampleCalls : List Call :=
  [ { now := 1, fault := healthy,
      op := .create 1 { Title := "Pay rent", Description := none, Priority := some "high",
                        DueDate := none } },
    { now := 2, fault := healthy,
      op := .create 1 { Title := "Call home", Description := none, Priority := none,
                        DueDate := some 9 } },
    { now := 3, fault := healthy,
      op := .update 1 1 { Title := none, Description := some "landlord", Status := none,
                          Priority := some "low", DueDate := none } },
    { now := 4, fault := healthy, op := .complete 1 1 },
    { now := 5, fault := healthy, op := .delete 1 2 },
    { now := 6, fault := healthy, op := .pending 1 1 } ]

/-- A reading of token strings for the examples: "good" carries user 123,
expires at 100 and is signed with "test-secret"; "anon" is the same without a
"userId" member; "stale" expired at 10; every other string is malformed. -/
def sampleContent : String → TokenContent := fun s =>
  if s = "good" then
    { claims := some { userId := some 123, exp := some 100, nbf := none },
      signedBy := fun k => decide (k = "test-secret") }
  else if s = "anon" then
    { claims := some { userId := none, exp := some 100, nbf := none },
      signedBy := fun k => decide (k = "test-secret") }
  else if s = "stale" then
    { claims := some { userId := some 123, exp := some 10, nbf := none },
      signedBy := fun k => decide (k = "test-secret") }
  else { claims := none, signedBy := fun _ => false }

/-- A request to the task list carrying the given Authorization value. -/
def sampleRequest (auth : String) : Request :=
  { Authorization := auth, Body := "", Query := "", Path := "/api/v1/tasks" }

/-- In the words of the claim: `s` is an unsigned decimal numeral of `n`, that
is a non-empty string of the digits 0-9 whose positional value is `n`. -/
def IsNumeralOf (s : String) (n : Nat) : Prop :=
  s.toList ≠ [] ∧ (∀ c ∈ s.toList, c.isDigit = true) ∧
  Nat.ofDigits 10 ((s.toList.map (fun c => c.toNat - 48)).reverse) = n

/-- The result of a handler that answered `code` before reaching the task
service: no task in the body, the store as it was, the service not called. -/
def rejected (code : Nat) (db : DB) : HandlerResult :=
  { status := code, task := none, db := db, serviceCalled := false }

/-- A create request with a title only. -/
def titleOnly : CreateTaskRequest :=
  { Title := "Test Task", Description := none, Priority := none, DueDate := none }

/-- No query parameter given. -/
def noParams : QueryParams :=
  { status := none, priority := none, overdue := none, page := none, limit := none }

/-- No live row has id `t` and owner `u`: the task is absent, soft-deleted or
owned by someone else. -/
def NoLiveRow (db : DB) (u t : Nat) : Prop :=
  ∀ r ∈ db.rows, r.DeletedAt = none → ¬(r.ID = t ∧ r.UserID = u)

/-- The status answers the service outcome `r`: 404 exactly for "task not
found", 500 exactly for any other error, 200 exactly for success. -/
def StatusMatches {α : Type} (status : Nat) (r : Except String α) : Prop :=
  (status = 404 ↔ r = .error errTaskNotFound) ∧
  (status = 500 ↔ ∃ e, r = .error e ∧ e ≠ errTaskNotFound) ∧
  (status = 200 ↔ ∃ v, r = .ok v)

/-- The status the id-taking handlers derive from a service outcome. -/
def codeFor {α : Type} (r : Except String α) : Nat :=
  match r with
  | .error e => if e = "task not found" then 404 else 500
  | .ok _ => 200

/-- The filter `TaskHandler.GetTasks` hands to `GetTasksByUser`, `none` when
binding or validation rejects the query. -/
def passedFilter (q : QueryParams) : Option TaskFilter :=
  match bindQuery q with
  | .error _ => none
  | .ok f => if validateTaskFilter (withDefaults f) = true then some (withDefaults f) else none

/-- The query `page=9223372036854775807&limit=100`. -/
def hugePageParams : QueryParams :=
  { status := none, priority := none, overdue := none,
    page := some "9223372036854775807", limit := some "100" }

/-- In the words of C23: row `a` may precede row `b` when a list is sorted by
`GetPriorityWeight` descending, rows of equal weight by creation time
descending as in the listing. -/
def weightOrder (a b : Task) : Prop :=
  b.GetPriorityWeight < a.GetPriorityWeight ∨
    (a.GetPriorityWeight = b.GetPriorityWeight ∧ b.CreatedAt ≤ a.CreatedAt)

instance : DecidableRel weightOrder := fun a b => by unfold weightOrder; infer_instance

/-- The priority is one of the three enumerated values. -/
def priorityInEnum (p : TaskPriority) : Prop :=
  p = PriorityLow ∨ p = PriorityMedium ∨ p = PriorityHigh

instance (p : TaskPriority) : Decidable (priorityInEnum p) := by
  unfold priorityInEnum; infer_instance

/-- A low-priority task created at 5 and a task of the unlisted priority
"urgent" created at 1, both of user 1. -/
def urgentDB : DB :=
  { rows := [sampleTask 1 "low" 1 5, sampleTask 2 "urgent" 1 1], nextID := 3 }

/-- Two high-priority tasks of user 1 created at the same instant. -/
def tieDB : DB :=
  { rows := [sampleTask 1 "high" 1 5, sampleTask 2 "high" 1 5], nextID := 3 }

/-- The rows of `tieDB` in the other storage order. -/
def tieDBswapped : DB :=
  { rows := [sampleTask 2 "high" 1 5, sampleTask 1 "high" 1 5], nextID := 3 }

/-- In the words of C21: the parameter value `s` is the integer `n`, written
as an optional sign followed by an unsigned decimal numeral. -/
def IsIntegerOf (s : String) (n : Int) : Prop :=
  (∃ m : Nat, IsNumeralOf s m ∧ n = m) ∨
  (∃ (t : String) (m : Nat), s = "+" ++ t ∧ IsNumeralOf t m ∧ n = m) ∨
  (∃ (t : String) (m : Nat), s = "-" ++ t ∧ IsNumeralOf t m ∧ n = -(m : Int))

/-- The query `page=0`. -/
def pageZeroParams : QueryParams :=
  { status := none, priority := none, overdue := none, page := some "0", limit := none }

/-- The query `limit=0`. -/
def limitZeroParams : QueryParams :=
  { status := none, priority := none, overdue := none, page := none, limit := some "0" }

/-- The query `page=-1`. -/
def negativePageParams : QueryParams :=
  { status := none, priority := none, overdue := none, page := some "-1", limit := none }

/-- A request to one of the eight task routes of `setupRoutes`
(api/server.go), as its handler receives it. -/
inductive HttpCall
  | create (ctx : Option CtxValue) (body : Except String CreateTaskRequest)
  | list (ctx : Option CtxValue) (q : QueryParams)
  | stats (ctx : Option CtxValue)
  | get (ctx : Option CtxValue) (idParam : String)
  | update (ctx : Option CtxValue) (idParam : String) (body : Except String UpdateTaskRequest)
  | delete (ctx : Option CtxValue) (idParam : String)
  | complete (ctx : Option CtxValue) (idParam : String)
  | pending (ctx : Option CtxValue) (idParam : String)

/-- The handler the router dispatches the request to. -/
def HttpCall.handle (db : DB) (now : Time) (fault : Faults) : HttpCall → HandlerResult
  | .create ctx body => TaskHandler.CreateTask db now fault ctx body
  | .list ctx q => TaskHandler.GetTasks db now fault ctx q
  | .stats ctx => TaskHandler.GetTaskStats db now fault ctx
  | .get ctx idParam => TaskHandler.GetTask db fault ctx idParam
  | .update ctx idParam body => TaskHandler.UpdateTask db now fault ctx idParam body
  | .delete ctx idParam => TaskHandler.DeleteTask db now fault ctx idParam
  | .complete ctx idParam => TaskHandler.MarkTaskAsCompleted db now fault ctx idParam
  | .pending ctx idParam => TaskHandler.MarkTaskAsPending db now fault ctx idParam

/-- A request together with the clock reading and the store faults it meets. -/
structure HttpStep where
  now : Time
  fault : Faults
  call : HttpCall

/-- The store after a history of requests to the task routes. -/
def serve (db : DB) : List HttpStep → DB
  | [] => db
  | s :: ss => serve (s.call.handle db s.now s.fault).db ss

/-- The title has between 1 and 200 characters. -/
def titleOK (r : Task) : Prop := 1 ≤ r.Title.length ∧ r.Title.length ≤ 200

instance (r : Task) : Decidable (titleOK r) := by unfold titleOK; infer_instance

/-- A create request with the given title and nothing else. -/
def titled (title : String) : CreateTaskRequest :=
  { Title := title, Description := none, Priority := none, DueDate := none }

/-- A history of requests of user 1: a create without title, a create with a
title, an update that empties the title, an update with a new title, and a
mark-completed. -/
def sampleSteps : List HttpStep :=
  [ { now := 1, fault := healthy, call := .create (some (.uint 1)) (.ok (titled "")) },
    { now := 2, fault := healthy, call := .create (some (.uint 1)) (.ok (titled "Pay rent")) },
    { now := 3, fault := healthy,
      call := .update (some (.uint 1)) "1"
        (.ok { emptyUpdate with Title := some "" }) },
    { now := 4, fault := healthy,
      call := .update (some (.uint 1)) "1"
        (.ok { emptyUpdate with Title := some "Pay the rent" }) },
    { now := 5, fault := healthy, call := .complete (some (.uint 1)) "1" } ]

/-- A reading of token strings in which "early" carries user 123, expires at
100, is not valid before 80 and is signed with "test-secret"; every other
string is malformed. -/
def earlyContent : String → TokenContent := fun s =>
  if s = "early" then
    { claims := some { userId := some 123, exp := some 100, nbf := some 80 },
      signedBy := fun k => decide (k = "test-secret") }
  else { claims := none, signedBy := fun _ => false }

/-! ## Basic facts about the store primitives -/

theorem sqlHolds_condIDUser (t u : Nat) (r : Task) :
    sqlHolds (condIDUser t u r) = true ↔ r.ID = t ∧ r.UserID = u := by
  unfold sqlHolds condIDUser sqlAnd sqlEq
  by_cases h1 : r.ID = t <;> by_cases h2 : r.UserID = u <;> simp [h1, h2]

theorem sqlHolds_condUser (u : Nat) (r : Task) :
    sqlHolds (condUser u r) = true ↔ r.UserID = u := by
  simp [sqlHolds, condUser, sqlEq]

theorem sqlHolds_condStatus (s : TaskStatus) (r : Task) :
    sqlHolds (condStatus s r) = true ↔ r.Status = s := by
  simp [sqlHolds, condStatus, sqlEq]

theorem sqlHolds_condPriority (p : TaskPriority) (r : Task) :
    sqlHolds (condPriority p r) = true ↔ r.Priority = p := by
  simp [sqlHolds, condPriority, sqlEq]

theorem sqlHolds_condOverdue (now : Time) (s : TaskStatus) (r : Task) :
    sqlHolds (condOverdue now s r) = true ↔ (∃ d, r.DueDate = some d ∧ d < now) ∧ r.Status ≠ s := by
  unfold sqlHolds condOverdue sqlAnd sqlLt sqlNe
  cases hd : r.DueDate with
  | none => by_cases h2 : r.Status = s <;> simp [h2]
  | some d => by_cases h1 : d < now <;> by_cases h2 : r.Status = s <;> simp [h1, h2]

theorem sqlHolds_condUserStatus (u : Nat) (s : TaskStatus) (r : Task) :
    sqlHolds (condUserStatus u s r) = true ↔ r.UserID = u ∧ r.Status = s := by
  unfold sqlHolds condUserStatus sqlAnd sqlEq
  by_cases h1 : r.UserID = u <;> by_cases h2 : r.Status = s <;> simp [h1, h2]

theorem sqlHolds_condUserOverdue (u : Nat) (now : Time) (s : TaskStatus) (r : Task) :
    sqlHolds (condUserOverdue u now s r) = true ↔
      r.UserID = u ∧ (∃ d, r.DueDate = some d ∧ d < now) ∧ r.Status ≠ s := by
  unfold sqlHolds condUserOverdue sqlAnd sqlEq sqlLt sqlNe
  cases hd : r.DueDate with
  | none => by_cases h0 : r.UserID = u <;> by_cases h2 : r.Status = s <;> simp [h0, h2]
  | some d =>
    by_cases h0 : r.UserID = u <;> by_cases h1 : d < now <;> by_cases h2 : r.Status = s <;>
      simp [h0, h1, h2]

theorem matches_start (c : Cond) (r : Task) :
    (Query.start c).matches r = true ↔ r.DeletedAt = none ∧ sqlHolds (c r) = true := by
  simp [Query.matches, Query.start]

theorem minByID_eq_none {l : List Task} : minByID l = none ↔ l = [] := by
  cases l with
  | nil => simp [minByID]
  | cons r rs =>
    simp only [minByID]
    cases minByID rs with
    | none => simp
    | some m => by_cases h : r.ID ≤ m.ID <;> simp [h]

theorem minByID_mem {l : List Task} {m : Task} (h : minByID l = some m) : m ∈ l := by
  induction l generalizing m with
  | nil => simp [minByID] at h
  | cons r rs ih =>
    simp only [minByID] at h
    cases hm : minByID rs with
    | none => simp [hm] at h; simp [h]
    | some m1 =>
      rw [hm] at h
      by_cases hle : r.ID ≤ m1.ID
      · simp [hle] at h; simp [h]
      · simp [hle] at h; subst h; exact List.mem_cons_of_mem _ (ih hm)

theorem First_eq_none {db : DB} {q : Query} :
    db.First q = none ↔ ∀ r ∈ db.rows, q.matches r = false := by
  unfold DB.First
  rw [minByID_eq_none, List.filter_eq_nil_iff]
  simp

theorem First_some {db : DB} {q : Query} {m : Task} (h : db.First q = some m) :
    m ∈ db.rows ∧ q.matches m = true := by
  have := minByID_mem h
  simpa [List.mem_filter] using this

theorem Delete_no_match {db : DB} {now : Time} {q : Query}
    (h : ∀ r ∈ db.rows, q.matches r = false) : db.Delete now q = (db, 0) := by
  unfold DB.Delete
  have h1 : db.rows.map (fun r => if q.matches r then { r with DeletedAt := some now } else r)
      = db.rows := by
    conv_rhs => rw [← List.map_id db.rows]
    apply List.map_congr_left
    intro r hr
    simp [h r hr]
  have h2 : db.rows.filter q.matches = [] := by
    rw [List.filter_eq_nil_iff]; intro r hr; simp [h r hr]
  rw [h1, h2]
  rfl

theorem WF_unique {db : DB} (hwf : db.WF) {r x : Task} (hr : r ∈ db.rows) (hx : x ∈ db.rows)
    (h : r.ID = x.ID) : r = x :=
  List.inj_on_of_nodup_map hwf.1 hr hx h

theorem WF_empty : DB.empty.WF := by
  simp [DB.WF, DB.empty]

theorem WF_Create {db : DB} (hwf : db.WF) (now : Time) (t : Task) : (db.Create now t).1.WF := by
  obtain ⟨hnd, hpos, hb⟩ := hwf
  simp only [DB.Create, DB.WF, List.map_append, List.map_cons, List.map_nil]
  refine ⟨?_, by omega, ?_⟩
  · rw [List.nodup_append]
    refine ⟨hnd, by simp, ?_⟩
    intro a ha1 ha2
    simp only [List.mem_singleton] at ha2
    obtain ⟨r, hr, rfl⟩ := List.mem_map.mp ha1
    have := (hb r hr).2
    omega
  · intro r hr
    rcases List.mem_append.mp hr with h | h
    · have := hb r h; omega
    · simp only [List.mem_singleton] at h
      subst h
      simp only
      omega

/-! ## C1: absent, soft-deleted and foreign tasks are "not found" -/

theorem GetTaskByID_not_found {db : DB} {fault : Faults} {u t : Nat} (hf : fault 0 = none)
    (h : ∀ r ∈ db.rows, r.DeletedAt = none → ¬(r.ID = t ∧ r.UserID = u)) :
    GetTaskByID db fault u t = .error errTaskNotFound := by
  have hnone : db.First (Query.start (condIDUser t u)) = none := by
    rw [First_eq_none]
    intro r hr
    rw [Bool.eq_false_iff]
    intro hm
    rw [matches_start, sqlHolds_condIDUser] at hm
    exact h r hr hm.1 hm.2
  simp [GetTaskByID, hf, hnone]

theorem allNotFound_of_no_live_row {db : DB} (now : Time) {fault : Faults} {u t : Nat}
    (req : UpdateTaskRequest) (hf : fault 0 = none)
    (h : ∀ r ∈ db.rows, r.DeletedAt = none → ¬(r.ID = t ∧ r.UserID = u)) :
    AllNotFound db now fault u t req := by
  have hg := GetTaskByID_not_found hf h
  have hd : db.Delete now (Query.start (condIDUser t u)) = (db, 0) := by
    apply Delete_no_match
    intro r hr
    rw [Bool.eq_false_iff]
    intro hm
    rw [matches_start, sqlHolds_condIDUser] at hm
    exact h r hr hm.1 hm.2
  refine ⟨hg, ?_, ?_, ?_, ?_⟩
  · simp [UpdateTask, hg]
  · simp [MarkTaskAsCompleted, hg]
  · simp [MarkTaskAsPending, hg]
  · simp [DeleteTask, hf, hd]

theorem BeforeCreate_UserID (t : Task) : t.BeforeCreate.UserID = t.UserID := by
  unfold Task.BeforeCreate
  by_cases h1 : t.Priority = "" <;> by_cases h2 : t.Status = "" <;> simp [h1, h2]

theorem Create_mem (db : DB) (now : Time) (t : Task) :
    (db.Create now t).2 ∈ (db.Create now t).1.rows := by
  simp [DB.Create]

theorem Create_UserID (db : DB) (now : Time) (t : Task) :
    (db.Create now t).2.UserID = t.UserID := by
  simp [DB.Create, BeforeCreate_UserID]

theorem allNotFound_of_foreign {db : DB} (now : Time) {fault : Faults} {u t : Nat}
    (req : UpdateTaskRequest) (hf : fault 0 = none) (hwf : db.WF)
    (h : ∃ x ∈ db.rows, x.ID = t ∧ x.UserID ≠ u) : AllNotFound db now fault u t req := by
  obtain ⟨x, hx, hxt, hxu⟩ := h
  apply allNotFound_of_no_live_row now req hf
  intro r hr _ hru
  have : r = x := WF_unique hwf hr hx (by rw [hru.1, hxt])
  subst this
  exact hxu hru.2

/-! ## C2: what the listing selects and counts -/

theorem GetTasksByUser_eq (db : DB) (now : Time) (fault : Faults) (u : Nat) (f : TaskFilter)
    (h0 : fault 0 = none) (h1 : fault 1 = none) :
    GetTasksByUser db now fault u f =
      .ok (db.Find (((listQuery now u f).Offset (pageOffset f)).Limit f.Limit).Order,
           db.Count (listQuery now u f)) := by
  simp only [GetTasksByUser, h0, h1, listQuery, pageOffset]

theorem matches_Offset (q : Query) (n : Int) : (q.Offset n).matches = q.matches := rfl

theorem matches_Limit (q : Query) (n : Int) : (q.Limit n).matches = q.matches := rfl

theorem matches_Order (q : Query) : q.Order.matches = q.matches := rfl

theorem matches_Where (q : Query) (c : Cond) (r : Task) :
    (q.Where c).matches r = (q.matches r && sqlHolds (c r)) := by
  simp [Query.matches, Query.Where, Bool.and_assoc]

theorem listQuery_matches (now : Time) (u : Nat) (f : TaskFilter) (r : Task) :
    (listQuery now u f).matches r = specMatch now u f r := by
  rw [Bool.eq_iff_iff]
  unfold listQuery specMatch
  rcases f with ⟨st, pr, ov, pg, lm⟩
  cases st <;> cases pr <;> by_cases ho : ov = some true <;>
    simp only [ho, if_true, if_false, matches_Where, Bool.and_eq_true, matches_start,
      sqlHolds_condUser, sqlHolds_condStatus, sqlHolds_condPriority, sqlHolds_condOverdue,
      decide_eq_true_eq, Option.isNone_iff_eq_none, Bool.and_true, reduceCtorEq] <;>
    cases hd : r.DueDate <;>
    (try simp only [Bool.and_eq_true, decide_eq_true_eq, Option.some.injEq, exists_eq_left',
      reduceCtorEq, false_and, exists_false, and_false, Bool.false_eq_true, ne_eq,
      decide_not, Bool.not_eq_true', decide_eq_false_iff_not, and_true]) <;>
    tauto

theorem mem_applyOffset {n : Int} {l : List Task} {x : Task} (h : x ∈ applyOffset n l) :
    x ∈ l := by
  unfold applyOffset at h
  split at h
  · exact List.mem_of_mem_drop h
  · exact h

theorem mem_applyLimit {n : Option Int} {l : List Task} {x : Task} (h : x ∈ applyLimit n l) :
    x ∈ l := by
  unfold applyLimit at h
  split at h
  · exact h
  · split at h
    · exact List.mem_of_mem_take h
    · exact h

theorem mem_Find {db : DB} {q : Query} {x : Task} (h : x ∈ db.Find q) :
    x ∈ db.rows ∧ q.matches x = true := by
  unfold DB.Find at h
  have h1 := mem_applyOffset (mem_applyLimit h)
  have h2 : x ∈ db.rows.filter q.matches := by
    split at h1
    · exact (List.perm_insertionSort _ _).mem_iff.mp h1
    · exact h1
  simpa [List.mem_filter] using h2

theorem Count_listQuery (db : DB) (now : Time) (u : Nat) (f : TaskFilter) :
    db.Count (listQuery now u f) = db.rows.countP (specMatch now u f) := by
  unfold DB.Count
  rw [List.countP_eq_length_filter]
  congr 2
  funext r
  exact listQuery_matches now u f r

/-- C2: the total returned by GetTasksByUser is the number of rows with
owner = u, not soft-deleted, status and priority equal to the filter's where
given, and, under overdue = true, a due date strictly before now and a status
other than completed.  The total does not depend on Page or Limit, every
returned task is a row satisfying this predicate, and a task without a due
date never matches an overdue = true filter. -/
theorem c2_listing_total (db : DB) (now : Time) (fault : Faults) (u : Nat) (f : TaskFilter)
    (h0 : fault 0 = none) (h1 : fault 1 = none) :
    ∃ tasks : List Task,
      GetTasksByUser db now fault u f = .ok (tasks, db.rows.countP (specMatch now u f)) ∧
      (∀ page limit : Int, ∃ tasks2 : List Task,
        GetTasksByUser db now fault u { f with Page := page, Limit := limit } =
          .ok (tasks2, db.rows.countP (specMatch now u f))) ∧
      (∀ x ∈ tasks, x ∈ db.rows ∧ specMatch now u f x = true) ∧
      (f.Overdue = some true → ∀ x : Task, x.DueDate = none →
        specMatch now u f x = false ∧ x ∉ tasks) := by
  have hmem : ∀ x ∈ db.Find (((listQuery now u f).Offset (pageOffset f)).Limit f.Limit).Order,
      x ∈ db.rows ∧ specMatch now u f x = true := by
    intro x hx
    have := mem_Find hx
    rw [matches_Order, matches_Limit, matches_Offset, listQuery_matches] at this
    exact this
  refine ⟨_, ?_, ?_, hmem, ?_⟩
  · rw [GetTasksByUser_eq db now fault u f h0 h1, Count_listQuery]
  · intro page limit
    rw [GetTasksByUser_eq db now fault u _ h0 h1, Count_listQuery]
    exact ⟨_, rfl⟩
  · intro ho x hx
    have hfalse : specMatch now u f x = false := by
      simp [specMatch, ho, hx]
    refine ⟨hfalse, fun hin => ?_⟩
    have := (hmem x hin).2
    rw [hfalse] at this
    exact Bool.false_ne_true this

/-- Witness for C2: user 1 lists high-priority tasks of the sample store. -/
theorem c2_listing_total_witness :
    ∃ tasks : List Task,
      GetTasksByUser sampleDB 10 healthy 1
          { Status := none, Priority := some "high", Overdue := none, Page := 1, Limit := 2 } =
        .ok (tasks, 4) :=
  (c2_listing_total sampleDB 10 healthy 1
    { Status := none, Priority := some "high", Overdue := none, Page := 1, Limit := 2 }
    rfl rfl).imp fun _ h => h.1

/-! ## C3, C4: ordering and pagination -/

theorem wrapInt_of_inRange {x : Int} (h1 : -(2 ^ 63) ≤ x) (h2 : x < 2 ^ 63) : wrapInt x = x := by
  unfold wrapInt
  omega

theorem Find_listing (db : DB) (now : Time) (u : Nat) (f : TaskFilter) :
    db.Find (((listQuery now u f).Offset (pageOffset f)).Limit f.Limit).Order =
      applyLimit (some f.Limit) (applyOffset (pageOffset f) (sortedMatches db now u f)) := by
  have hm : (((listQuery now u f).Offset (pageOffset f)).Limit f.Limit).Order.matches
      = specMatch now u f := by
    funext r
    rw [matches_Order, matches_Limit, matches_Offset, listQuery_matches]
  unfold DB.Find sortedMatches
  rw [hm]
  rfl

theorem sortedMatches_sorted (db : DB) (now : Time) (u : Nat) (f : TaskFilter) :
    (sortedMatches db now u f).Sorted listOrder :=
  List.sorted_insertionSort listOrder _

theorem applyOffset_sublist (n : Int) (l : List Task) : (applyOffset n l).Sublist l := by
  unfold applyOffset
  split
  · exact List.drop_sublist _ _
  · exact List.Sublist.refl _

theorem applyLimit_sublist (n : Option Int) (l : List Task) : (applyLimit n l).Sublist l := by
  unfold applyLimit
  split
  · exact List.Sublist.refl _
  · split
    · exact List.take_sublist _ _
    · exact List.Sublist.refl _

/-- The list returned by GetTasksByUser is sorted by priority rank descending,
then creation time descending, whatever the page. -/
theorem listing_sorted (db : DB) (now : Time) (fault : Faults) (u : Nat) (f : TaskFilter)
    (h0 : fault 0 = none) (h1 : fault 1 = none) :
    ∃ tasks total, GetTasksByUser db now fault u f = .ok (tasks, total) ∧
      tasks.Sorted listOrder := by
  refine ⟨_, _, GetTasksByUser_eq db now fault u f h0 h1, ?_⟩
  rw [Find_listing]
  exact ((sortedMatches_sorted db now u f).sublist (applyOffset_sublist _ _)).sublist
    (applyLimit_sublist _ _)

theorem pageOffset_of_inRange {f : TaskFilter} (hp : 1 ≤ f.Page) (hl : 1 ≤ f.Limit)
    (hb : (f.Page - 1) * f.Limit < 2 ^ 63) : pageOffset f = (f.Page - 1) * f.Limit := by
  have h0 : 0 ≤ f.Page - 1 := by omega
  have h1 : f.Page - 1 ≤ (f.Page - 1) * f.Limit := le_mul_of_one_le_right h0 hl
  have h2 : 0 ≤ (f.Page - 1) * f.Limit := by positivity
  unfold pageOffset
  rw [wrapInt_of_inRange (x := f.Page - 1) (by omega) (by omega),
    wrapInt_of_inRange (by omega) hb]

/-- Pagination away from machine-integer overflow: for page >= 1, limit >= 1
and (page-1)*limit below 2^63, GetTasksByUser skips (page-1)*limit rows of the
sorted list of matching rows and returns the next `limit` rows, that is
min(limit, total - (page-1)*limit) rows. -/
theorem pagination_inRange (db : DB) (now : Time) (fault : Faults) (u : Nat) (f : TaskFilter)
    (h0 : fault 0 = none) (h1 : fault 1 = none) (hp : 1 ≤ f.Page) (hl : 1 ≤ f.Limit)
    (hb : (f.Page - 1) * f.Limit < 2 ^ 63) :
    ∃ tasks : List Task,
      GetTasksByUser db now fault u f = .ok (tasks, (sortedMatches db now u f).length) ∧
      tasks = ((sortedMatches db now u f).drop ((f.Page - 1) * f.Limit).toNat).take
                f.Limit.toNat ∧
      tasks.length = min f.Limit.toNat
        ((sortedMatches db now u f).length - ((f.Page - 1) * f.Limit).toNat) := by
  have hlen : db.Count (listQuery now u f) = (sortedMatches db now u f).length := by
    rw [Count_listQuery, List.countP_eq_length_filter]
    exact ((List.perm_insertionSort listOrder _).length_eq).symm
  have hcut : db.Find (((listQuery now u f).Offset (pageOffset f)).Limit f.Limit).Order =
      ((sortedMatches db now u f).drop ((f.Page - 1) * f.Limit).toNat).take f.Limit.toNat := by
    rw [Find_listing, pageOffset_of_inRange hp hl hb]
    unfold applyLimit applyOffset
    have hl0 : 0 ≤ f.Limit := by omega
    simp only [hl0, if_true]
    split
    · rfl
    · rename_i hneg
      have hz : (f.Page - 1) * f.Limit = 0 := by
        have : 0 ≤ (f.Page - 1) * f.Limit := by
          have : 0 ≤ f.Page - 1 := by omega
          positivity
        omega
      rw [hz]
      simp
  refine ⟨_, ?_, hcut, ?_⟩
  · rw [GetTasksByUser_eq db now fault u f h0 h1, hlen]
  · rw [hcut, List.length_take, List.length_drop]

/-- Within one returned page a task never precedes a task of higher rank. -/
theorem listing_higher_rank_first (db : DB) (now : Time) (fault : Faults) (u : Nat)
    (f : TaskFilter) (h0 : fault 0 = none) (h1 : fault 1 = none) :
    ∃ tasks total, GetTasksByUser db now fault u f = .ok (tasks, total) ∧
      tasks.Pairwise (fun x y => priorityRank y.Priority ≤ priorityRank x.Priority) := by
  obtain ⟨tasks, total, h, hs⟩ := listing_sorted db now fault u f h0 h1
  refine ⟨tasks, total, h, ?_⟩
  refine List.Pairwise.imp ?_ hs
  intro a b hab
  unfold listOrder at hab
  rcases hab with hab | hab
  · exact Nat.le_of_lt hab
  · exact Nat.le_of_eq hab.1.symm

/-- Away from overflow, no task on a later page outranks a task on an earlier
page of the same listing. -/
theorem later_page_not_outranking_inRange (db : DB) (now : Time) (fault : Faults) (u : Nat)
    (f : TaskFilter) (p1 p2 : Int) (h0 : fault 0 = none) (h1 : fault 1 = none)
    (hp1 : 1 ≤ p1) (hp : p1 < p2) (hl : 1 ≤ f.Limit) (hb : (p2 - 1) * f.Limit < 2 ^ 63) :
    ∃ a b total,
      GetTasksByUser db now fault u { f with Page := p1 } = .ok (a, total) ∧
      GetTasksByUser db now fault u { f with Page := p2 } = .ok (b, total) ∧
      ∀ x ∈ a, ∀ y ∈ b, priorityRank y.Priority ≤ priorityRank x.Priority := by
  have hmono : (p1 - 1) * f.Limit + f.Limit ≤ (p2 - 1) * f.Limit := by
    have : p1 * f.Limit ≤ (p2 - 1) * f.Limit :=
      mul_le_mul_of_nonneg_right (by omega) (by omega)
    linarith
  have hb1 : (p1 - 1) * f.Limit < 2 ^ 63 := by omega
  obtain ⟨a, ha, hacut, -⟩ :=
    pagination_inRange db now fault u { f with Page := p1 } h0 h1 hp1 hl hb1
  obtain ⟨b, hb2, hbcut, -⟩ :=
    pagination_inRange db now fault u { f with Page := p2 } h0 h1 (by simp only; omega) hl hb
  refine ⟨a, b, _, ha, hb2, ?_⟩
  have hS : sortedMatches db now u { f with Page := p2 } =
      sortedMatches db now u { f with Page := p1 } := rfl
  rw [hS] at hbcut
  simp only at hacut hbcut
  set S := sortedMatches db now u { f with Page := p1 } with hSdef
  set o1 := ((p1 - 1) * f.Limit).toNat
  set o2 := ((p2 - 1) * f.Limit).toNat
  set L := f.Limit.toNat
  have ho : o1 + L ≤ o2 := by
    have h1n : 0 ≤ (p1 - 1) * f.Limit := by
      have : 0 ≤ p1 - 1 := by omega
      positivity
    omega
  have hsorted : S.Sorted listOrder := sortedMatches_sorted db now u _
  have hsplit : S = S.take (o1 + L) ++ S.drop (o1 + L) := (List.take_append_drop _ _).symm
  rw [hsplit] at hsorted
  have hpw := (List.pairwise_append.mp hsorted).2.2
  intro x hx y hy
  have hx1 : x ∈ S.take (o1 + L) := by
    rw [hacut, List.take_drop] at hx
    exact List.mem_of_mem_drop hx
  have hy1 : y ∈ S.drop (o1 + L) := by
    rw [hbcut] at hy
    have hy2 := List.mem_of_mem_take hy
    have : o2 = (o1 + L) + (o2 - (o1 + L)) := by omega
    rw [this, ← List.drop_drop] at hy2
    exact List.mem_of_mem_drop hy2
  have hxy := hpw x hx1 y hy1
  unfold listOrder at hxy
  rcases hxy with hxy | hxy
  · exact Nat.le_of_lt hxy
  · exact Nat.le_of_eq hxy.1.symm

/-- Instance of the pagination rule: with 12 matching tasks, page 2 and limit 5
return items 6-10 of the sorted list and total = 12. -/
theorem pagination_twelve (db : DB) (now : Time) (u : Nat) (f : TaskFilter)
    (h12 : (sortedMatches db now u f).length = 12) (hp : f.Page = 2) (hl : f.Limit = 5) :
    ∃ tasks : List Task, GetTasksByUser db now healthy u f = .ok (tasks, 12) ∧
      tasks = ((sortedMatches db now u f).drop 5).take 5 ∧ tasks.length = 5 := by
  obtain ⟨tasks, h, hcut, hlen⟩ := pagination_inRange db now healthy u f rfl rfl
    (by omega) (by omega) (by rw [hp, hl]; norm_num)
  rw [h12] at h hlen
  rw [hp, hl] at hcut hlen
  exact ⟨tasks, h, hcut, by simpa using hlen⟩

/-- C4 at a failing input: page 4611686018427387905 (= 2^62 + 1) with limit 4
passes the declared validation, but the 64-bit product (page-1)*limit = 2^64
wraps to offset 0, so GetTasksByUser returns the first four rows of the sorted
list, where skipping (page-1)*limit rows leaves none. -/
theorem c4_offset_overflow :
    (1 ≤ (pageFilter 4611686018427387905 4).Page ∧ 1 ≤ (pageFilter 4611686018427387905 4).Limit ∧
      (pageFilter 4611686018427387905 4).Limit ≤ 100) ∧
    pageOffset (pageFilter 4611686018427387905 4) = 0 ∧
    GetTasksByUser sampleDB 10 healthy 1 (pageFilter 4611686018427387905 4) =
      .ok ([sampleTask 5 "high" 1 5, sampleTask 4 "high" 1 4, sampleTask 3 "high" 1 3,
            sampleTask 2 "high" 1 2], 5) ∧
    ((sortedMatches sampleDB 10 1 (pageFilter 4611686018427387905 4)).drop
        ((4611686018427387905 - 1) * 4 : Int).toNat).take 4 = [] := by
  decide

/-- C3 at a failing input: for the same overflowing page, the later page
4611686018427387905 holds high-priority tasks while the earlier page 2 holds a
low-priority task (limit 4 in both). -/
theorem c3_later_page_outranks :
    GetTasksByUser sampleDB 10 healthy 1 (pageFilter 2 4) =
      .ok ([sampleTask 1 "low" 1 1], 5) ∧
    GetTasksByUser sampleDB 10 healthy 1 (pageFilter 4611686018427387905 4) =
      .ok ([sampleTask 5 "high" 1 5, sampleTask 4 "high" 1 4, sampleTask 3 "high" 1 3,
            sampleTask 2 "high" 1 2], 5) ∧
    (1 ≤ (pageFilter 2 4).Page ∧ (pageFilter 2 4).Page < (pageFilter 4611686018427387905 4).Page ∧
      1 ≤ (pageFilter 2 4).Limit ∧ (pageFilter 2 4).Limit ≤ 100) ∧
    priorityRank (sampleTask 1 "low" 1 1).Priority <
      priorityRank (sampleTask 5 "high" 1 5).Priority := by
  decide

/-! ## C5: what an update changes -/

theorem GetTaskByID_found {db : DB} {fault : Faults} {u t : Nat} {x : Task} (hwf : db.WF)
    (h0 : fault 0 = none) (hx : x ∈ db.rows) (hlive : x.DeletedAt = none) (hid : x.ID = t)
    (hu : x.UserID = u) : GetTaskByID db fault u t = .ok x := by
  have hxm : (Query.start (condIDUser t u)).matches x = true := by
    rw [matches_start, sqlHolds_condIDUser]; exact ⟨hlive, hid, hu⟩
  cases hf : db.First (Query.start (condIDUser t u)) with
  | none =>
    rw [First_eq_none] at hf
    have := hf x hx
    rw [hxm] at this
    exact absurd this (by decide)
  | some m =>
    obtain ⟨hm, hmm⟩ := First_some hf
    rw [matches_start, sqlHolds_condIDUser] at hmm
    have : m = x := WF_unique hwf hm hx (by rw [hmm.2.1, hid])
    subst this
    simp [GetTaskByID, h0, hf]

theorem Save_live {db : DB} (now : Time) {x : Task} (t : Task) (hwf : db.WF) (hx : x ∈ db.rows)
    (hlive : x.DeletedAt = none) (hid : t.ID = x.ID) :
    db.Save now t =
      (db.replaceRow x.ID { t with UpdatedAt := now }, { t with UpdatedAt := now }) := by
  have hpos : t.ID ≠ 0 := by
    have := (hwf.2.2 x hx).1
    omega
  have hany : db.rows.any (fun r => decide (r.ID = t.ID) && r.DeletedAt.isNone) = true := by
    rw [List.any_eq_true]
    exact ⟨x, hx, by simp [hid, hlive]⟩
  have hmap : db.rows.map
        (fun r => if r.ID = t.ID ∧ r.DeletedAt.isNone then { t with UpdatedAt := now } else r) =
      db.rows.map (fun r => if r.ID = x.ID then { t with UpdatedAt := now } else r) := by
    apply List.map_congr_left
    intro r hr
    by_cases hrx : r.ID = x.ID
    · have : r = x := WF_unique hwf hr hx hrx
      subst this
      simp [hid, hlive]
    · simp [hid, hrx]
  unfold DB.Save DB.replaceRow
  rw [if_neg hpos, if_pos hany, hmap]

theorem UpdateTask_eq (db : DB) (now : Time) (fault : Faults) (u t : Nat)
    (req : UpdateTaskRequest) (task : Task) (h1 : fault 1 = none)
    (hg : GetTaskByID db fault u t = .ok task) :
    UpdateTask db now fault u t req =
      (.ok (db.Save now (specUpdate task req)).2, (db.Save now (specUpdate task req)).1) := by
  rcases req with ⟨a, b, c, d, e⟩
  unfold UpdateTask
  rw [hg]
  simp only [h1]
  cases a <;> cases b <;> cases c <;> cases d <;> cases e <;> rfl

theorem replaceRow_ids (db : DB) (id : Nat) (t : Task) (hid : t.ID = id) :
    (db.replaceRow id t).rows.map Task.ID = db.rows.map Task.ID := by
  unfold DB.replaceRow
  rw [List.map_map]
  apply List.map_congr_left
  intro r _
  by_cases h : r.ID = id <;> simp [h, hid]

theorem WF_replaceRow {db : DB} (hwf : db.WF) (id : Nat) (t : Task) (hid : t.ID = id) :
    (db.replaceRow id t).WF := by
  refine ⟨by rw [replaceRow_ids db id t hid]; exact hwf.1, hwf.2.1, ?_⟩
  intro r hr
  have hmem : r.ID ∈ (db.replaceRow id t).rows.map Task.ID := List.mem_map_of_mem _ hr
  rw [replaceRow_ids db id t hid] at hmem
  obtain ⟨r0, hr0, hr0id⟩ := List.mem_map.mp hmem
  rw [← hr0id]
  exact hwf.2.2 r0 hr0

theorem mem_replaceRow {db : DB} {x : Task} (hx : x ∈ db.rows) (t : Task) :
    t ∈ (db.replaceRow x.ID t).rows := by
  unfold DB.replaceRow
  exact List.mem_map.mpr ⟨x, hx, by simp⟩

/-- C5 (amended): for a task `x` visible to its owner, UpdateTask saves and
returns `x` in which each of title, description, status, priority and due date
present in the request takes the request's value and updatedAt is set to the
time of the save; fields absent from the request keep their value, and id,
owner id, createdAt and deletedAt are unchanged.  The saved row is what the
next GetTaskByID returns. -/
theorem c5_update_frame (db : DB) (now : Time) (fault : Faults) (u t : Nat)
    (req : UpdateTaskRequest) (x : Task) (hwf : db.WF) (h0 : fault 0 = none)
    (h1 : fault 1 = none) (hx : x ∈ db.rows) (hlive : x.DeletedAt = none) (hid : x.ID = t)
    (hu : x.UserID = u) :
    GetTaskByID db fault u t = .ok x ∧
    UpdateTask db now fault u t req =
      (.ok { specUpdate x req with UpdatedAt := now },
       db.replaceRow t { specUpdate x req with UpdatedAt := now }) ∧
    GetTaskByID (db.replaceRow t { specUpdate x req with UpdatedAt := now }) fault u t =
      .ok { specUpdate x req with UpdatedAt := now } ∧
    (specUpdate x req).ID = x.ID ∧ (specUpdate x req).UserID = x.UserID ∧
    (specUpdate x req).CreatedAt = x.CreatedAt ∧ (specUpdate x req).DeletedAt = x.DeletedAt := by
  have hg := GetTaskByID_found hwf h0 hx hlive hid hu
  have hs := Save_live now (specUpdate x req) hwf hx hlive rfl
  refine ⟨hg, ?_, ?_, rfl, rfl, rfl, rfl⟩
  · rw [UpdateTask_eq db now fault u t req x h1 hg, hs, hid]
  · subst hid
    exact GetTaskByID_found (WF_replaceRow hwf _ _ rfl) h0 (mem_replaceRow hx _) hlive rfl hu

/-- Witness for C5: user 1 retitles and completes task 2 of the sample store. -/
theorem c5_update_frame_witness :
    UpdateTask sampleDB 10 healthy 1 2
        { Title := some "new", Description := none, Status := some StatusCompleted,
          Priority := none, DueDate := none } =
      (.ok { sampleTask 2 "high" 1 2 with
              Title := "new", Status := StatusCompleted, UpdatedAt := 10 },
       sampleDB.replaceRow 2 { sampleTask 2 "high" 1 2 with
              Title := "new", Status := StatusCompleted, UpdatedAt := 10 }) :=
  (c5_update_frame sampleDB 10 healthy 1 2
    { Title := some "new", Description := none, Status := some StatusCompleted,
      Priority := none, DueDate := none }
    (sampleTask 2 "high" 1 2) (by decide) rfl rfl (by decide) rfl rfl rfl).2.1

/-- C5 as stated fails: an update that carries no field still returns a task
that differs from the loaded one, because saving re-stamps updatedAt. -/
theorem c5_updatedAt_restamped :
    GetTaskByID sampleDB healthy 1 2 = .ok (sampleTask 2 "high" 1 2) ∧
    specUpdate (sampleTask 2 "high" 1 2) emptyUpdate = sampleTask 2 "high" 1 2 ∧
    (UpdateTask sampleDB 10 healthy 1 2 emptyUpdate).1 =
      .ok { sampleTask 2 "high" 1 2 with UpdatedAt := 10 } ∧
    (UpdateTask sampleDB 10 healthy 1 2 emptyUpdate).1 ≠
      .ok (specUpdate (sampleTask 2 "high" 1 2) emptyUpdate) := by
  decide

/-! ## C6: what a create yields -/

theorem CreateTask_eq (db : DB) (now : Time) (fault : Faults) (u : Nat)
    (req : CreateTaskRequest) (h0 : fault 0 = none) :
    CreateTask db now fault u req =
      (.ok (db.Create now (newTask u req)).2, (db.Create now (newTask u req)).1) := by
  rcases req with ⟨ti, de, pr, du⟩
  cases pr <;> simp only [CreateTask, h0, newTask]

/-- C6 (amended): when the store write succeeds, CreateTask(u, r) yields a task
with status = pending, priority = r.Priority if given and not the empty
string and medium otherwise, owner id = u, and title, description and due date
copied from r; the task is appended to the table under the next key.  The
owner id is the argument u whatever the request holds. -/
theorem c6_create_defaults (db : DB) (now : Time) (fault : Faults) (u : Nat)
    (req : CreateTaskRequest) (h0 : fault 0 = none) :
    ∃ task : Task,
      CreateTask db now fault u req =
        (.ok task, { rows := db.rows ++ [task], nextID := db.nextID + 1 }) ∧
      task.Status = StatusPending ∧
      task.Priority = (match req.Priority with
        | some p => if p = "" then PriorityMedium else p
        | none => PriorityMedium) ∧
      task.UserID = u ∧ task.Title = req.Title ∧ task.Description = req.Description ∧
      task.DueDate = req.DueDate ∧ task.ID = db.nextID ∧ task.CreatedAt = now ∧
      task.DeletedAt = none ∧
      ∀ req2 : CreateTaskRequest, ∃ task2 db2,
        CreateTask db now fault u req2 = (.ok task2, db2) ∧ task2.UserID = u := by
  have key : ∀ r : CreateTaskRequest, ∃ task : Task,
      CreateTask db now fault u r =
        (.ok task, { rows := db.rows ++ [task], nextID := db.nextID + 1 }) ∧
      task.Status = StatusPending ∧
      task.Priority = (match r.Priority with
        | some p => if p = "" then PriorityMedium else p
        | none => PriorityMedium) ∧
      task.UserID = u ∧ task.Title = r.Title ∧ task.Description = r.Description ∧
      task.DueDate = r.DueDate ∧ task.ID = db.nextID ∧ task.CreatedAt = now ∧
      task.DeletedAt = none := by
    intro r
    refine ⟨(db.Create now (newTask u r)).2, ?_, ?_⟩
    · rw [CreateTask_eq db now fault u r h0]; rfl
    · rcases r with ⟨ti, de, pr, du⟩
      cases pr with
      | none => simp [DB.Create, newTask, Task.BeforeCreate, PriorityMedium]
      | some p => by_cases hp : p = "" <;> simp [DB.Create, newTask, Task.BeforeCreate, hp]
  obtain ⟨task, h⟩ := key req
  refine ⟨task, h.1, h.2.1, h.2.2.1, h.2.2.2.1, h.2.2.2.2.1, h.2.2.2.2.2.1, h.2.2.2.2.2.2.1,
    h.2.2.2.2.2.2.2.1, h.2.2.2.2.2.2.2.2.1, h.2.2.2.2.2.2.2.2.2, ?_⟩
  intro req2
  obtain ⟨task2, h2⟩ := key req2
  exact ⟨task2, _, h2.1, h2.2.2.2.1⟩

/-- Witness for C6: user 7 creates a high-priority task in the empty store. -/
theorem c6_create_defaults_witness :
    ∃ task : Task,
      CreateTask DB.empty 5 healthy 7
          { Title := "Pay rent", Description := none, Priority := some "high", DueDate := none } =
        (.ok task, { rows := [task], nextID := 2 }) ∧
      task.Status = StatusPending ∧ task.Priority = "high" ∧ task.UserID = 7 :=
  (c6_create_defaults DB.empty 5 healthy 7
    { Title := "Pay rent", Description := none, Priority := some "high", DueDate := none }
    rfl).imp fun _ h => ⟨h.1, h.2.1, h.2.2.1, h.2.2.2.1⟩

/-- C6 as stated fails: a request whose priority is given as the empty string
yields priority medium, not the given value, because BeforeCreate replaces an
empty priority. -/
theorem c6_empty_priority_defaulted :
    (CreateTask DB.empty 5 healthy 7
        { Title := "x", Description := none, Priority := some "", DueDate := none }).1 =
      .ok { ID := 1, Title := "x", Description := none, Status := "pending",
            Priority := "medium", DueDate := none, UserID := 7, CreatedAt := 5,
            UpdatedAt := 5, DeletedAt := none } ∧
    ("medium" : TaskPriority) ≠ "" := by
  decide

/-! ## C7: completing and reopening a task -/

theorem MarkTaskAsCompleted_visible {db : DB} (now : Time) {fault : Faults} {u t : Nat}
    {x : Task} (hwf : db.WF) (h0 : fault 0 = none) (h1 : fault 1 = none) (hx : x ∈ db.rows)
    (hlive : x.DeletedAt = none) (hid : x.ID = t) (hu : x.UserID = u) :
    MarkTaskAsCompleted db now fault u t =
      (.ok { x with Status := StatusCompleted, UpdatedAt := now },
       db.replaceRow t { x with Status := StatusCompleted, UpdatedAt := now }) := by
  subst hid
  have hg := GetTaskByID_found hwf h0 hx hlive rfl hu
  have hs := Save_live now x.MarkAsCompleted hwf hx hlive rfl
  simp only [MarkTaskAsCompleted, hg, h1, hs]
  rfl

theorem MarkTaskAsPending_visible {db : DB} (now : Time) {fault : Faults} {u t : Nat}
    {x : Task} (hwf : db.WF) (h0 : fault 0 = none) (h1 : fault 1 = none) (hx : x ∈ db.rows)
    (hlive : x.DeletedAt = none) (hid : x.ID = t) (hu : x.UserID = u) :
    MarkTaskAsPending db now fault u t =
      (.ok { x with Status := StatusPending, UpdatedAt := now },
       db.replaceRow t { x with Status := StatusPending, UpdatedAt := now }) := by
  subst hid
  have hg := GetTaskByID_found hwf h0 hx hlive rfl hu
  have hs := Save_live now x.MarkAsPending hwf hx hlive rfl
  simp only [MarkTaskAsPending, hg, h1, hs]
  rfl

/-- C7: for a task `x` visible to its owner, whatever its status and other
fields, MarkTaskAsCompleted succeeds with status = completed; a second call
(at time now2) succeeds again with status = completed and differs from the
first result in updatedAt only.  MarkTaskAsPending likewise always succeeds
with status = pending, also right after a completion, and a completion
succeeds right after a reopening. -/
theorem c7_mark_idempotent (db : DB) (now now2 : Time) (fault : Faults) (u t : Nat) (x : Task)
    (hwf : db.WF) (h0 : fault 0 = none) (h1 : fault 1 = none) (hx : x ∈ db.rows)
    (hlive : x.DeletedAt = none) (hid : x.ID = t) (hu : x.UserID = u) :
    ∃ (c1 c2 p1 p2 cp pc : Task) (dc dc2 dp dp2 dcp dpc : DB),
      MarkTaskAsCompleted db now fault u t = (.ok c1, dc) ∧
      MarkTaskAsCompleted dc now2 fault u t = (.ok c2, dc2) ∧
      c1 = { x with Status := StatusCompleted, UpdatedAt := now } ∧
      c2 = { c1 with UpdatedAt := now2 } ∧ c2.Status = StatusCompleted ∧
      MarkTaskAsPending db now fault u t = (.ok p1, dp) ∧
      MarkTaskAsPending dp now2 fault u t = (.ok p2, dp2) ∧
      p1 = { x with Status := StatusPending, UpdatedAt := now } ∧
      p2 = { p1 with UpdatedAt := now2 } ∧ p2.Status = StatusPending ∧
      MarkTaskAsPending dc now2 fault u t = (.ok cp, dcp) ∧
      cp = { c1 with Status := StatusPending, UpdatedAt := now2 } ∧
      MarkTaskAsCompleted dp now2 fault u t = (.ok pc, dpc) ∧
      pc = { p1 with Status := StatusCompleted, UpdatedAt := now2 } := by
  subst hid
  have hc := MarkTaskAsCompleted_visible now hwf h0 h1 hx hlive rfl hu
  have hp := MarkTaskAsPending_visible now hwf h0 h1 hx hlive rfl hu
  have hwc := WF_replaceRow hwf x.ID { x with Status := StatusCompleted, UpdatedAt := now } rfl
  have hwp := WF_replaceRow hwf x.ID { x with Status := StatusPending, UpdatedAt := now } rfl
  have hmc := mem_replaceRow hx { x with Status := StatusCompleted, UpdatedAt := now }
  have hmp := mem_replaceRow hx { x with Status := StatusPending, UpdatedAt := now }
  have hc2 := MarkTaskAsCompleted_visible now2 hwc h0 h1 hmc hlive rfl hu
  have hp2 := MarkTaskAsPending_visible now2 hwp h0 h1 hmp hlive rfl hu
  have hcp := MarkTaskAsPending_visible now2 hwc h0 h1 hmc hlive rfl hu
  have hpc := MarkTaskAsCompleted_visible now2 hwp h0 h1 hmp hlive rfl hu
  exact ⟨_, _, _, _, _, _, _, _, _, _, _, _, hc, hc2, rfl, rfl, rfl, hp, hp2, rfl, rfl, rfl,
    hcp, rfl, hpc, rfl⟩

/-- Witness for C7: user 1 completes task 2 of the sample store twice. -/
theorem c7_mark_idempotent_witness :
    ∃ (c1 c2 : Task) (dc dc2 : DB),
      MarkTaskAsCompleted sampleDB 10 healthy 1 2 = (.ok c1, dc) ∧
      MarkTaskAsCompleted dc 11 healthy 1 2 = (.ok c2, dc2) ∧
      c1.Status = StatusCompleted ∧ c2 = { c1 with UpdatedAt := 11 } := by
  obtain ⟨c1, c2, _, _, _, _, dc, dc2, _, _, _, _, h1, h2, h3, h4, _⟩ :=
    c7_mark_idempotent sampleDB 10 11 healthy 1 2 (sampleTask 2 "high" 1 2)
      (by decide) rfl rfl (by decide) rfl rfl rfl
  exact ⟨c1, c2, dc, dc2, h1, h2, by rw [h3], h4⟩

/-! ## C8: a soft-deleted task is gone for every operation -/

theorem matches_deleted (q : Query) (r : Task) (h : r.DeletedAt ≠ none) :
    q.matches r = false := by
  unfold Query.matches
  cases hd : r.DeletedAt with
  | none => exact absurd hd h
  | some d => simp

theorem filter_Delete (db : DB) (now : Time) (t u : Nat) (q : Query) :
    (db.Delete now (Query.start (condIDUser t u))).1.rows.filter q.matches =
      (db.purge t u).rows.filter q.matches := by
  unfold DB.Delete DB.purge
  simp only
  induction db.rows with
  | nil => rfl
  | cons r rs ih =>
    by_cases hm : (Query.start (condIDUser t u)).matches r = true
    · have hk := hm
      rw [matches_start, sqlHolds_condIDUser] at hk
      have hdel : q.matches { r with DeletedAt := some now } = false :=
        matches_deleted q _ (by simp)
      have hkeep : (!(decide (r.ID = t) && decide (r.UserID = u))) = false := by
        simp [hk.2.1, hk.2.2]
      simp only [List.map_cons, hm, if_true, List.filter_cons, hdel, hkeep,
        Bool.false_eq_true, if_false]
      exact ih
    · by_cases hk : r.ID = t ∧ r.UserID = u
      · have hnl : r.DeletedAt ≠ none := by
          intro hl
          exact hm (by rw [matches_start, sqlHolds_condIDUser]; exact ⟨hl, hk⟩)
        have hkeep : (!(decide (r.ID = t) && decide (r.UserID = u))) = false := by
          simp [hk.1, hk.2]
        simp only [List.map_cons, hm, List.filter_cons, matches_deleted q r hnl, hkeep,
          Bool.false_eq_true, if_false]
        exact ih
      · have hkeep : (!(decide (r.ID = t) && decide (r.UserID = u))) = true := by
          by_cases h1 : r.ID = t
          · have h2 : ¬ r.UserID = u := fun h2 => hk ⟨h1, h2⟩
            simp [h1, h2]
          · simp [h1]
        simp only [List.map_cons, hm, List.filter_cons, hkeep, if_true, Bool.false_eq_true,
          if_false]
        rw [ih]

theorem DeleteTask_ok {db db1 : DB} {now : Time} {fault : Faults} {u t : Nat}
    (h : DeleteTask db now fault u t = (.ok (), db1)) :
    db1 = (db.Delete now (Query.start (condIDUser t u))).1 := by
  unfold DeleteTask at h
  cases hf : fault 0 with
  | some e => simp [hf] at h
  | none =>
    simp only [hf] at h
    split at h
    · simp at h
    · simp only [Prod.mk.injEq, true_and] at h
      exact h.symm

theorem Count_after_Delete (db : DB) (now : Time) (t u : Nat) (q : Query) :
    (db.Delete now (Query.start (condIDUser t u))).1.Count q = (db.purge t u).Count q := by
  unfold DB.Count
  rw [filter_Delete]

theorem Find_after_Delete (db : DB) (now : Time) (t u : Nat) (q : Query) :
    (db.Delete now (Query.start (condIDUser t u))).1.Find q = (db.purge t u).Find q := by
  unfold DB.Find
  rw [filter_Delete]

theorem no_live_after_Delete (db : DB) (now : Time) (t u : Nat) :
    ∀ r ∈ (db.Delete now (Query.start (condIDUser t u))).1.rows,
      r.DeletedAt = none → ¬(r.ID = t ∧ r.UserID = u) := by
  intro r hr hlive hk
  have hmem : r ∈ (db.Delete now (Query.start (condIDUser t u))).1.rows.filter
      (Query.start (condIDUser t u)).matches := by
    rw [List.mem_filter, matches_start, sqlHolds_condIDUser]
    exact ⟨hr, hlive, hk⟩
  rw [filter_Delete, List.mem_filter] at hmem
  have := hmem.1
  unfold DB.purge at this
  simp only [List.mem_filter] at this
  simp [hk.1, hk.2] at this

/-- C8: after a successful DeleteTask(u, t) the task is treated as
non-existent: every task-addressed operation on (u, t), a second DeleteTask
and GetTaskByID included, fails with "task not found" and changes nothing;
every listing and every statistic, for every user, filter and time, is what it
would be had the row been erased from the table, and no listing returns a task
with that id and owner. -/
theorem c8_deleted_is_gone (db db1 : DB) (now : Time) (fault : Faults) (u t : Nat)
    (hdel : DeleteTask db now fault u t = (.ok (), db1)) :
    (∀ (now2 : Time) (fl : Faults) (req : UpdateTaskRequest), fl 0 = none →
        AllNotFound db1 now2 fl u t req) ∧
    (∀ (now2 : Time) (fl : Faults) (u2 : Nat) (f : TaskFilter),
        GetTasksByUser db1 now2 fl u2 f = GetTasksByUser (db.purge t u) now2 fl u2 f) ∧
    (∀ (now2 : Time) (fl : Faults) (u2 : Nat) (f : TaskFilter) (tasks : List Task) (total : Nat),
        GetTasksByUser db1 now2 fl u2 f = .ok (tasks, total) →
        ∀ x ∈ tasks, ¬(x.ID = t ∧ x.UserID = u)) ∧
    (∀ (now2 : Time) (fl : Faults) (u2 : Nat),
        GetTaskStats db1 now2 fl u2 = GetTaskStats (db.purge t u) now2 fl u2) := by
  have hdb := DeleteTask_ok hdel
  subst hdb
  have hlist : ∀ (now2 : Time) (fl : Faults) (u2 : Nat) (f : TaskFilter),
      GetTasksByUser (db.Delete now (Query.start (condIDUser t u))).1 now2 fl u2 f =
        GetTasksByUser (db.purge t u) now2 fl u2 f := by
    intro now2 fl u2 f
    simp only [GetTasksByUser, Count_after_Delete, Find_after_Delete]
  refine ⟨?_, hlist, ?_, ?_⟩
  · intro now2 fl req hfl
    exact allNotFound_of_no_live_row now2 req hfl (no_live_after_Delete db now t u)
  · intro now2 fl u2 f tasks total h x hx hk
    cases hf0 : fl 0 with
    | some e => simp [GetTasksByUser, hf0] at h
    | none =>
      cases hf1 : fl 1 with
      | some e => simp [GetTasksByUser, hf0, hf1] at h
      | none =>
        rw [GetTasksByUser_eq _ now2 fl u2 f hf0 hf1] at h
        simp only [Except.ok.injEq, Prod.mk.injEq] at h
        rw [← h.1] at hx
        obtain ⟨hmem, hm⟩ := mem_Find hx
        unfold Query.matches at hm
        simp only [Bool.and_eq_true, Option.isNone_iff_eq_none] at hm
        exact no_live_after_Delete db now t u x hmem hm.1 hk
  · intro now2 fl u2
    simp only [GetTaskStats, Count_after_Delete]

/-- Witness for C8: user 1 deletes task 2 of the sample store; a second
delete and a lookup then fail. -/
theorem c8_deleted_is_gone_witness :
    AllNotFound (DeleteTask sampleDB 10 healthy 1 2).2 11 healthy 1 2 emptyUpdate :=
  (c8_deleted_is_gone sampleDB (DeleteTask sampleDB 10 healthy 1 2).2 10 healthy 1 2
    (by decide)).1 11 healthy emptyUpdate rfl

/-! ## C9: the four statistics -/

theorem Count_start (db : DB) (c : Cond) (p : Task → Bool)
    (h : ∀ r, (r.DeletedAt = none ∧ sqlHolds (c r) = true) ↔ p r = true) :
    db.Count (Query.start c) = db.rows.countP p := by
  unfold DB.Count
  rw [List.countP_eq_length_filter]
  congr 2
  funext r
  rw [Bool.eq_iff_iff, matches_start]
  exact h r

theorem statsTotal_iff (u : Nat) (r : Task) :
    (r.DeletedAt = none ∧ sqlHolds (condUser u r) = true) ↔ specTotal u r = true := by
  rw [sqlHolds_condUser]
  simp only [specTotal, Bool.and_eq_true, decide_eq_true_eq, Option.isNone_iff_eq_none]
  tauto

theorem specStatus_iff (u : Nat) (s : TaskStatus) (r : Task) :
    (r.DeletedAt = none ∧ sqlHolds (condUserStatus u s r) = true) ↔
      (specTotal u r && decide (r.Status = s)) = true := by
  rw [sqlHolds_condUserStatus]
  simp only [specTotal, Bool.and_eq_true, decide_eq_true_eq, Option.isNone_iff_eq_none]
  tauto

theorem statsOverdue_iff (now : Time) (u : Nat) (r : Task) :
    (r.DeletedAt = none ∧ sqlHolds (condUserOverdue u now StatusCompleted r) = true) ↔
      specOverdue now u r = true := by
  rw [sqlHolds_condUserOverdue]
  simp only [specOverdue, specTotal, Bool.and_eq_true, decide_eq_true_eq,
    Option.isNone_iff_eq_none]
  cases hd : r.DueDate with
  | none => simp
  | some d =>
    simp only [Option.some.injEq, exists_eq_left', decide_eq_true_eq]
    tauto

/-- C9: GetTaskStats(u) returns total = number of non-deleted rows owned by u,
pending = those with status pending, completed = those with status completed,
overdue = those with a due date strictly before now and status other than
completed.  A completed task, and a task without a due date, is never counted
as overdue, and a row of another user is counted in none of the four. -/
theorem c9_stats_counts (db : DB) (now : Time) (fault : Faults) (u : Nat)
    (h0 : fault 0 = none) (h1 : fault 1 = none) (h2 : fault 2 = none) (h3 : fault 3 = none) :
    GetTaskStats db now fault u =
      .ok { Total := db.rows.countP (specTotal u),
            Pending := db.rows.countP (specPending u),
            Completed := db.rows.countP (specCompleted u),
            Overdue := db.rows.countP (specOverdue now u) } ∧
    (∀ r : Task, r.Status = StatusCompleted → specOverdue now u r = false) ∧
    (∀ r : Task, r.DueDate = none → specOverdue now u r = false) ∧
    (∀ r : Task, r.UserID ≠ u →
      specTotal u r = false ∧ specPending u r = false ∧ specCompleted u r = false ∧
        specOverdue now u r = false) := by
  refine ⟨?_, ?_, ?_, ?_⟩
  · simp only [GetTaskStats, h0, h1, h2, h3]
    rw [Count_start db _ _ (statsTotal_iff u),
      Count_start db _ (specPending u) (specStatus_iff u StatusPending),
      Count_start db _ (specCompleted u) (specStatus_iff u StatusCompleted),
      Count_start db _ _ (statsOverdue_iff now u)]
  · intro r hr
    simp [specOverdue, hr]
  · intro r hr
    simp [specOverdue, hr]
  · intro r hr
    simp [specOverdue, specPending, specCompleted, specTotal, hr]

/-- Witness for C9: the statistics of user 1 over `statsDB` at time 10. -/
theorem c9_stats_counts_witness :
    GetTaskStats statsDB 10 healthy 1 =
      .ok { Total := 3, Pending := 2, Completed := 1, Overdue := 1 } :=
  (c9_stats_counts statsDB 10 healthy 1 rfl rfl rfl rfl).1

/-! ## C10: status and priority stay within their enumerations -/

theorem GetTaskByID_ok {db : DB} {fault : Faults} {u t : Nat} {task : Task}
    (h : GetTaskByID db fault u t = .ok task) :
    task ∈ db.rows ∧ task.DeletedAt = none ∧ task.ID = t ∧ task.UserID = u := by
  unfold GetTaskByID at h
  cases hf : fault 0 with
  | some e => simp [hf] at h
  | none =>
    simp only [hf] at h
    cases hq : db.First (Query.start (condIDUser t u)) with
    | none => simp [hq] at h
    | some m =>
      simp only [hq, Except.ok.injEq] at h
      subst h
      obtain ⟨hm, hmm⟩ := First_some hq
      rw [matches_start, sqlHolds_condIDUser] at hmm
      exact ⟨hm, hmm.1, hmm.2.1, hmm.2.2⟩

theorem enumOK_replaceRow {db : DB} (id : Nat) {t : Task} (h : ∀ r ∈ db.rows, enumOK r)
    (ht : enumOK t) : ∀ r ∈ (db.replaceRow id t).rows, enumOK r := by
  intro r hr
  unfold DB.replaceRow at hr
  obtain ⟨r0, hr0, rfl⟩ := List.mem_map.mp hr
  by_cases hid : r0.ID = id
  · simpa [hid] using ht
  · simpa [hid] using h r0 hr0

theorem inv_Save_loaded {db : DB} (now : Time) {fault : Faults} {u t : Nat} {task new : Task}
    (hinv : db.WF ∧ ∀ r ∈ db.rows, enumOK r) (hg : GetTaskByID db fault u t = .ok task)
    (hid : new.ID = task.ID) (hnew : enumOK new) :
    (db.Save now new).1.WF ∧ ∀ r ∈ (db.Save now new).1.rows, enumOK r := by
  obtain ⟨hmem, hlive, _, _⟩ := GetTaskByID_ok hg
  rw [Save_live now new hinv.1 hmem hlive hid]
  exact ⟨WF_replaceRow hinv.1 _ _ hid, enumOK_replaceRow _ hinv.2 hnew⟩

theorem enumOK_specUpdate {task : Task} {req : UpdateTaskRequest} (ht : enumOK task)
    (hv : validateUpdateTaskRequest req = true) : enumOK (specUpdate task req) := by
  rcases req with ⟨a, b, c, d, e⟩
  simp only [validateUpdateTaskRequest, Bool.and_eq_true] at hv
  obtain ⟨⟨_, hs⟩, hp⟩ := hv
  unfold enumOK at *
  constructor
  · cases c with
    | none => exact ht.1
    | some v =>
      simp only [specUpdate, StatusPending, StatusCompleted]
      simpa using hs
  · cases d with
    | none => exact ht.2
    | some v =>
      simp only [specUpdate, PriorityLow, PriorityMedium, PriorityHigh]
      simpa using hp

theorem enumOK_newTask (u : Nat) {req : CreateTaskRequest}
    (hv : validateCreateTaskRequest req = true) (db : DB) (now : Time) :
    enumOK (db.Create now (newTask u req)).2 := by
  rcases req with ⟨ti, de, pr, du⟩
  simp only [validateCreateTaskRequest, Bool.and_eq_true] at hv
  obtain ⟨_, hp⟩ := hv
  cases pr with
  | none =>
    simp [enumOK, DB.Create, newTask, Task.BeforeCreate, PriorityMedium, StatusPending]
  | some p =>
    simp only [List.mem_cons, List.mem_singleton, decide_eq_true_eq, List.not_mem_nil,
      or_false] at hp
    rcases hp with rfl | rfl | rfl <;>
      simp [enumOK, DB.Create, newTask, Task.BeforeCreate, PriorityMedium, StatusPending,
        PriorityLow, PriorityHigh]

theorem inv_Delete {db : DB} (now : Time) (q : Query)
    (hinv : db.WF ∧ ∀ r ∈ db.rows, enumOK r) :
    (db.Delete now q).1.WF ∧ ∀ r ∈ (db.Delete now q).1.rows, enumOK r := by
  have hids : (db.Delete now q).1.rows.map Task.ID = db.rows.map Task.ID := by
    unfold DB.Delete
    simp only [List.map_map]
    apply List.map_congr_left
    intro r _
    by_cases h : q.matches r = true <;> simp [h]
  refine ⟨⟨by rw [hids]; exact hinv.1.1, hinv.1.2.1, ?_⟩, ?_⟩
  · intro r hr
    have hmem : r.ID ∈ (db.Delete now q).1.rows.map Task.ID := List.mem_map_of_mem _ hr
    rw [hids] at hmem
    obtain ⟨r0, hr0, hr0id⟩ := List.mem_map.mp hmem
    rw [← hr0id]
    exact hinv.1.2.2 r0 hr0
  · intro r hr
    unfold DB.Delete at hr
    obtain ⟨r0, hr0, rfl⟩ := List.mem_map.mp hr
    have := hinv.2 r0 hr0
    by_cases h : q.matches r0 = true
    · simpa [h, enumOK] using this
    · simpa [h] using this

theorem inv_apply {db : DB} (now : Time) (fault : Faults) (op : Op) (hv : op.valid = true)
    (hinv : db.WF ∧ ∀ r ∈ db.rows, enumOK r) :
    (op.apply db now fault).WF ∧ ∀ r ∈ (op.apply db now fault).rows, enumOK r := by
  cases op with
  | create u req =>
    simp only [Op.apply]
    cases hf : fault 0 with
    | some e => simpa [CreateTask, hf] using hinv
    | none =>
      rw [CreateTask_eq db now fault u req hf]
      refine ⟨WF_Create hinv.1 _ _, ?_⟩
      intro r hr
      simp only [DB.Create, List.mem_append, List.mem_singleton] at hr
      rcases hr with hr | hr
      · exact hinv.2 r hr
      · rw [hr]; exact enumOK_newTask u hv db now
  | update u t req =>
    simp only [Op.apply]
    cases hg : GetTaskByID db fault u t with
    | error e => simpa [UpdateTask, hg] using hinv
    | ok task =>
      cases hf : fault 1 with
      | some e =>
        rcases req with ⟨a, b, c, d, e1⟩
        simpa [UpdateTask, hg, hf] using hinv
      | none =>
        rw [UpdateTask_eq db now fault u t req task hf hg]
        exact inv_Save_loaded now hinv hg rfl
          (enumOK_specUpdate (hinv.2 task (GetTaskByID_ok hg).1) hv)
  | complete u t =>
    simp only [Op.apply]
    cases hg : GetTaskByID db fault u t with
    | error e => simpa [MarkTaskAsCompleted, hg] using hinv
    | ok task =>
      cases hf : fault 1 with
      | some e => simpa [MarkTaskAsCompleted, hg, hf] using hinv
      | none =>
        simp only [MarkTaskAsCompleted, hg, hf]
        refine inv_Save_loaded now hinv hg rfl ?_
        have := hinv.2 task (GetTaskByID_ok hg).1
        exact ⟨Or.inr rfl, this.2⟩
  | pending u t =>
    simp only [Op.apply]
    cases hg : GetTaskByID db fault u t with
    | error e => simpa [MarkTaskAsPending, hg] using hinv
    | ok task =>
      cases hf : fault 1 with
      | some e => simpa [MarkTaskAsPending, hg, hf] using hinv
      | none =>
        simp only [MarkTaskAsPending, hg, hf]
        refine inv_Save_loaded now hinv hg rfl ?_
        have := hinv.2 task (GetTaskByID_ok hg).1
        exact ⟨Or.inl rfl, this.2⟩
  | delete u t =>
    simp only [Op.apply]
    cases hf : fault 0 with
    | some e => simpa [DeleteTask, hf] using hinv
    | none =>
      have := inv_Delete now (Query.start (condIDUser t u)) hinv
      unfold DeleteTask
      simp only [hf]
      split <;> exact this

theorem inv_run (calls : List Call) : ∀ {db : DB}, (∀ c ∈ calls, c.op.valid = true) →
    (db.WF ∧ ∀ r ∈ db.rows, enumOK r) →
    (run db calls).WF ∧ ∀ r ∈ (run db calls).rows, enumOK r := by
  induction calls with
  | nil => intro db _ h; exact h
  | cons c cs ih =>
    intro db hv h
    simp only [run]
    exact ih (fun c1 hc1 => hv c1 (List.mem_cons_of_mem _ hc1))
      (inv_apply c.now c.fault c.op (hv c (List.mem_cons_self _ _)) h)

theorem CreateTask_handler_rejects (db : DB) (now : Time) (fault : Faults)
    (ctx : Option CtxValue) (req : CreateTaskRequest)
    (hv : validateCreateTaskRequest req = false) :
    (TaskHandler.CreateTask db now fault ctx (.ok req)).db = db ∧
    (TaskHandler.CreateTask db now fault ctx (.ok req)).serviceCalled = false ∧
    ((TaskHandler.CreateTask db now fault ctx (.ok req)).status = 400 ∨
      (TaskHandler.CreateTask db now fault ctx (.ok req)).status = 401) ∧
    (∀ uid, GetUserIDFromContext ctx = .ok uid →
      (TaskHandler.CreateTask db now fault ctx (.ok req)).status = 400) := by
  unfold TaskHandler.CreateTask
  cases hc : GetUserIDFromContext ctx with
  | error e => simp
  | ok uid => simp [hv]

theorem UpdateTask_handler_rejects (db : DB) (now : Time) (fault : Faults)
    (ctx : Option CtxValue) (idParam : String) (req : UpdateTaskRequest)
    (hv : validateUpdateTaskRequest req = false) :
    (TaskHandler.UpdateTask db now fault ctx idParam (.ok req)).db = db ∧
    (TaskHandler.UpdateTask db now fault ctx idParam (.ok req)).serviceCalled = false ∧
    ((TaskHandler.UpdateTask db now fault ctx idParam (.ok req)).status = 400 ∨
      (TaskHandler.UpdateTask db now fault ctx idParam (.ok req)).status = 401) ∧
    (∀ uid, GetUserIDFromContext ctx = .ok uid →
      (TaskHandler.UpdateTask db now fault ctx idParam (.ok req)).status = 400) := by
  unfold TaskHandler.UpdateTask
  cases hc : GetUserIDFromContext ctx with
  | error e => simp
  | ok uid =>
    cases hp : parseUint32 idParam with
    | error e => simp
    | ok tid => simp [hv]

/-- C10: starting from the empty store, after any history of create, update,
mark-completed, mark-pending and delete calls whose request bodies pass the
declared validation (whatever the clock and whichever store statements fail),
every stored task has status pending or completed and priority low, medium or
high.  A create request carrying another priority, and an update request
carrying another status or priority, is rejected by its handler with 400 (401
without a usable user id): the task service is not called and the store is
unchanged. -/
theorem c10_enum_invariant (calls : List Call) (hvalid : ∀ c ∈ calls, c.op.valid = true) :
    (∀ r ∈ (run DB.empty calls).rows, enumOK r) ∧
    (∀ (db : DB) (now : Time) (fault : Faults) (ctx : Option CtxValue)
        (req : CreateTaskRequest) (p : TaskPriority),
        req.Priority = some p → p ∉ ["low", "medium", "high"] →
        (TaskHandler.CreateTask db now fault ctx (.ok req)).db = db ∧
        (TaskHandler.CreateTask db now fault ctx (.ok req)).serviceCalled = false ∧
        ((TaskHandler.CreateTask db now fault ctx (.ok req)).status = 400 ∨
          (TaskHandler.CreateTask db now fault ctx (.ok req)).status = 401) ∧
        (∀ uid, GetUserIDFromContext ctx = .ok uid →
          (TaskHandler.CreateTask db now fault ctx (.ok req)).status = 400)) ∧
    (∀ (db : DB) (now : Time) (fault : Faults) (ctx : Option CtxValue) (idParam : String)
        (req : UpdateTaskRequest),
        ((∃ v, req.Status = some v ∧ v ∉ ["pending", "completed"]) ∨
          (∃ p, req.Priority = some p ∧ p ∉ ["low", "medium", "high"])) →
        (TaskHandler.UpdateTask db now fault ctx idParam (.ok req)).db = db ∧
        (TaskHandler.UpdateTask db now fault ctx idParam (.ok req)).serviceCalled = false ∧
        ((TaskHandler.UpdateTask db now fault ctx idParam (.ok req)).status = 400 ∨
          (TaskHandler.UpdateTask db now fault ctx idParam (.ok req)).status = 401) ∧
        (∀ uid, GetUserIDFromContext ctx = .ok uid →
          (TaskHandler.UpdateTask db now fault ctx idParam (.ok req)).status = 400)) := by
  refine ⟨(inv_run calls hvalid ⟨WF_empty, by simp [DB.empty]⟩).2, ?_, ?_⟩
  · intro db now fault ctx req p hp hbad
    apply CreateTask_handler_rejects
    rcases req with ⟨ti, de, pr, du⟩
    simp only at hp
    subst hp
    simp only [validateCreateTaskRequest, Bool.and_eq_false_iff, decide_eq_false_iff_not]
    exact Or.inr hbad
  · intro db now fault ctx idParam req hbad
    apply UpdateTask_handler_rejects
    rcases req with ⟨a, b, c, d, e⟩
    simp only [validateUpdateTaskRequest, Bool.and_eq_false_iff]
    rcases hbad with ⟨v, hv, hbad⟩ | ⟨p, hp, hbad⟩
    · simp only at hv
      subst hv
      exact Or.inl (Or.inr (by simpa using hbad))
    · simp only at hp
      subst hp
      exact Or.inr (by simpa using hbad)

/-- Witness for C10: the sample history leaves only enumerated values. -/
theorem c10_enum_invariant_witness :
    (run DB.empty sampleCalls).rows.all (fun r => decide (enumOK r)) = true :=
  List.all_eq_true.mpr fun r hr =>
    decide_eq_true ((c10_enum_invariant sampleCalls (by decide)).1 r hr)

/-! ## C1, continued: ownership never changes, so isolation is permanent -/

theorem GetTaskByID_loaded_eq {db : DB} {fault : Faults} {u t : Nat} {task : Task}
    (now : Time) (new : Task) (hwf : db.WF) (hg : GetTaskByID db fault u t = .ok task)
    (hid : new.ID = task.ID) :
    (db.Save now new).1 = db.replaceRow task.ID { new with UpdatedAt := now } := by
  obtain ⟨hmem, hlive, _, _⟩ := GetTaskByID_ok hg
  rw [Save_live now new hwf hmem hlive hid]

theorem owner_replaceRow {db : DB} (hwf : db.WF) {task new : Task} (hmem : task ∈ db.rows)
    (hid : new.ID = task.ID) (hu : new.UserID = task.UserID) :
    ∀ x ∈ db.rows, ∃ y ∈ (db.replaceRow task.ID new).rows, y.ID = x.ID ∧ y.UserID = x.UserID := by
  intro x hx
  by_cases hxt : x.ID = task.ID
  · have : x = task := WF_unique hwf hx hmem hxt
    subst this
    exact ⟨new, mem_replaceRow hx new, hid, hu⟩
  · refine ⟨x, ?_, rfl, rfl⟩
    unfold DB.replaceRow
    exact List.mem_map.mpr ⟨x, hx, by simp [hxt]⟩

theorem specUpdate_UserID (task : Task) (req : UpdateTaskRequest) :
    (specUpdate task req).UserID = task.UserID := rfl

theorem WF_Delete {db : DB} (now : Time) (q : Query) (hwf : db.WF) : (db.Delete now q).1.WF := by
  have hids : (db.Delete now q).1.rows.map Task.ID = db.rows.map Task.ID := by
    unfold DB.Delete
    simp only [List.map_map]
    apply List.map_congr_left
    intro r _
    by_cases h : q.matches r = true <;> simp [h]
  refine ⟨by rw [hids]; exact hwf.1, hwf.2.1, ?_⟩
  intro r hr
  have hmem : r.ID ∈ (db.Delete now q).1.rows.map Task.ID := List.mem_map_of_mem _ hr
  rw [hids] at hmem
  obtain ⟨r0, hr0, hr0id⟩ := List.mem_map.mp hmem
  rw [← hr0id]
  exact hwf.2.2 r0 hr0

theorem owner_Delete {db : DB} (now : Time) (q : Query) :
    ∀ x ∈ db.rows, ∃ y ∈ (db.Delete now q).1.rows, y.ID = x.ID ∧ y.UserID = x.UserID := by
  intro x hx
  refine ⟨if q.matches x then { x with DeletedAt := some now } else x, ?_, ?_, ?_⟩
  · unfold DB.Delete
    exact List.mem_map.mpr ⟨x, hx, rfl⟩
  · by_cases h : q.matches x = true <;> simp [h]
  · by_cases h : q.matches x = true <;> simp [h]

theorem owner_inv_apply {db : DB} (now : Time) (fault : Faults) (op : Op) (hwf : db.WF) :
    (op.apply db now fault).WF ∧
    ∀ x ∈ db.rows, ∃ y ∈ (op.apply db now fault).rows, y.ID = x.ID ∧ y.UserID = x.UserID := by
  have hsame : db.WF ∧ ∀ x ∈ db.rows, ∃ y ∈ db.rows, y.ID = x.ID ∧ y.UserID = x.UserID :=
    ⟨hwf, fun x hx => ⟨x, hx, rfl, rfl⟩⟩
  cases op with
  | create u req =>
    simp only [Op.apply]
    cases hf : fault 0 with
    | some e => simpa [CreateTask, hf] using hsame
    | none =>
      rw [CreateTask_eq db now fault u req hf]
      refine ⟨WF_Create hwf _ _, fun x hx => ⟨x, ?_, rfl, rfl⟩⟩
      simp only [DB.Create, List.mem_append]
      exact Or.inl hx
  | update u t req =>
    simp only [Op.apply]
    cases hg : GetTaskByID db fault u t with
    | error e => simpa [UpdateTask, hg] using hsame
    | ok task =>
      cases hf : fault 1 with
      | some e =>
        rcases req with ⟨a, b, c, d, e1⟩
        simpa [UpdateTask, hg, hf] using hsame
      | none =>
        rw [UpdateTask_eq db now fault u t req task hf hg]
        simp only
        rw [GetTaskByID_loaded_eq now (specUpdate task req) hwf hg rfl]
        exact ⟨WF_replaceRow hwf _ _ rfl,
          owner_replaceRow hwf (GetTaskByID_ok hg).1 rfl rfl⟩
  | complete u t =>
    simp only [Op.apply]
    cases hg : GetTaskByID db fault u t with
    | error e => simpa [MarkTaskAsCompleted, hg] using hsame
    | ok task =>
      cases hf : fault 1 with
      | some e => simpa [MarkTaskAsCompleted, hg, hf] using hsame
      | none =>
        simp only [MarkTaskAsCompleted, hg, hf]
        rw [GetTaskByID_loaded_eq now task.MarkAsCompleted hwf hg rfl]
        exact ⟨WF_replaceRow hwf _ _ rfl,
          owner_replaceRow hwf (GetTaskByID_ok hg).1 rfl rfl⟩
  | pending u t =>
    simp only [Op.apply]
    cases hg : GetTaskByID db fault u t with
    | error e => simpa [MarkTaskAsPending, hg] using hsame
    | ok task =>
      cases hf : fault 1 with
      | some e => simpa [MarkTaskAsPending, hg, hf] using hsame
      | none =>
        simp only [MarkTaskAsPending, hg, hf]
        rw [GetTaskByID_loaded_eq now task.MarkAsPending hwf hg rfl]
        exact ⟨WF_replaceRow hwf _ _ rfl,
          owner_replaceRow hwf (GetTaskByID_ok hg).1 rfl rfl⟩
  | delete u t =>
    simp only [Op.apply]
    cases hf : fault 0 with
    | some e => simpa [DeleteTask, hf] using hsame
    | none =>
      have hd : (db.Delete now (Query.start (condIDUser t u))).1.WF ∧
          ∀ x ∈ db.rows, ∃ y ∈ (db.Delete now (Query.start (condIDUser t u))).1.rows,
            y.ID = x.ID ∧ y.UserID = x.UserID :=
        ⟨WF_Delete now _ hwf, owner_Delete now _⟩
      unfold DeleteTask
      simp only [hf]
      split <;> exact hd

theorem owner_inv_run (calls : List Call) : ∀ {db : DB} {u t : Nat}, db.WF →
    (∃ x ∈ db.rows, x.ID = t ∧ x.UserID ≠ u) →
    (run db calls).WF ∧ ∃ x ∈ (run db calls).rows, x.ID = t ∧ x.UserID ≠ u := by
  induction calls with
  | nil => intro db u t hwf hx; exact ⟨hwf, hx⟩
  | cons c cs ih =>
    intro db u t hwf hx
    simp only [run]
    obtain ⟨hwf1, hown⟩ := owner_inv_apply c.now c.fault c.op hwf
    obtain ⟨x, hxm, hxt, hxu⟩ := hx
    obtain ⟨y, hym, hyid, hyu⟩ := hown x hxm
    exact ih hwf1 ⟨y, hym, by rw [hyid, hxt], by rw [hyu]; exact hxu⟩

/-- C1: when no live row has id `t` and owner `u` (the task is absent,
soft-deleted or owned by someone else), GetTaskByID, UpdateTask,
MarkTaskAsCompleted, MarkTaskAsPending and DeleteTask called as `(u, t)` all
fail with the same "task not found" error and return the store unchanged.  In
particular, in a store whose ids are a primary key, a task owned by another
user, and a task just created by another user, is not returned, updated or
deleted, and stays so after any further history of service calls. -/
theorem c1_not_found_isolation (db : DB) (now : Time) (fault : Faults) (u t : Nat)
    (req : UpdateTaskRequest) (hf : fault 0 = none) :
    ((∀ r ∈ db.rows, r.DeletedAt = none → ¬(r.ID = t ∧ r.UserID = u)) →
        AllNotFound db now fault u t req) ∧
    (db.WF → (∃ x ∈ db.rows, x.ID = t ∧ x.UserID ≠ u) → AllNotFound db now fault u t req) ∧
    (∀ (a : Nat) (cr : CreateTaskRequest) (now0 : Time) (task : Task) (db0 : DB),
        db0.WF → a ≠ u → CreateTask db0 now0 healthy a cr = (.ok task, db) → t = task.ID →
        AllNotFound db now fault u t req) ∧
    (db.WF → (∃ x ∈ db.rows, x.ID = t ∧ x.UserID ≠ u) → ∀ calls : List Call,
        AllNotFound (run db calls) now fault u t req) := by
  refine ⟨allNotFound_of_no_live_row now req hf, allNotFound_of_foreign now req hf, ?_, ?_⟩
  rotate_left
  · intro hwf hx calls
    obtain ⟨hwf1, hx1⟩ := owner_inv_run calls hwf hx
    exact allNotFound_of_foreign now req hf hwf1 hx1
  intro a cr now0 task db0 hwf0 hau hc ht
  simp only [CreateTask, healthy, Prod.mk.injEq, Except.ok.injEq] at hc
  obtain ⟨h1, h2⟩ := hc
  have hwf : db.WF := by rw [← h2]; exact WF_Create hwf0 _ _
  apply allNotFound_of_foreign now req hf hwf
  refine ⟨task, ?_, ht.symm, ?_⟩
  · rw [← h1, ← h2]; exact Create_mem _ _ _
  · rw [← h1, Create_UserID]
    cases cr.Priority <;> exact hau

/-- Witness for C1: user 2 addresses task 2, which belongs to user 1. -/
theorem c1_not_found_isolation_witness :
    AllNotFound sampleDB 10 healthy 2 2 emptyUpdate :=
  (c1_not_found_isolation sampleDB 10 healthy 2 2 emptyUpdate rfl).1 (by decide)


/-! ## C11: Task.IsOverdue -/

/-- C11: for every task and every current time, IsOverdue is true exactly when
the task has a due date, its status is not completed, and the due date is
strictly before now.  Hence it is true for every pending task with a due date
in the past, false for every completed task, false for every task without a
due date, and false when the due date equals now or lies in the future. -/
theorem c11_isOverdue_iff (t : Task) (now : Time) :
    (t.IsOverdue now = true ↔
      ∃ d, t.DueDate = some d ∧ t.Status ≠ StatusCompleted ∧ d < now) ∧
    (∀ d, t.DueDate = some d → d < now → t.Status = StatusPending → t.IsOverdue now = true) ∧
    (t.Status = StatusCompleted → t.IsOverdue now = false) ∧
    (t.DueDate = none → t.IsOverdue now = false) ∧
    (∀ d, t.DueDate = some d → now ≤ d → t.IsOverdue now = false) := by
  have hpc : StatusPending ≠ StatusCompleted := by decide
  have key : t.IsOverdue now = true ↔
      ∃ d, t.DueDate = some d ∧ t.Status ≠ StatusCompleted ∧ d < now := by
    unfold Task.IsOverdue
    cases hd : t.DueDate with
    | none => simp
    | some d =>
      by_cases hs : t.Status = StatusCompleted
      · simp [hs]
      · simp [hs]
  have keyF : t.IsOverdue now = false ↔
      ¬ ∃ d, t.DueDate = some d ∧ t.Status ≠ StatusCompleted ∧ d < now := by
    rw [← key, Bool.not_eq_true]
  refine ⟨key, ?_, ?_, ?_, ?_⟩
  · intro d h1 h2 h3
    exact key.mpr ⟨d, h1, by rw [h3]; exact hpc, h2⟩
  · intro h
    rw [keyF]
    rintro ⟨d, _, h2, _⟩
    exact h2 h
  · intro h
    rw [keyF]
    rintro ⟨d, h1, _⟩
    rw [h] at h1
    cases h1
  · intro d h1 h2
    rw [keyF]
    rintro ⟨d1, h3, _, h4⟩
    rw [h1] at h3
    cases h3
    exact absurd h4 (Nat.not_lt.mpr h2)

/-! ## C12: Task.GetPriorityWeight -/

/-- C12: GetPriorityWeight returns 3 for priority high, 2 for medium, 1 for low
and 2 for every other priority value, so the ranking is strictly
high > medium > low and the result always lies in {1, 2, 3}. -/
theorem c12_priority_weight (t : Task) :
    (t.Priority = PriorityHigh → t.GetPriorityWeight = 3) ∧
    (t.Priority = PriorityMedium → t.GetPriorityWeight = 2) ∧
    (t.Priority = PriorityLow → t.GetPriorityWeight = 1) ∧
    (t.Priority ≠ PriorityHigh → t.Priority ≠ PriorityMedium → t.Priority ≠ PriorityLow →
      t.GetPriorityWeight = 2) ∧
    (∀ h m l : Task, h.Priority = PriorityHigh → m.Priority = PriorityMedium →
      l.Priority = PriorityLow →
      l.GetPriorityWeight < m.GetPriorityWeight ∧ m.GetPriorityWeight < h.GetPriorityWeight) ∧
    (t.GetPriorityWeight = 1 ∨ t.GetPriorityWeight = 2 ∨ t.GetPriorityWeight = 3) := by
  have hmh : PriorityMedium ≠ PriorityHigh := by decide
  have hlh : PriorityLow ≠ PriorityHigh := by decide
  have hlm : PriorityLow ≠ PriorityMedium := by decide
  refine ⟨?_, ?_, ?_, ?_, ?_, ?_⟩
  · intro h; simp [Task.GetPriorityWeight, h]
  · intro h; simp [Task.GetPriorityWeight, h, hmh]
  · intro h; simp [Task.GetPriorityWeight, h, hlh, hlm]
  · intro h1 h2 h3; simp [Task.GetPriorityWeight, h1, h2, h3]
  · intro h m l hh hm hl
    simp [Task.GetPriorityWeight, hh, hm, hl, hmh, hlh, hlm]
  · unfold Task.GetPriorityWeight
    by_cases h1 : t.Priority = PriorityHigh
    · rw [if_pos h1]; exact Or.inr (Or.inr rfl)
    · rw [if_neg h1]
      by_cases h2 : t.Priority = PriorityMedium
      · rw [if_pos h2]; exact Or.inr (Or.inl rfl)
      · rw [if_neg h2]
        by_cases h3 : t.Priority = PriorityLow
        · rw [if_pos h3]; exact Or.inl rfl
        · rw [if_neg h3]; exact Or.inr (Or.inl rfl)

/-! ## C13: the authentication gate -/

theorem ParseWithClaims_ok_iff (content : String → TokenContent) (jwtSecret : String)
    (now : Time) (s : String) (token : Token) :
    ParseWithClaims content jwtSecret now s = .ok token ↔
      ∃ j, (content s).claims = some j ∧ (content s).signedBy jwtSecret = true ∧
        (∀ e, j.exp = some e → now < e) ∧ (∀ n, j.nbf = some n → n ≤ now) ∧
        token = { Claims := decodeClaims j, Valid := true } := by
  unfold ParseWithClaims
  cases hc : (content s).claims with
  | none => simp
  | some j =>
    cases hs : (content s).signedBy jwtSecret with
    | false => simp
    | true =>
      simp only [Bool.true_eq_false, if_false, decodeClaims, Option.some.injEq, exists_eq_left',
        true_and]
      cases he : j.exp with
      | none =>
        cases hn : j.nbf with
        | none => simp [eq_comm]
        | some n =>
          by_cases h : now < n
          · simp [h]
          · simp [h, eq_comm, Nat.le_of_not_lt h]
      | some e =>
        by_cases h1 : now < e
        · cases hn : j.nbf with
          | none => simp [h1, eq_comm]
          | some n =>
            by_cases h : now < n
            · simp [h, h1]
            · simp [h, h1, eq_comm, Nat.le_of_not_lt h]
        · simp [h1]

theorem ParseWithClaims_ok_valid {content : String → TokenContent} {jwtSecret : String}
    {now : Time} {s : String} {token : Token}
    (h : ParseWithClaims content jwtSecret now s = .ok token) : token.Valid = true := by
  obtain ⟨j, _, _, _, _, ht⟩ := (ParseWithClaims_ok_iff content jwtSecret now s token).mp h
  rw [ht]

theorem AuthMiddleware_eq (content : String → TokenContent) (jwtSecret : String) (now : Time)
    (c : Request) :
    AuthMiddleware content jwtSecret now c =
      if HasPrefix c.Authorization "Bearer " = true then
        match ParseWithClaims content jwtSecret now (String.mk (c.Authorization.toList.drop 7)) with
        | .error _ => unauthorized
        | .ok token =>
          { status := none, aborted := false, next := true,
            userID := some (.uint token.Claims.UserID) }
      else unauthorized := by
  unfold AuthMiddleware
  by_cases he : c.Authorization = ""
  · have : HasPrefix c.Authorization "Bearer " = false := by rw [he]; decide
    rw [if_pos he, this]
    rfl
  · simp only [he, if_false]
    by_cases hp : HasPrefix c.Authorization "Bearer " = true
    · simp only [hp, if_true]
      cases hq : ParseWithClaims content jwtSecret now
          (String.mk (c.Authorization.toList.drop 7)) with
      | error e => rfl
      | ok token => simp [ParseWithClaims_ok_valid hq]
    · simp [hp]

/-- C13 (amended): AuthMiddleware lets the request proceed to the next handler
exactly when the Authorization value starts with "Bearer " and the verifier
accepts the remainder, and the verifier accepts a token exactly when it is
well formed, its signature verifies under the server secret, it is not past
its expiry and not before its not-before time.  In every other case (header
missing or empty, another shape, corrupt or wrongly signed token, expired
token, token not yet valid) the middleware answers 401, aborts the chain and
sets no user id. -/
theorem c13_auth_gate (content : String → TokenContent) (jwtSecret : String) (now : Time)
    (c : Request) :
    ((AuthMiddleware content jwtSecret now c).next = true ↔
      HasPrefix c.Authorization "Bearer " = true ∧
      ∃ token, ParseWithClaims content jwtSecret now
        (String.mk (c.Authorization.toList.drop 7)) = .ok token) ∧
    ((AuthMiddleware content jwtSecret now c).next = false →
      (AuthMiddleware content jwtSecret now c).status = some 401 ∧
      (AuthMiddleware content jwtSecret now c).aborted = true ∧
      (AuthMiddleware content jwtSecret now c).userID = none) ∧
    ((AuthMiddleware content jwtSecret now c).next = true →
      (AuthMiddleware content jwtSecret now c).status = none ∧
      (AuthMiddleware content jwtSecret now c).aborted = false) ∧
    (c.Authorization = "" → (AuthMiddleware content jwtSecret now c).next = false) ∧
    (∀ s : String, (∃ token, ParseWithClaims content jwtSecret now s = .ok token) ↔
      ∃ j, (content s).claims = some j ∧ (content s).signedBy jwtSecret = true ∧
        (∀ e, j.exp = some e → now < e) ∧ (∀ n, j.nbf = some n → n ≤ now)) := by
  rw [AuthMiddleware_eq]
  refine ⟨?_, ?_, ?_, ?_, ?_⟩
  · by_cases hp : HasPrefix c.Authorization "Bearer " = true
    · simp only [hp, if_true, true_and]
      cases hq : ParseWithClaims content jwtSecret now
          (String.mk (c.Authorization.toList.drop 7)) with
      | error e => simp [unauthorized]
      | ok token => simp
    · simp [hp, unauthorized]
  · by_cases hp : HasPrefix c.Authorization "Bearer " = true
    · simp only [hp, if_true]
      cases hq : ParseWithClaims content jwtSecret now
          (String.mk (c.Authorization.toList.drop 7)) with
      | error e => simp [unauthorized]
      | ok token => simp
    · simp [hp, unauthorized]
  · by_cases hp : HasPrefix c.Authorization "Bearer " = true
    · simp only [hp, if_true]
      cases hq : ParseWithClaims content jwtSecret now
          (String.mk (c.Authorization.toList.drop 7)) with
      | error e => simp [unauthorized]
      | ok token => simp
    · simp [hp, unauthorized]
  · intro he
    have : HasPrefix c.Authorization "Bearer " = false := by rw [he]; decide
    simp [this, unauthorized]
  · intro s
    constructor
    · rintro ⟨token, h⟩
      obtain ⟨j, h1, h2, h3, h4, _⟩ := (ParseWithClaims_ok_iff content jwtSecret now s token).mp h
      exact ⟨j, h1, h2, h3, h4⟩
    · rintro ⟨j, h1, h2, h3, h4⟩
      exact ⟨_, (ParseWithClaims_ok_iff content jwtSecret now s _).mpr ⟨j, h1, h2, h3, h4, rfl⟩⟩

/-- C13 as stated fails: at time 50 the value "Bearer early" starts with
"Bearer " and its token is well formed, signed with the server secret and not
past its expiry (100), yet it is not valid before 80, the verifier returns an
error and the middleware answers 401, aborts and sets no user id. -/
theorem c13_not_yet_valid_rejected :
    HasPrefix (sampleRequest "Bearer early").Authorization "Bearer " = true ∧
    (earlyContent "early").claims = some { userId := some 123, exp := some 100, nbf := some 80 } ∧
    (earlyContent "early").signedBy "test-secret" = true ∧
    (50 : Time) < 100 ∧
    ParseWithClaims earlyContent "test-secret" 50 "early" = .error "token is not valid yet" ∧
    AuthMiddleware earlyContent "test-secret" 50 (sampleRequest "Bearer early") = unauthorized ∧
    (AuthMiddleware earlyContent "test-secret" 50 (sampleRequest "Bearer early")).next = false ∧
    (AuthMiddleware earlyContent "test-secret" 80 (sampleRequest "Bearer early")).next = true := by
  decide

/-! ## C14, C15: the principal taken from the token -/

theorem AuthMiddleware_accepted (content : String → TokenContent) (jwtSecret : String)
    (now : Time) (c : Request) (j : ClaimsJSON)
    (hp : HasPrefix c.Authorization "Bearer " = true)
    (hc : (content (String.mk (c.Authorization.toList.drop 7))).claims = some j)
    (hs : (content (String.mk (c.Authorization.toList.drop 7))).signedBy jwtSecret = true)
    (he : ∀ e, j.exp = some e → now < e) (hn : ∀ m, j.nbf = some m → m ≤ now) :
    AuthMiddleware content jwtSecret now c =
      { status := none, aborted := false, next := true,
        userID := some (.uint (decodeClaims j).UserID) } := by
  have hq := (ParseWithClaims_ok_iff content jwtSecret now
    (String.mk (c.Authorization.toList.drop 7)) _).mpr ⟨j, hc, hs, he, hn, rfl⟩
  rw [AuthMiddleware_eq, if_pos hp, hq]

/-- C14: for every token the verifier accepts that carries the embedded user id
n, AuthMiddleware proceeds and GetUserIDFromContext then returns exactly n
with no error; two requests with the same Authorization value get the same
outcome whatever their body, query string or path. -/
theorem c14_principal_from_token (content : String → TokenContent) (jwtSecret : String)
    (now : Time) (c : Request) (j : ClaimsJSON) (n : Nat)
    (hp : HasPrefix c.Authorization "Bearer " = true)
    (hc : (content (String.mk (c.Authorization.toList.drop 7))).claims = some j)
    (hs : (content (String.mk (c.Authorization.toList.drop 7))).signedBy jwtSecret = true)
    (he : ∀ e, j.exp = some e → now < e) (hn : ∀ m, j.nbf = some m → m ≤ now)
    (hid : j.userId = some n) :
    (AuthMiddleware content jwtSecret now c).next = true ∧
    GetUserIDFromContext (AuthMiddleware content jwtSecret now c).userID = .ok n ∧
    (∀ c2 : Request, c2.Authorization = c.Authorization →
      AuthMiddleware content jwtSecret now c2 = AuthMiddleware content jwtSecret now c) := by
  rw [AuthMiddleware_accepted content jwtSecret now c j hp hc hs he hn]
  refine ⟨rfl, ?_, ?_⟩
  · simp [GetUserIDFromContext, decodeClaims, hid]
  · intro c2 h2
    rw [AuthMiddleware_eq, h2, ← AuthMiddleware_eq,
      AuthMiddleware_accepted content jwtSecret now c j hp hc hs he hn]

/-- Witness for C14: the token "good" embeds user 123. -/
theorem c14_principal_from_token_witness :
    (AuthMiddleware sampleContent "test-secret" 50 (sampleRequest "Bearer good")).next = true ∧
    GetUserIDFromContext
      (AuthMiddleware sampleContent "test-secret" 50 (sampleRequest "Bearer good")).userID =
        .ok 123 :=
  have h := c14_principal_from_token sampleContent "test-secret" 50 (sampleRequest "Bearer good")
    { userId := some 123, exp := some 100, nbf := none } 123 (by decide) (by decide) (by decide)
    (by decide) (by decide) rfl
  ⟨h.1, h.2.1⟩

/-- What the code does with a correctly signed, unexpired token whose claims
carry no embedded user identifier: it writes no response, does not abort,
stores user id 0 in the context and runs the protected handler, whose
GetUserIDFromContext returns 0. -/
theorem c15_missing_id_is_zero (content : String → TokenContent) (jwtSecret : String)
    (now : Time) (c : Request) (j : ClaimsJSON)
    (hp : HasPrefix c.Authorization "Bearer " = true)
    (hc : (content (String.mk (c.Authorization.toList.drop 7))).claims = some j)
    (hs : (content (String.mk (c.Authorization.toList.drop 7))).signedBy jwtSecret = true)
    (he : ∀ e, j.exp = some e → now < e) (hn : ∀ m, j.nbf = some m → m ≤ now)
    (hid : j.userId = none) :
    AuthMiddleware content jwtSecret now c =
      { status := none, aborted := false, next := true, userID := some (.uint 0) } ∧
    GetUserIDFromContext (AuthMiddleware content jwtSecret now c).userID = .ok 0 := by
  rw [AuthMiddleware_accepted content jwtSecret now c j hp hc hs he hn]
  simp [GetUserIDFromContext, decodeClaims, hid]

/-- The token "anon", which has no "userId" member, is accepted as user 0. -/
theorem c15_missing_id_is_zero_witness :
    AuthMiddleware sampleContent "test-secret" 50 (sampleRequest "Bearer anon") =
      { status := none, aborted := false, next := true, userID := some (.uint 0) } :=
  (c15_missing_id_is_zero sampleContent "test-secret" 50 (sampleRequest "Bearer anon")
    { userId := none, exp := some 100, nbf := none } (by decide) (by decide) (by decide)
    (by decide) (by decide) rfl).1

/-- C15 at a failing input: the correctly signed, unexpired token "anon"
carries no user identifier, yet the middleware does not answer 401: it
proceeds to the protected handler with user id 0. -/
theorem c15_missing_id_accepted :
    (sampleContent "anon").claims = some { userId := none, exp := some 100, nbf := none } ∧
    (sampleContent "anon").signedBy "test-secret" = true ∧
    (AuthMiddleware sampleContent "test-secret" 50 (sampleRequest "Bearer anon")).status ≠
      some 401 ∧
    (AuthMiddleware sampleContent "test-secret" 50 (sampleRequest "Bearer anon")).next = true ∧
    GetUserIDFromContext
      (AuthMiddleware sampleContent "test-secret" 50 (sampleRequest "Bearer anon")).userID =
        .ok 0 := by
  decide

/-! ## C16: GetUserIDFromContext -/

theorem foldl_digits_eq_ofDigits (cs : List Char) :
    cs.foldl (fun acc c => acc * 10 + (c.toNat - 48)) 0 =
      Nat.ofDigits 10 ((cs.map (fun c => c.toNat - 48)).reverse) := by
  induction cs using List.reverseRecOn with
  | nil => rfl
  | append_singleton xs x ih =>
    rw [List.foldl_append, List.map_append, List.reverse_append]
    simp only [List.foldl_cons, List.foldl_nil, List.map_cons, List.map_nil,
      List.reverse_cons, List.reverse_nil, List.nil_append, List.singleton_append]
    rw [Nat.ofDigits_cons, ih]
    show _ = (x.toNat - 48) + 10 * _
    omega

theorem string_eq_empty_iff (s : String) : s = "" ↔ s.toList = [] := by
  constructor
  · intro h; rw [h]; rfl
  · intro h
    cases s with
    | mk data =>
      have h2 : data = [] := h
      rw [h2]

theorem parseUint32_ok_iff (s : String) (n : Nat) :
    parseUint32 s = .ok n ↔ IsNumeralOf s n ∧ n < 2 ^ 32 := by
  unfold parseUint32 IsNumeralOf
  by_cases he : s = ""
  · have h1 : s.toList = [] := (string_eq_empty_iff s).mp he
    simp [he, h1]
  · have h1 : s.toList ≠ [] := fun h => he ((string_eq_empty_iff s).mpr h)
    simp only [he, if_false]
    by_cases hd : s.toList.all Char.isDigit = true
    · have hd2 : ∀ c ∈ s.toList, c.isDigit = true := List.all_eq_true.mp hd
      simp only [hd, if_true, foldl_digits_eq_ofDigits]
      by_cases hr : Nat.ofDigits 10 ((s.toList.map (fun c => c.toNat - 48)).reverse) < 2 ^ 32
      · rw [if_pos hr]
        constructor
        · intro h
          simp only [Except.ok.injEq] at h
          exact ⟨⟨h1, hd2, h⟩, h ▸ hr⟩
        · rintro ⟨⟨_, _, h⟩, _⟩
          rw [h]
      · rw [if_neg hr]
        constructor
        · intro h; cases h
        · rintro ⟨⟨_, _, h⟩, h2⟩
          exact absurd (h ▸ h2) hr
    · have hd2 : ¬ ∀ c ∈ s.toList, c.isDigit = true := fun h => hd (List.all_eq_true.mpr h)
      simp only [hd, if_false]
      constructor
      · intro h; cases h
      · rintro ⟨⟨_, h, _⟩, _⟩
        exact absurd h hd2

theorem parseUint32_error_of_not_ok (s : String) (h : ¬ ∃ n, parseUint32 s = .ok n) :
    ∃ e, parseUint32 s = .error e := by
  cases hp : parseUint32 s with
  | error e => exact ⟨e, rfl⟩
  | ok n => exact absurd ⟨n, hp⟩ h

/-- C16: GetUserIDFromContext returns v without error for every uint v stored
under "userID", returns v for every non-negative int v, and returns n for
every string that is an unsigned decimal numeral of an n <= 4294967295; it
returns an error when "userID" is absent, when it is a string that is not
such a numeral, and when it is a value of any other type. -/
theorem c16_user_id_from_context :
    (∀ v : Nat, GetUserIDFromContext (some (.uint v)) = .ok v) ∧
    (∀ v : Int, 0 ≤ v → v < 2 ^ 63 → GetUserIDFromContext (some (.int v)) = .ok v.toNat) ∧
    (∀ (s : String) (n : Nat), IsNumeralOf s n → n ≤ 4294967295 →
      GetUserIDFromContext (some (.str s)) = .ok n) ∧
    (∃ e, GetUserIDFromContext none = .error e) ∧
    (∀ s : String, (¬ ∃ n, IsNumeralOf s n ∧ n ≤ 4294967295) →
      ∃ e, GetUserIDFromContext (some (.str s)) = .error e) ∧
    (∃ e, GetUserIDFromContext (some .other) = .error e) := by
  refine ⟨fun v => rfl, ?_, ?_, ⟨_, rfl⟩, ?_, ⟨_, rfl⟩⟩
  · intro v h0 h1
    have : v % 2 ^ 64 = v := Int.emod_eq_of_lt h0 (by omega)
    simp only [GetUserIDFromContext, this]
  · intro s n hn hle
    have := (parseUint32_ok_iff s n).mpr ⟨hn, by omega⟩
    simp only [GetUserIDFromContext, this]
  · intro s hno
    have : ¬ ∃ n, parseUint32 s = .ok n := by
      rintro ⟨n, hn⟩
      obtain ⟨h1, h2⟩ := (parseUint32_ok_iff s n).mp hn
      exact hno ⟨n, h1, by omega⟩
    obtain ⟨e, he⟩ := parseUint32_error_of_not_ok s this
    exact ⟨e, by simp only [GetUserIDFromContext, he]⟩

/-! ## C17: no usable user id, no service call -/

/-- C17: for each of the eight task handlers and every request whose context
carries no usable user id, the response is 401, the task service is not called
and the store is untouched, whatever the body, the query and the id parameter:
the check comes first, so a request that also has an invalid JSON body or a
non-numeric id is answered 401, not 400. -/
theorem c17_unauthorized_first (db : DB) (now : Time) (fault : Faults) (ctx : Option CtxValue)
    (e : String) (hctx : GetUserIDFromContext ctx = .error e) :
    (∀ body, TaskHandler.CreateTask db now fault ctx body = rejected 401 db) ∧
    (∀ q, TaskHandler.GetTasks db now fault ctx q = rejected 401 db) ∧
    TaskHandler.GetTaskStats db now fault ctx = rejected 401 db ∧
    (∀ idParam, TaskHandler.GetTask db fault ctx idParam = rejected 401 db) ∧
    (∀ idParam body, TaskHandler.UpdateTask db now fault ctx idParam body = rejected 401 db) ∧
    (∀ idParam, TaskHandler.DeleteTask db now fault ctx idParam = rejected 401 db) ∧
    (∀ idParam, TaskHandler.MarkTaskAsCompleted db now fault ctx idParam = rejected 401 db) ∧
    (∀ idParam, TaskHandler.MarkTaskAsPending db now fault ctx idParam = rejected 401 db) := by
  refine ⟨?_, ?_, ?_, ?_, ?_, ?_, ?_, ?_⟩
  · intro body; simp only [TaskHandler.CreateTask, hctx, rejected]
  · intro q; simp only [TaskHandler.GetTasks, hctx, rejected]
  · simp only [TaskHandler.GetTaskStats, hctx, rejected]
  · intro idParam; simp only [TaskHandler.GetTask, hctx, rejected]
  · intro idParam body; simp only [TaskHandler.UpdateTask, hctx, rejected]
  · intro idParam; simp only [TaskHandler.DeleteTask, hctx, rejected]
  · intro idParam; simp only [TaskHandler.MarkTaskAsCompleted, hctx, rejected]
  · intro idParam; simp only [TaskHandler.MarkTaskAsPending, hctx, rejected]

/-- Witness for C17: without a user id in the context, a create request with an
invalid JSON body and a lookup with a non-numeric id are both answered 401. -/
theorem c17_unauthorized_first_witness :
    TaskHandler.CreateTask sampleDB 10 healthy none (.error "invalid json") =
      rejected 401 sampleDB ∧
    TaskHandler.GetTask sampleDB healthy none "invalid" = rejected 401 sampleDB :=
  have h := c17_unauthorized_first sampleDB 10 healthy none errTokenInvalidClaims rfl
  ⟨h.1 _, h.2.2.2.1 _⟩

/-! ## C18: a non-numeric id never reaches the service -/

/-- C18: for each of the five handlers that take a task id in the path and
every authenticated request whose id parameter is not an unsigned decimal
numeral, the response is 400, the task service is not called and the store is
untouched. -/
theorem c18_bad_id_rejected (db : DB) (now : Time) (fault : Faults) (ctx : Option CtxValue)
    (u : Nat) (idParam : String) (hctx : GetUserIDFromContext ctx = .ok u)
    (hid : ¬ ∃ n, IsNumeralOf idParam n) :
    TaskHandler.GetTask db fault ctx idParam = rejected 400 db ∧
    (∀ body, TaskHandler.UpdateTask db now fault ctx idParam body = rejected 400 db) ∧
    TaskHandler.DeleteTask db now fault ctx idParam = rejected 400 db ∧
    TaskHandler.MarkTaskAsCompleted db now fault ctx idParam = rejected 400 db ∧
    TaskHandler.MarkTaskAsPending db now fault ctx idParam = rejected 400 db := by
  have hno : ¬ ∃ n, parseUint32 idParam = .ok n := by
    rintro ⟨n, hn⟩
    exact hid ⟨n, ((parseUint32_ok_iff idParam n).mp hn).1⟩
  obtain ⟨e, he⟩ := parseUint32_error_of_not_ok idParam hno
  refine ⟨?_, ?_, ?_, ?_, ?_⟩
  · simp only [TaskHandler.GetTask, hctx, he, rejected]
  · intro body; simp only [TaskHandler.UpdateTask, hctx, he, rejected]
  · simp only [TaskHandler.DeleteTask, hctx, he, rejected]
  · simp only [TaskHandler.MarkTaskAsCompleted, hctx, he, rejected]
  · simp only [TaskHandler.MarkTaskAsPending, hctx, he, rejected]

/-- Witness for C18: user 1 asks for the task "invalid". -/
theorem c18_bad_id_rejected_witness :
    TaskHandler.GetTask sampleDB healthy (some (.uint 1)) "invalid" = rejected 400 sampleDB :=
  (c18_bad_id_rejected sampleDB 10 healthy (some (.uint 1)) 1 "invalid" rfl
    (by rintro ⟨n, _, h, _⟩; exact absurd (h 'i' (by decide)) (by decide))).1

/-! ## C19: service outcomes and status codes -/

theorem statusMatches_code {α : Type} (r : Except String α) :
    StatusMatches (codeFor r) r := by
  unfold StatusMatches errTaskNotFound codeFor
  cases r with
  | ok v => simp
  | error e =>
    by_cases he : e = "task not found"
    · simp [he]
    · simp [he]

theorem wrapped_ne_notFound (p e : String) (hp : p.toList.head? = some 'f') :
    p ++ e ≠ errTaskNotFound := by
  intro h
  have h1 : (p ++ e).toList.head? = errTaskNotFound.toList.head? := by rw [h]
  have h2 : (p ++ e).toList = p.toList ++ e.toList := String.data_append p e
  rw [h2] at h1
  cases hl : p.toList with
  | nil => rw [hl] at hp; cases hp
  | cons c cs =>
    rw [hl] at hp h1
    simp only [List.head?_cons, Option.some.injEq, List.cons_append] at hp h1
    rw [hp] at h1
    exact absurd h1 (by decide)

theorem GetTaskByID_fault {db : DB} {fault : Faults} {u t : Nat} {e : String}
    (hf : fault 0 = some e) : GetTaskByID db fault u t = .error ("failed to get task: " ++ e) := by
  simp only [GetTaskByID, hf]

theorem GetTaskByID_live {db : DB} {fault : Faults} {u t : Nat} (hf : fault 0 = none)
    (h : ¬ NoLiveRow db u t) : ∃ task, GetTaskByID db fault u t = .ok task := by
  cases hq : db.First (Query.start (condIDUser t u)) with
  | none =>
    exfalso
    apply h
    intro r hr hlive hk
    have := First_eq_none.mp hq r hr
    rw [Bool.eq_false_iff] at this
    exact this (by rw [matches_start, sqlHolds_condIDUser]; exact ⟨hlive, hk⟩)
  | some m => exact ⟨m, by simp only [GetTaskByID, hf, hq]⟩

theorem GetTaskByID_notFound_iff (db : DB) (fault : Faults) (u t : Nat) :
    GetTaskByID db fault u t = .error errTaskNotFound ↔ fault 0 = none ∧ NoLiveRow db u t := by
  constructor
  · intro h
    cases hf : fault 0 with
    | some e =>
      rw [GetTaskByID_fault hf] at h
      simp only [Except.error.injEq] at h
      exact absurd h (wrapped_ne_notFound _ e (by decide))
    | none =>
      refine ⟨rfl, ?_⟩
      by_contra hl
      obtain ⟨task, ht⟩ := GetTaskByID_live hf hl
      rw [ht] at h
      cases h
  · rintro ⟨hf, hl⟩
    exact GetTaskByID_not_found hf hl

theorem UpdateTask_load_error {db : DB} {now : Time} {fault : Faults} {u t : Nat}
    {req : UpdateTaskRequest} {e : String} (hg : GetTaskByID db fault u t = .error e) :
    UpdateTask db now fault u t req = (.error e, db) := by
  simp only [UpdateTask, hg]

theorem UpdateTask_save_fault {db : DB} {now : Time} {fault : Faults} {u t : Nat}
    {req : UpdateTaskRequest} {task : Task} {e : String}
    (hg : GetTaskByID db fault u t = .ok task) (hf : fault 1 = some e) :
    UpdateTask db now fault u t req = (.error ("failed to update task: " ++ e), db) := by
  rcases req with ⟨a, b, c, d, e1⟩
  simp only [UpdateTask, hg, hf]

theorem UpdateTask_notFound_iff (db : DB) (now : Time) (fault : Faults) (u t : Nat)
    (req : UpdateTaskRequest) :
    (UpdateTask db now fault u t req).1 = .error errTaskNotFound ↔
      fault 0 = none ∧ NoLiveRow db u t := by
  constructor
  · intro h
    rw [← GetTaskByID_notFound_iff]
    cases hg : GetTaskByID db fault u t with
    | error e =>
      rw [UpdateTask_load_error hg] at h
      exact h
    | ok task =>
      cases hf : fault 1 with
      | some e =>
        rw [UpdateTask_save_fault hg hf] at h
        simp only [Except.error.injEq] at h
        exact absurd h (wrapped_ne_notFound _ e (by decide))
      | none =>
        rw [UpdateTask_eq db now fault u t req task hf hg] at h
        cases h
  · rintro ⟨hf, hl⟩
    rw [(allNotFound_of_no_live_row now req hf hl).2.1]

theorem MarkTaskAsCompleted_notFound_iff (db : DB) (now : Time) (fault : Faults) (u t : Nat) :
    (MarkTaskAsCompleted db now fault u t).1 = .error errTaskNotFound ↔
      fault 0 = none ∧ NoLiveRow db u t := by
  constructor
  · intro h
    rw [← GetTaskByID_notFound_iff]
    cases hg : GetTaskByID db fault u t with
    | error e =>
      simp only [MarkTaskAsCompleted, hg] at h
      exact h
    | ok task =>
      cases hf : fault 1 with
      | some e =>
        simp only [MarkTaskAsCompleted, hg, hf, Except.error.injEq] at h
        exact absurd h (wrapped_ne_notFound _ e (by decide))
      | none =>
        simp only [MarkTaskAsCompleted, hg, hf] at h
        cases h
  · rintro ⟨hf, hl⟩
    rw [(allNotFound_of_no_live_row now emptyUpdate hf hl).2.2.1]

theorem MarkTaskAsPending_notFound_iff (db : DB) (now : Time) (fault : Faults) (u t : Nat) :
    (MarkTaskAsPending db now fault u t).1 = .error errTaskNotFound ↔
      fault 0 = none ∧ NoLiveRow db u t := by
  constructor
  · intro h
    rw [← GetTaskByID_notFound_iff]
    cases hg : GetTaskByID db fault u t with
    | error e =>
      simp only [MarkTaskAsPending, hg] at h
      exact h
    | ok task =>
      cases hf : fault 1 with
      | some e =>
        simp only [MarkTaskAsPending, hg, hf, Except.error.injEq] at h
        exact absurd h (wrapped_ne_notFound _ e (by decide))
      | none =>
        simp only [MarkTaskAsPending, hg, hf] at h
        cases h
  · rintro ⟨hf, hl⟩
    rw [(allNotFound_of_no_live_row now emptyUpdate hf hl).2.2.2.1]

theorem DeleteTask_notFound_iff (db : DB) (now : Time) (fault : Faults) (u t : Nat) :
    (DeleteTask db now fault u t).1 = .error errTaskNotFound ↔
      fault 0 = none ∧ NoLiveRow db u t := by
  constructor
  · intro h
    cases hf : fault 0 with
    | some e =>
      simp only [DeleteTask, hf, Except.error.injEq] at h
      exact absurd h (wrapped_ne_notFound _ e (by decide))
    | none =>
      refine ⟨rfl, ?_⟩
      simp only [DeleteTask, hf, DB.Delete] at h
      split at h
      · rename_i hz
        intro r hr hlive hk
        have hmem : r ∈ db.rows.filter (Query.start (condIDUser t u)).matches := by
          rw [List.mem_filter, matches_start, sqlHolds_condIDUser]
          exact ⟨hr, hlive, hk⟩
        rw [List.length_eq_zero.mp hz] at hmem
        cases hmem
      · cases h
  · rintro ⟨hf, hl⟩
    rw [(allNotFound_of_no_live_row now emptyUpdate hf hl).2.2.2.2]

theorem statusMatches_500 {α : Type} {status : Nat} {r : Except String α} {e : String}
    (h : StatusMatches status r) (hr : r = .error e) (hne : e ≠ errTaskNotFound) :
    status = 500 :=
  h.2.1.mpr ⟨e, hr, hne⟩

theorem GetTask_status (db : DB) (fault : Faults) (ctx : Option CtxValue) (idParam : String)
    (u t : Nat) (hctx : GetUserIDFromContext ctx = .ok u) (hid : parseUint32 idParam = .ok t) :
    StatusMatches (TaskHandler.GetTask db fault ctx idParam).status
      (GetTaskByID db fault u t) := by
  have h := statusMatches_code (GetTaskByID db fault u t)
  have he : (TaskHandler.GetTask db fault ctx idParam).status =
      codeFor (GetTaskByID db fault u t) := by
    simp only [TaskHandler.GetTask, hctx, hid, codeFor]
    cases GetTaskByID db fault u t with
    | ok v => rfl
    | error e => by_cases h1 : e = "task not found" <;> simp [h1]
  rw [he]; exact h

theorem UpdateTask_status (db : DB) (now : Time) (fault : Faults) (ctx : Option CtxValue)
    (idParam : String) (req : UpdateTaskRequest) (u t : Nat)
    (hctx : GetUserIDFromContext ctx = .ok u) (hid : parseUint32 idParam = .ok t)
    (hv : validateUpdateTaskRequest req = true) :
    StatusMatches (TaskHandler.UpdateTask db now fault ctx idParam (.ok req)).status
      (UpdateTask db now fault u t req).1 := by
  have h := statusMatches_code (UpdateTask db now fault u t req).1
  have he : (TaskHandler.UpdateTask db now fault ctx idParam (.ok req)).status =
      codeFor ((UpdateTask db now fault u t req).1) := by
    simp only [TaskHandler.UpdateTask, hctx, hid, hv, Bool.true_eq_false, if_false, codeFor]
    rcases UpdateTask db now fault u t req with ⟨r, d⟩
    cases r with
    | ok v => rfl
    | error e => by_cases h1 : e = "task not found" <;> simp [h1]
  rw [he]; exact h

theorem DeleteTask_status (db : DB) (now : Time) (fault : Faults) (ctx : Option CtxValue)
    (idParam : String) (u t : Nat) (hctx : GetUserIDFromContext ctx = .ok u)
    (hid : parseUint32 idParam = .ok t) :
    StatusMatches (TaskHandler.DeleteTask db now fault ctx idParam).status
      (DeleteTask db now fault u t).1 := by
  have h := statusMatches_code (DeleteTask db now fault u t).1
  have he : (TaskHandler.DeleteTask db now fault ctx idParam).status =
      codeFor ((DeleteTask db now fault u t).1) := by
    simp only [TaskHandler.DeleteTask, hctx, hid, codeFor]
    rcases DeleteTask db now fault u t with ⟨r, d⟩
    cases r with
    | ok v => rfl
    | error e => by_cases h1 : e = "task not found" <;> simp [h1]
  rw [he]; exact h

theorem MarkTaskAsCompleted_status (db : DB) (now : Time) (fault : Faults)
    (ctx : Option CtxValue) (idParam : String) (u t : Nat)
    (hctx : GetUserIDFromContext ctx = .ok u) (hid : parseUint32 idParam = .ok t) :
    StatusMatches (TaskHandler.MarkTaskAsCompleted db now fault ctx idParam).status
      (MarkTaskAsCompleted db now fault u t).1 := by
  have h := statusMatches_code (MarkTaskAsCompleted db now fault u t).1
  have he : (TaskHandler.MarkTaskAsCompleted db now fault ctx idParam).status =
      codeFor ((MarkTaskAsCompleted db now fault u t).1) := by
    simp only [TaskHandler.MarkTaskAsCompleted, hctx, hid, codeFor]
    rcases MarkTaskAsCompleted db now fault u t with ⟨r, d⟩
    cases r with
    | ok v => rfl
    | error e => by_cases h1 : e = "task not found" <;> simp [h1]
  rw [he]; exact h

theorem MarkTaskAsPending_status (db : DB) (now : Time) (fault : Faults)
    (ctx : Option CtxValue) (idParam : String) (u t : Nat)
    (hctx : GetUserIDFromContext ctx = .ok u) (hid : parseUint32 idParam = .ok t) :
    StatusMatches (TaskHandler.MarkTaskAsPending db now fault ctx idParam).status
      (MarkTaskAsPending db now fault u t).1 := by
  have h := statusMatches_code (MarkTaskAsPending db now fault u t).1
  have he : (TaskHandler.MarkTaskAsPending db now fault ctx idParam).status =
      codeFor ((MarkTaskAsPending db now fault u t).1) := by
    simp only [TaskHandler.MarkTaskAsPending, hctx, hid, codeFor]
    rcases MarkTaskAsPending db now fault u t with ⟨r, d⟩
    cases r with
    | ok v => rfl
    | error e => by_cases h1 : e = "task not found" <;> simp [h1]
  rw [he]; exact h

/-- C19: for the get, update, delete, complete and pending handlers and every
authenticated, well-formed request, the status is 404 exactly when the service
reports "task not found", 500 exactly when it fails with any other error, and
200 exactly when it succeeds.  The service reports "task not found" exactly
when the store answered and holds no live row with that id and owner, so a
failing store statement (a persistence error, whatever its message) is always
answered 500 and never 404, and a missing task is never answered 500. -/
theorem c19_status_mapping (db : DB) (now : Time) (fault : Faults) (ctx : Option CtxValue)
    (idParam : String) (req : UpdateTaskRequest) (u t : Nat)
    (hctx : GetUserIDFromContext ctx = .ok u) (hid : parseUint32 idParam = .ok t)
    (hv : validateUpdateTaskRequest req = true) :
    (StatusMatches (TaskHandler.GetTask db fault ctx idParam).status
        (GetTaskByID db fault u t) ∧
      StatusMatches (TaskHandler.UpdateTask db now fault ctx idParam (.ok req)).status
        (UpdateTask db now fault u t req).1 ∧
      StatusMatches (TaskHandler.DeleteTask db now fault ctx idParam).status
        (DeleteTask db now fault u t).1 ∧
      StatusMatches (TaskHandler.MarkTaskAsCompleted db now fault ctx idParam).status
        (MarkTaskAsCompleted db now fault u t).1 ∧
      StatusMatches (TaskHandler.MarkTaskAsPending db now fault ctx idParam).status
        (MarkTaskAsPending db now fault u t).1) ∧
    ((GetTaskByID db fault u t = .error errTaskNotFound ↔ fault 0 = none ∧ NoLiveRow db u t) ∧
      ((UpdateTask db now fault u t req).1 = .error errTaskNotFound ↔
        fault 0 = none ∧ NoLiveRow db u t) ∧
      ((DeleteTask db now fault u t).1 = .error errTaskNotFound ↔
        fault 0 = none ∧ NoLiveRow db u t) ∧
      ((MarkTaskAsCompleted db now fault u t).1 = .error errTaskNotFound ↔
        fault 0 = none ∧ NoLiveRow db u t) ∧
      ((MarkTaskAsPending db now fault u t).1 = .error errTaskNotFound ↔
        fault 0 = none ∧ NoLiveRow db u t)) ∧
    (∀ e, fault 0 = some e →
      (TaskHandler.GetTask db fault ctx idParam).status = 500 ∧
      (TaskHandler.UpdateTask db now fault ctx idParam (.ok req)).status = 500 ∧
      (TaskHandler.DeleteTask db now fault ctx idParam).status = 500 ∧
      (TaskHandler.MarkTaskAsCompleted db now fault ctx idParam).status = 500 ∧
      (TaskHandler.MarkTaskAsPending db now fault ctx idParam).status = 500) ∧
    (∀ e, fault 0 = none → ¬ NoLiveRow db u t → fault 1 = some e →
      (TaskHandler.UpdateTask db now fault ctx idParam (.ok req)).status = 500 ∧
      (TaskHandler.MarkTaskAsCompleted db now fault ctx idParam).status = 500 ∧
      (TaskHandler.MarkTaskAsPending db now fault ctx idParam).status = 500) := by
  have hG := GetTask_status db fault ctx idParam u t hctx hid
  have hU := UpdateTask_status db now fault ctx idParam req u t hctx hid hv
  have hD := DeleteTask_status db now fault ctx idParam u t hctx hid
  have hC := MarkTaskAsCompleted_status db now fault ctx idParam u t hctx hid
  have hP := MarkTaskAsPending_status db now fault ctx idParam u t hctx hid
  refine ⟨⟨hG, hU, hD, hC, hP⟩,
    ⟨GetTaskByID_notFound_iff db fault u t, UpdateTask_notFound_iff db now fault u t req,
      DeleteTask_notFound_iff db now fault u t, MarkTaskAsCompleted_notFound_iff db now fault u t,
      MarkTaskAsPending_notFound_iff db now fault u t⟩, ?_, ?_⟩
  · intro e hf
    have hg : GetTaskByID db fault u t = .error ("failed to get task: " ++ e) :=
      GetTaskByID_fault hf
    have hne := wrapped_ne_notFound "failed to get task: " e (by decide)
    refine ⟨statusMatches_500 hG hg hne, statusMatches_500 hU ?_ hne, ?_,
      statusMatches_500 hC ?_ hne, statusMatches_500 hP ?_ hne⟩
    · rw [UpdateTask_load_error hg]
    · exact statusMatches_500 hD (e := "failed to delete task: " ++ e)
        (by simp only [DeleteTask, hf]) (wrapped_ne_notFound _ e (by decide))
    · simp only [MarkTaskAsCompleted, hg]
    · simp only [MarkTaskAsPending, hg]
  · intro e hf hl hf1
    obtain ⟨task, hg⟩ := GetTaskByID_live hf hl
    refine ⟨statusMatches_500 hU (e := "failed to update task: " ++ e) ?_
        (wrapped_ne_notFound _ e (by decide)),
      statusMatches_500 hC (e := "failed to mark task as completed: " ++ e) ?_
        (wrapped_ne_notFound _ e (by decide)),
      statusMatches_500 hP (e := "failed to mark task as pending: " ++ e) ?_
        (wrapped_ne_notFound _ e (by decide))⟩
    · rw [UpdateTask_save_fault hg hf1]
    · simp only [MarkTaskAsCompleted, hg, hf1]
    · simp only [MarkTaskAsPending, hg, hf1]

/-- Witness for C19: user 2 asks for task 2 of user 1 and gets 404. -/
theorem c19_status_mapping_witness :
    (TaskHandler.GetTask sampleDB healthy (some (.uint 2)) "2").status = 404 :=
  (c19_status_mapping sampleDB 10 healthy (some (.uint 2)) "2" emptyUpdate 2 2 rfl
    (by decide) (by decide)).1.1.1.mpr (by decide)

/-! ## C20: the filter the list handler passes on -/

theorem GetTasks_rejected (db : DB) (now : Time) (fault : Faults) (ctx : Option CtxValue)
    (q : QueryParams) (u : Nat) (hctx : GetUserIDFromContext ctx = .ok u)
    (h : passedFilter q = none) : TaskHandler.GetTasks db now fault ctx q = rejected 400 db := by
  unfold passedFilter at h
  cases hb : bindQuery q with
  | error e => simp only [TaskHandler.GetTasks, hctx, hb, rejected]
  | ok f =>
    rw [hb] at h
    simp only at h
    have hv : validateTaskFilter (withDefaults f) = false := by
      cases hvv : validateTaskFilter (withDefaults f) with
      | false => rfl
      | true => rw [hvv] at h; simp at h
    unfold withDefaults at hv
    simp only [TaskHandler.GetTasks, hctx, hb, hv, if_true, rejected]

theorem GetTasks_passed (db : DB) (now : Time) (fault : Faults) (ctx : Option CtxValue)
    (q : QueryParams) (u : Nat) (f : TaskFilter) (hctx : GetUserIDFromContext ctx = .ok u)
    (h : passedFilter q = some f) :
    (TaskHandler.GetTasks db now fault ctx q).serviceCalled = true ∧
    (TaskHandler.GetTasks db now fault ctx q).db = db ∧
    ((TaskHandler.GetTasks db now fault ctx q).status = 200 ↔
      ∃ v, GetTasksByUser db now fault u f = .ok v) ∧
    ((TaskHandler.GetTasks db now fault ctx q).status = 500 ↔
      ∃ e, GetTasksByUser db now fault u f = .error e) := by
  unfold passedFilter at h
  cases hb : bindQuery q with
  | error e => rw [hb] at h; cases h
  | ok f0 =>
    rw [hb] at h
    simp only at h
    cases hvv : validateTaskFilter (withDefaults f0) with
    | false => rw [hvv] at h; simp at h
    | true =>
      rw [hvv] at h
      simp only [if_true, Option.some.injEq] at h
      subst h
      have hv2 := hvv
      unfold withDefaults at hv2
      simp only [TaskHandler.GetTasks, hctx, hb, hv2, Bool.true_eq_false, if_false]
      have hw : withDefaults f0 =
          (if (if f0.Page = 0 then { f0 with Page := 1 } else f0).Limit = 0 then
            { (if f0.Page = 0 then { f0 with Page := 1 } else f0) with Limit := 10 }
          else (if f0.Page = 0 then { f0 with Page := 1 } else f0)) := rfl
      rw [← hw]
      cases GetTasksByUser db now fault u (withDefaults f0) with
      | error e => simp
      | ok v => simp

theorem passedFilter_valid {q : QueryParams} {f : TaskFilter} (h : passedFilter q = some f) :
    1 ≤ f.Page ∧ 1 ≤ f.Limit ∧ f.Limit ≤ 100 ∧ 0 ≤ (f.Page - 1) * f.Limit := by
  unfold passedFilter at h
  cases hb : bindQuery q with
  | error e => rw [hb] at h; cases h
  | ok f0 =>
    rw [hb] at h
    simp only at h
    cases hvv : validateTaskFilter (withDefaults f0) with
    | false => rw [hvv] at h; simp at h
    | true =>
      rw [hvv] at h
      simp only [if_true, Option.some.injEq] at h
      subst h
      simp only [validateTaskFilter, Bool.and_eq_true, decide_eq_true_eq] at hvv
      obtain ⟨⟨_, hp⟩, hl1, hl2⟩ := hvv
      refine ⟨hp, hl1, hl2, ?_⟩
      have : 0 ≤ (withDefaults f0).Page - 1 := by omega
      positivity

theorem bindQuery_page_absent {q : QueryParams} {f0 : TaskFilter} (hq : q.page = none)
    (h : bindQuery q = .ok f0) : f0.Page = 0 := by
  unfold bindQuery at h
  simp only [hq] at h
  split at h
  · rename_i o pg lm h1 h2 h3
    simp only [Except.ok.injEq] at h h2
    rw [← h]
    exact h2.symm
  · cases h
  · cases h
  · cases h

theorem bindQuery_limit_absent {q : QueryParams} {f0 : TaskFilter} (hq : q.limit = none)
    (h : bindQuery q = .ok f0) : f0.Limit = 0 := by
  unfold bindQuery at h
  simp only [hq] at h
  split at h
  · rename_i o pg lm h1 h2 h3
    simp only [Except.ok.injEq] at h h3
    rw [← h]
    exact h3.symm
  · cases h
  · cases h
  · cases h

/-- The part of C20 that holds: the filter handed to GetTasksByUser has
page >= 1 and 1 <= limit <= 100, so the exact product (page-1)*limit is
non-negative; a query without page uses page = 1 and a query without limit
uses limit = 10. -/
theorem getTasks_filter_contract (db : DB) (now : Time) (fault : Faults)
    (ctx : Option CtxValue) (q : QueryParams) (u : Nat)
    (hctx : GetUserIDFromContext ctx = .ok u) :
    ((TaskHandler.GetTasks db now fault ctx q).serviceCalled = true ↔
      ∃ f, passedFilter q = some f) ∧
    (∀ f, passedFilter q = some f →
      1 ≤ f.Page ∧ 1 ≤ f.Limit ∧ f.Limit ≤ 100 ∧ 0 ≤ (f.Page - 1) * f.Limit ∧
      (q.page = none → f.Page = 1) ∧ (q.limit = none → f.Limit = 10)) := by
  constructor
  · cases hp : passedFilter q with
    | none =>
      rw [GetTasks_rejected db now fault ctx q u hctx hp]
      simp [rejected]
    | some f =>
      have := (GetTasks_passed db now fault ctx q u f hctx hp).1
      simp [this]
  · intro f hf
    obtain ⟨h1, h2, h3, h4⟩ := passedFilter_valid hf
    refine ⟨h1, h2, h3, h4, ?_, ?_⟩
    · intro hq
      unfold passedFilter at hf
      cases hb : bindQuery q with
      | error e => rw [hb] at hf; cases hf
      | ok f0 =>
        rw [hb] at hf
        simp only at hf
        split at hf
        · simp only [Option.some.injEq] at hf
          rw [← hf]
          have := bindQuery_page_absent hq hb
          unfold withDefaults
          simp only [this, if_true]
          split <;> rfl
        · cases hf
    · intro hq
      unfold passedFilter at hf
      cases hb : bindQuery q with
      | error e => rw [hb] at hf; cases hf
      | ok f0 =>
        rw [hb] at hf
        simp only at hf
        split at hf
        · simp only [Option.some.injEq] at hf
          rw [← hf]
          have := bindQuery_limit_absent hq hb
          unfold withDefaults
          by_cases hpg : f0.Page = 0 <;> simp [hpg, this]
        · cases hf

/-- C20 at a failing input: the query page=9223372036854775807&limit=100 binds
and passes validation (page >= 1, 1 <= limit <= 100), the handler calls
GetTasksByUser with it, and the offset the service computes, the 64-bit
product (page-1)*limit, is -200: negative. -/
theorem c20_offset_negative :
    passedFilter hugePageParams = some (pageFilter 9223372036854775807 100) ∧
    (1 ≤ (pageFilter 9223372036854775807 100).Page ∧
      1 ≤ (pageFilter 9223372036854775807 100).Limit ∧
      (pageFilter 9223372036854775807 100).Limit ≤ 100) ∧
    (TaskHandler.GetTasks sampleDB 10 healthy (some (.uint 1)) hugePageParams).serviceCalled =
      true ∧
    pageOffset (pageFilter 9223372036854775807 100) = -200 ∧
    pageOffset (pageFilter 9223372036854775807 100) < 0 ∧
    (passedFilter noParams).map (fun f => (f.Page, f.Limit)) = some (1, 10) := by
  decide

/-- The cases of TestGetUserIDFromContext and TestAuthMiddleware on the sample
reading: uint, int and string forms of 123, an invalid string, a float, an
absent value; a missing header, a malformed header, a corrupt token and an
expired token are answered 401. -/
theorem middleware_examples :
    GetUserIDFromContext (some (.uint 123)) = .ok 123 ∧
    GetUserIDFromContext (some (.int 123)) = .ok 123 ∧
    GetUserIDFromContext (some (.str "123")) = .ok 123 ∧
    GetUserIDFromContext (some (.str "invalid")) = .error "invalid syntax" ∧
    GetUserIDFromContext (some .other) = .error errTokenInvalidClaims ∧
    GetUserIDFromContext none = .error errTokenInvalidClaims ∧
    AuthMiddleware sampleContent "test-secret" 50 (sampleRequest "") = unauthorized ∧
    AuthMiddleware sampleContent "test-secret" 50 (sampleRequest "InvalidToken") = unauthorized ∧
    AuthMiddleware sampleContent "test-secret" 50 (sampleRequest "Bearer invalid.token.here") =
      unauthorized ∧
    AuthMiddleware sampleContent "test-secret" 50 (sampleRequest "Bearer stale") = unauthorized ∧
    AuthMiddleware sampleContent "other-secret" 50 (sampleRequest "Bearer good") = unauthorized := by
  decide

/-! ## C25: the SQL overdue condition and `Task.IsOverdue` -/

theorem condOverdue_iff_IsOverdue (now : Time) (t : Task) :
    sqlHolds (condOverdue now StatusCompleted t) = true ↔ t.IsOverdue now = true := by
  rw [sqlHolds_condOverdue]
  unfold Task.IsOverdue
  cases hd : t.DueDate with
  | none => simp
  | some d => by_cases hs : t.Status = StatusCompleted <;> simp [hs]

theorem specMatch_overdue (now : Time) (u : Nat) (f : TaskFilter) (r : Task)
    (ho : f.Overdue = some true) :
    specMatch now u f r = (specMatch now u { f with Overdue := none } r && r.IsOverdue now) := by
  unfold specMatch Task.IsOverdue
  simp only [ho, if_true]
  cases hd : r.DueDate with
  | none => simp
  | some d => by_cases hs : r.Status = StatusCompleted <;> simp [hs]

theorem specOverdue_eq_IsOverdue (now : Time) (u : Nat) (r : Task) :
    specOverdue now u r = (specTotal u r && r.IsOverdue now) := by
  unfold specOverdue Task.IsOverdue
  cases hd : r.DueDate with
  | none => simp
  | some d => by_cases hs : r.Status = StatusCompleted <;> simp [hs]

theorem GetTasksByUser_ok_faults {db : DB} {now : Time} {fault : Faults} {u : Nat}
    {f : TaskFilter} {res : List Task × Nat} (h : GetTasksByUser db now fault u f = .ok res) :
    fault 0 = none ∧ fault 1 = none := by
  cases h0 : fault 0 with
  | some e => simp [GetTasksByUser, h0] at h
  | none =>
    cases h1 : fault 1 with
    | some e => simp [GetTasksByUser, h0, h1] at h
    | none => exact ⟨rfl, rfl⟩

theorem GetTaskStats_eq (db : DB) (now : Time) (fault : Faults) (u : Nat)
    (h0 : fault 0 = none) (h1 : fault 1 = none) (h2 : fault 2 = none) (h3 : fault 3 = none) :
    GetTaskStats db now fault u =
      .ok { Total := db.rows.countP (specTotal u),
            Pending := db.rows.countP (specPending u),
            Completed := db.rows.countP (specCompleted u),
            Overdue := db.rows.countP (specOverdue now u) } := by
  simp only [GetTaskStats, h0, h1, h2, h3]
  rw [Count_start db _ _ (statsTotal_iff u),
    Count_start db _ (specPending u) (specStatus_iff u StatusPending),
    Count_start db _ (specCompleted u) (specStatus_iff u StatusCompleted),
    Count_start db _ _ (statsOverdue_iff now u)]

theorem GetTaskStats_ok_faults {db : DB} {now : Time} {fault : Faults} {u : Nat}
    {s : TaskStats} (h : GetTaskStats db now fault u = .ok s) :
    fault 0 = none ∧ fault 1 = none ∧ fault 2 = none ∧ fault 3 = none := by
  cases h0 : fault 0 with
  | some e => simp [GetTaskStats, h0] at h
  | none =>
    cases h1 : fault 1 with
    | some e => simp [GetTaskStats, h0, h1] at h
    | none =>
      cases h2 : fault 2 with
      | some e => simp [GetTaskStats, h0, h1, h2] at h
      | none =>
        cases h3 : fault 3 with
        | some e => simp [GetTaskStats, h0, h1, h2, h3] at h
        | none => exact ⟨rfl, rfl, rfl, rfl⟩

/-- C25: for every task and every instant now, the SQL overdue condition
"due_date < now AND status != completed" (a null due date never matching)
holds exactly when Task.IsOverdue at the same now is true; this is the
condition the list filter overdue=true adds and, joined with the owner test,
the one the overdue count of GetTaskStats uses.  Hence an overdue=true listing
returns only tasks with IsOverdue and totals the rows that match the rest of
the filter and have IsOverdue, and the overdue count is the number of
non-deleted rows of the user with IsOverdue. -/
theorem c25_overdue_condition (now : Time) :
    (∀ t : Task,
      sqlHolds (condOverdue now StatusCompleted t) = true ↔ t.IsOverdue now = true) ∧
    (∀ t : Task, t.DueDate = none → sqlHolds (condOverdue now StatusCompleted t) = false) ∧
    (∀ (u : Nat) (t : Task),
      sqlHolds (condUserOverdue u now StatusCompleted t) = true ↔
        (t.UserID = u ∧ t.IsOverdue now = true)) ∧
    (∀ (db : DB) (fault : Faults) (u : Nat) (f : TaskFilter) (tasks : List Task) (total : Nat),
      f.Overdue = some true → GetTasksByUser db now fault u f = .ok (tasks, total) →
        (∀ r ∈ tasks, r.IsOverdue now = true) ∧
        total = db.rows.countP
          (fun r => specMatch now u { f with Overdue := none } r && r.IsOverdue now)) ∧
    (∀ (db : DB) (fault : Faults) (u : Nat) (s : TaskStats),
      GetTaskStats db now fault u = .ok s →
        s.Overdue = db.rows.countP (fun r => specTotal u r && r.IsOverdue now)) := by
  refine ⟨condOverdue_iff_IsOverdue now, ?_, ?_, ?_, ?_⟩
  · intro t ht
    simp [sqlHolds, condOverdue, sqlLt, sqlAnd, sqlNe, ht]
    by_cases hs : t.Status = StatusCompleted <;> simp [hs]
  · intro u t
    rw [sqlHolds_condUserOverdue, ← condOverdue_iff_IsOverdue, sqlHolds_condOverdue]
  · intro db fault u f tasks total ho h
    obtain ⟨h0, h1⟩ := GetTasksByUser_ok_faults h
    rw [GetTasksByUser_eq db now fault u f h0 h1] at h
    injection h with h
    injection h with ht hc
    subst ht
    subst hc
    refine ⟨?_, ?_⟩
    · intro r hr
      have := (mem_Find hr).2
      rw [matches_Order, matches_Limit, matches_Offset, listQuery_matches,
        specMatch_overdue now u f r ho, Bool.and_eq_true] at this
      exact this.2
    · rw [Count_listQuery]
      congr 1
      funext r
      exact specMatch_overdue now u f r ho
  · intro db fault u s h
    obtain ⟨h0, h1, h2, h3⟩ := GetTaskStats_ok_faults h
    rw [GetTaskStats_eq db now fault u h0 h1 h2 h3] at h
    injection h with h
    subst h
    show db.rows.countP (specOverdue now u) = _
    congr 1
    funext r
    exact specOverdue_eq_IsOverdue now u r

/-! ## C26: the status setters of the model -/

/-- C26: for every task, MarkAsCompleted and MarkAsPending change only the
Status field (to completed, respectively pending): id, title, description,
priority, due date, owner id, createdAt, updatedAt and deletedAt are the same
before and after; afterwards IsCompleted is true after MarkAsCompleted and
false after MarkAsPending. -/
theorem c26_mark_changes_status_only (t : Task) :
    t.MarkAsCompleted = { t with Status := StatusCompleted } ∧
    t.MarkAsPending = { t with Status := StatusPending } ∧
    (t.MarkAsCompleted.ID = t.ID ∧ t.MarkAsCompleted.Title = t.Title ∧
      t.MarkAsCompleted.Description = t.Description ∧
      t.MarkAsCompleted.Priority = t.Priority ∧ t.MarkAsCompleted.DueDate = t.DueDate ∧
      t.MarkAsCompleted.UserID = t.UserID ∧ t.MarkAsCompleted.CreatedAt = t.CreatedAt ∧
      t.MarkAsCompleted.UpdatedAt = t.UpdatedAt ∧
      t.MarkAsCompleted.DeletedAt = t.DeletedAt) ∧
    (t.MarkAsPending.ID = t.ID ∧ t.MarkAsPending.Title = t.Title ∧
      t.MarkAsPending.Description = t.Description ∧
      t.MarkAsPending.Priority = t.Priority ∧ t.MarkAsPending.DueDate = t.DueDate ∧
      t.MarkAsPending.UserID = t.UserID ∧ t.MarkAsPending.CreatedAt = t.CreatedAt ∧
      t.MarkAsPending.UpdatedAt = t.UpdatedAt ∧
      t.MarkAsPending.DeletedAt = t.DeletedAt) ∧
    t.MarkAsCompleted.IsCompleted = true ∧
    t.MarkAsPending.IsCompleted = false ∧
    t.MarkAsCompleted.Status = StatusCompleted ∧
    t.MarkAsPending.Status = StatusPending := by
  refine ⟨rfl, rfl, ⟨rfl, rfl, rfl, rfl, rfl, rfl, rfl, rfl, rfl⟩,
    ⟨rfl, rfl, rfl, rfl, rfl, rfl, rfl, rfl, rfl⟩, ?_, ?_, rfl, rfl⟩
  · simp [Task.IsCompleted, Task.MarkAsCompleted]
  · simp [Task.IsCompleted, Task.MarkAsPending, StatusPending, StatusCompleted]
/-! ## C27: an update never clears an optional field -/

theorem specUpdate_Description_isSome (x : Task) (req : UpdateTaskRequest)
    (h : x.Description.isSome = true) : (specUpdate x req).Description.isSome = true := by
  unfold specUpdate
  cases hd : req.Description with
  | none => exact h
  | some v => rfl

theorem specUpdate_DueDate_isSome (x : Task) (req : UpdateTaskRequest)
    (h : x.DueDate.isSome = true) : (specUpdate x req).DueDate.isSome = true := by
  unfold specUpdate
  cases hd : req.DueDate with
  | none => exact h
  | some v => rfl

/-- C27: for every task visible to its owner that has a description
(respectively a due date) and every UpdateTaskRequest, UpdateTask succeeds and
the task it returns, which is the row the next GetTaskByID reads, still has a
description (respectively a due date): a request without the field keeps the
old value and a request with the field stores the given value, so no request
clears either optional field back to absent. -/
theorem c27_update_never_clears (db : DB) (now : Time) (fault : Faults) (u t : Nat)
    (req : UpdateTaskRequest) (x : Task) (hwf : db.WF) (h0 : fault 0 = none)
    (h1 : fault 1 = none) (hx : x ∈ db.rows) (hlive : x.DeletedAt = none) (hid : x.ID = t)
    (hu : x.UserID = u) :
    ∃ (res : Task) (db1 : DB),
      UpdateTask db now fault u t req = (.ok res, db1) ∧
      GetTaskByID db1 fault u t = .ok res ∧
      (x.Description.isSome = true → res.Description.isSome = true) ∧
      (x.DueDate.isSome = true → res.DueDate.isSome = true) ∧
      (req.Description = none → res.Description = x.Description) ∧
      (req.DueDate = none → res.DueDate = x.DueDate) := by
  have hg := GetTaskByID_found hwf h0 hx hlive hid hu
  have hs := Save_live now (specUpdate x req) hwf hx hlive rfl
  refine ⟨{ specUpdate x req with UpdatedAt := now },
    db.replaceRow t { specUpdate x req with UpdatedAt := now }, ?_, ?_, ?_, ?_, ?_, ?_⟩
  · rw [UpdateTask_eq db now fault u t req x h1 hg, hs, hid]
  · subst hid
    exact GetTaskByID_found (WF_replaceRow hwf _ _ rfl) h0 (mem_replaceRow hx _) hlive rfl hu
  · exact specUpdate_Description_isSome x req
  · exact specUpdate_DueDate_isSome x req
  · intro h
    show (specUpdate x req).Description = _
    unfold specUpdate
    simp only [h]
  · intro h
    show (specUpdate x req).DueDate = _
    unfold specUpdate
    simp only [h]

/-- Witness for C27: task 1 of `statsDB` has a due date; an update of user 1
that carries only a new title returns it with the due date kept. -/
theorem c27_update_never_clears_witness :
    ∃ (res : Task) (db1 : DB),
      UpdateTask statsDB 10 healthy 1 1
          { Title := some "new", Description := none, Status := none, Priority := none,
            DueDate := none } = (.ok res, db1) ∧
      res.DueDate = some 3 :=
  (c27_update_never_clears statsDB 10 healthy 1 1
    { Title := some "new", Description := none, Status := none, Priority := none,
      DueDate := none }
    { sampleTask 1 "low" 1 1 with DueDate := some 3 } (by decide) rfl rfl (by decide) rfl rfl
    rfl).elim fun res h => h.elim fun db1 h2 => ⟨res, db1, h2.1, h2.2.2.2.2.2 rfl⟩

/-! ## C28: relations between the four statistics -/

theorem countP_split (l : List Task) (p q1 q2 : Task → Bool)
    (h : ∀ r ∈ l, (p r = true ↔ (q1 r = true ∨ q2 r = true)) ∧ ¬(q1 r = true ∧ q2 r = true)) :
    l.countP p = l.countP q1 + l.countP q2 := by
  induction l with
  | nil => rfl
  | cons a l ih =>
    have ha := h a (List.mem_cons_self a l)
    have ih2 := ih (fun r hr => h r (List.mem_cons_of_mem a hr))
    rw [List.countP_cons, List.countP_cons, List.countP_cons, ih2]
    cases hp : p a <;> cases h1 : q1 a <;> cases h2 : q2 a <;> simp [hp, h1, h2] at ha ⊢ <;>
      omega

/-- C28: for every store in which every non-deleted task of user u has status
pending or completed, and with the four count statements answered,
GetTaskStats(u) returns counts with total = pending + completed and
overdue <= pending. -/
theorem c28_stats_relations (db : DB) (now : Time) (fault : Faults) (u : Nat)
    (h0 : fault 0 = none) (h1 : fault 1 = none) (h2 : fault 2 = none) (h3 : fault 3 = none)
    (hs : ∀ r ∈ db.rows, r.UserID = u → r.DeletedAt = none →
      r.Status = StatusPending ∨ r.Status = StatusCompleted) :
    ∃ s : TaskStats, GetTaskStats db now fault u = .ok s ∧
      s.Total = s.Pending + s.Completed ∧ s.Overdue ≤ s.Pending := by
  refine ⟨_, GetTaskStats_eq db now fault u h0 h1 h2 h3, ?_, ?_⟩
  · apply countP_split
    intro r hr
    have hsr := hs r hr
    simp only [specPending, specCompleted, specTotal, Bool.and_eq_true, decide_eq_true_eq,
      Option.isNone_iff_eq_none] at hsr ⊢
    have hne : ¬(r.Status = StatusPending ∧ r.Status = StatusCompleted) := by
      rintro ⟨ha, hb⟩
      rw [ha] at hb
      exact absurd hb (by decide)
    tauto
  · apply List.countP_mono_left
    intro r hr ho
    have hsr := hs r hr
    simp only [specOverdue, specPending, specTotal, Bool.and_eq_true, decide_eq_true_eq,
      Option.isNone_iff_eq_none, ne_eq, decide_not, Bool.not_eq_true',
      decide_eq_false_iff_not] at ho hsr ⊢
    rcases hsr ho.1.1.1 ho.1.1.2 with h | h
    · exact ⟨ho.1.1, h⟩
    · exact absurd h ho.2

/-- Witness for C28: the statistics of user 1 over `statsDB` at time 10 are
total 3 = pending 2 + completed 1 and overdue 1 <= 2. -/
theorem c28_stats_relations_witness :
    ∃ s : TaskStats, GetTaskStats statsDB 10 healthy 1 = .ok s ∧
      s.Total = s.Pending + s.Completed ∧ s.Overdue ≤ s.Pending :=
  c28_stats_relations statsDB 10 healthy 1 rfl rfl rfl rfl (by decide)

/-! ## C23: the rank of the listing order and `GetPriorityWeight` -/

theorem rank_eq_weight (t : Task) (h : priorityInEnum t.Priority) :
    (priorityRank t.Priority : Int) = t.GetPriorityWeight := by
  unfold priorityInEnum at h
  unfold priorityRank Task.GetPriorityWeight
  rcases h with h | h | h <;> rw [h] <;> decide

theorem rank_weight_outside (t : Task) (h : ¬ priorityInEnum t.Priority) :
    priorityRank t.Priority = 1 ∧ t.GetPriorityWeight = 2 := by
  unfold priorityInEnum at h
  have h1 : t.Priority ≠ PriorityLow := fun e => h (Or.inl e)
  have h2 : t.Priority ≠ PriorityMedium := fun e => h (Or.inr (Or.inl e))
  have h3 : t.Priority ≠ PriorityHigh := fun e => h (Or.inr (Or.inr e))
  have h2b : t.Priority ≠ "medium" := h2
  have h3b : t.Priority ≠ "high" := h3
  constructor
  · unfold priorityRank
    rw [if_neg h3b, if_neg h2b]
  · unfold Task.GetPriorityWeight
    rw [if_neg h3, if_neg h2, if_neg h1]

theorem weightOrder_iff_listOrder (a b : Task) (ha : priorityInEnum a.Priority)
    (hb : priorityInEnum b.Priority) : weightOrder a b ↔ listOrder a b := by
  unfold weightOrder listOrder
  rw [← rank_eq_weight a ha, ← rank_eq_weight b hb, Int.ofNat_lt, Int.ofNat_inj]

theorem orderedInsert_congr {r s : Task → Task → Prop} [DecidableRel r] [DecidableRel s]
    (a : Task) (m : List Task) (h : ∀ b ∈ m, r a b ↔ s a b) :
    m.orderedInsert r a = m.orderedInsert s a := by
  induction m with
  | nil => rfl
  | cons b m ih =>
    have hb := h b (List.mem_cons_self b m)
    have ih2 := ih (fun c hc => h c (List.mem_cons_of_mem b hc))
    by_cases hr : r a b
    · show (if r a b then a :: b :: m else b :: m.orderedInsert r a) =
        (if s a b then a :: b :: m else b :: m.orderedInsert s a)
      rw [if_pos hr, if_pos (hb.mp hr)]
    · show (if r a b then a :: b :: m else b :: m.orderedInsert r a) =
        (if s a b then a :: b :: m else b :: m.orderedInsert s a)
      rw [if_neg hr, if_neg (fun hs => hr (hb.mpr hs)), ih2]

theorem insertionSort_congr {r s : Task → Task → Prop} [DecidableRel r] [DecidableRel s]
    (l : List Task) (h : ∀ a ∈ l, ∀ b ∈ l, r a b ↔ s a b) :
    l.insertionSort r = l.insertionSort s := by
  induction l with
  | nil => rfl
  | cons a l ih =>
    have ih2 := ih (fun x hx y hy =>
      h x (List.mem_cons_of_mem a hx) y (List.mem_cons_of_mem a hy))
    rw [List.insertionSort, List.insertionSort, ih2]
    apply orderedInsert_congr
    intro b hb
    exact h a (List.mem_cons_self a l) b
      (List.mem_cons_of_mem a ((List.mem_insertionSort s).mp hb))

/-- C23 (amended): for every task whose priority is low, medium or high, the
rank used by the ordering expression of GetTasksByUser equals the weight
returned by GetPriorityWeight, so sorting a list of such tasks by
GetPriorityWeight descending and sorting it by the listing order agree; for
every other priority value the ordering expression ranks 1 and
GetPriorityWeight returns 2. -/
theorem c23_rank_eq_weight_on_enum :
    (∀ t : Task, priorityInEnum t.Priority →
      (priorityRank t.Priority : Int) = t.GetPriorityWeight) ∧
    (∀ l : List Task, (∀ t ∈ l, priorityInEnum t.Priority) →
      l.insertionSort weightOrder = l.insertionSort listOrder) ∧
    (∀ t : Task, ¬ priorityInEnum t.Priority →
      priorityRank t.Priority = 1 ∧ t.GetPriorityWeight = 2) := by
  refine ⟨rank_eq_weight, ?_, rank_weight_outside⟩
  intro l hl
  apply insertionSort_congr
  intro a ha b hb
  exact weightOrder_iff_listOrder a b (hl a ha) (hl b hb)

/-- C23 as stated fails: the priority "urgent" has rank 1 in the ordering
expression and weight 2 in GetPriorityWeight, and on a low-priority task
created at 5 and an "urgent" task created at 1 the listing puts the low task
first while sorting by GetPriorityWeight descending puts the urgent task
first. -/
theorem c23_unlisted_priority_differs :
    priorityRank "urgent" = 1 ∧
    (sampleTask 2 "urgent" 1 1).GetPriorityWeight = 2 ∧
    GetTasksByUser urgentDB 10 healthy 1 (pageFilter 1 10) =
      .ok ([sampleTask 1 "low" 1 5, sampleTask 2 "urgent" 1 1], 2) ∧
    urgentDB.rows.insertionSort listOrder =
      [sampleTask 1 "low" 1 5, sampleTask 2 "urgent" 1 1] ∧
    urgentDB.rows.insertionSort weightOrder =
      [sampleTask 2 "urgent" 1 1, sampleTask 1 "low" 1 5] := by
  decide
/-! ## C24: when the listing order is determined by the sort key -/

theorem sorted_perm_eq {r : Task → Task → Prop} :
    ∀ (l1 l2 : List Task), l1.Perm l2 → l1.Sorted r → l2.Sorted r →
      (∀ a ∈ l1, ∀ b ∈ l1, r a b → r b a → a = b) → l1 = l2 := by
  intro l1
  induction l1 with
  | nil =>
    intro l2 hp _ _ _
    exact hp.nil_eq
  | cons a l1 ih =>
    intro l2 hp h1 h2 ha
    cases l2 with
    | nil => exact absurd hp.length_eq (by simp)
    | cons b l2 =>
      have hab : a = b := by
        by_cases hne : a = b
        · exact hne
        · have hain : a ∈ b :: l2 := hp.subset (List.mem_cons_self a l1)
          have hbin : b ∈ a :: l1 := hp.symm.subset (List.mem_cons_self b l2)
          have hain2 : a ∈ l2 := by
            rcases List.mem_cons.mp hain with h | h
            · exact absurd h hne
            · exact h
          have hbin2 : b ∈ l1 := by
            rcases List.mem_cons.mp hbin with h | h
            · exact absurd h.symm hne
            · exact h
          have hba : r b a := List.rel_of_sorted_cons h2 a hain2
          have hab : r a b := List.rel_of_sorted_cons h1 b hbin2
          exact ha a (List.mem_cons_self a l1) b hbin hab hba
      subst hab
      have hp2 : l1.Perm l2 := (List.perm_cons a).mp hp
      rw [ih l2 hp2 h1.of_cons h2.of_cons
        (fun x hx y hy => ha x (List.mem_cons_of_mem a hx) y (List.mem_cons_of_mem a hy))]

theorem listOrder_both_iff (a b : Task) :
    (listOrder a b ∧ listOrder b a) ↔
      (priorityRank a.Priority = priorityRank b.Priority ∧ a.CreatedAt = b.CreatedAt) := by
  unfold listOrder
  constructor
  · rintro ⟨h1 | ⟨h1, h1c⟩, h2 | ⟨h2, h2c⟩⟩
    · exact absurd h1 (Nat.lt_asymm h2)
    · rw [h2] at h1; exact absurd h1 (Nat.lt_irrefl _)
    · rw [h1] at h2; exact absurd h2 (Nat.lt_irrefl _)
    · exact ⟨h1, Nat.le_antisymm h2c h1c⟩
  · rintro ⟨h1, h2⟩
    exact ⟨Or.inr ⟨h1, Nat.le_of_eq h2.symm⟩, Or.inr ⟨h1.symm, Nat.le_of_eq h2⟩⟩

theorem Find_perm (db1 db2 : DB) (q : Query) (hp : db1.rows.Perm db2.rows)
    (hq : q.ordered = true)
    (hk : ∀ a ∈ db1.rows, ∀ b ∈ db1.rows, q.matches a = true → q.matches b = true →
      listOrder a b → listOrder b a → a = b) :
    db1.Find q = db2.Find q := by
  unfold DB.Find
  simp only [hq, if_true]
  have hsel : (db1.rows.filter q.matches).Perm (db2.rows.filter q.matches) := hp.filter _
  have hs : (db1.rows.filter q.matches).insertionSort listOrder =
      (db2.rows.filter q.matches).insertionSort listOrder := by
    apply sorted_perm_eq
    · exact ((List.perm_insertionSort _ _).trans hsel).trans (List.perm_insertionSort _ _).symm
    · exact List.sorted_insertionSort _ _
    · exact List.sorted_insertionSort _ _
    · intro a ha b hb hab hba
      have ha2 := List.mem_filter.mp ((List.mem_insertionSort _).mp ha)
      have hb2 := List.mem_filter.mp ((List.mem_insertionSort _).mp hb)
      exact hk a ha2.1 b hb2.1 ha2.2 hb2.2 hab hba
  rw [hs]

theorem Count_perm (db1 db2 : DB) (q : Query) (hp : db1.rows.Perm db2.rows) :
    db1.Count q = db2.Count q := by
  unfold DB.Count
  exact (hp.filter _).length_eq

/-- C24 (amended): for any two stores holding the same task rows in any
storage order, the same user and filter, and with both statements answered,
GetTasksByUser returns the same total and the same sequence of tasks provided
no two distinct matching rows share both priority rank and creation time; the
sort key (priority rank, creation time) decides the relative order of two
matching tasks exactly when their keys differ. -/
theorem c24_listing_deterministic (db1 db2 : DB) (now : Time) (fault : Faults) (u : Nat)
    (f : TaskFilter) (h0 : fault 0 = none) (h1 : fault 1 = none)
    (hp : db1.rows.Perm db2.rows)
    (hk : ∀ a ∈ db1.rows, ∀ b ∈ db1.rows, specMatch now u f a = true →
      specMatch now u f b = true → priorityRank a.Priority = priorityRank b.Priority →
      a.CreatedAt = b.CreatedAt → a = b) :
    (∃ (tasks : List Task) (total : Nat),
      GetTasksByUser db1 now fault u f = .ok (tasks, total) ∧
      GetTasksByUser db2 now fault u f = .ok (tasks, total)) ∧
    (∀ a ∈ db1.rows, ∀ b ∈ db1.rows, specMatch now u f a = true →
      specMatch now u f b = true → a ≠ b → (listOrder a b ↔ ¬ listOrder b a)) := by
  constructor
  · refine ⟨_, _, GetTasksByUser_eq db1 now fault u f h0 h1, ?_⟩
    rw [GetTasksByUser_eq db2 now fault u f h0 h1]
    rw [Find_perm db1 db2 _ hp rfl, Count_perm db1 db2 _ hp]
    intro a ha b hb hma hmb hab hba
    rw [matches_Order, matches_Limit, matches_Offset, listQuery_matches] at hma hmb
    obtain ⟨hr, hc⟩ := (listOrder_both_iff a b).mp ⟨hab, hba⟩
    exact hk a ha b hb hma hmb hr hc
  · intro a ha b hb hma hmb hne
    constructor
    · intro hab hba
      obtain ⟨hr, hc⟩ := (listOrder_both_iff a b).mp ⟨hab, hba⟩
      exact hne (hk a ha b hb hma hmb hr hc)
    · intro hnba
      rcases (inferInstance : IsTotal Task listOrder).total a b with h | h
      · exact h
      · exact absurd h hnba

/-- Witness for C24: the sample store and its reversal list the same page for
user 1 (the five tasks of user 1 have pairwise different creation times). -/
theorem c24_listing_deterministic_witness :
    ∃ (tasks : List Task) (total : Nat),
      GetTasksByUser sampleDB 10 healthy 1 (pageFilter 1 10) = .ok (tasks, total) ∧
      GetTasksByUser { rows := sampleDB.rows.reverse, nextID := 7 } 10 healthy 1
        (pageFilter 1 10) = .ok (tasks, total) :=
  (c24_listing_deterministic sampleDB { rows := sampleDB.rows.reverse, nextID := 7 } 10 healthy 1
    (pageFilter 1 10) rfl rfl (List.reverse_perm _).symm (by decide)).1

/-- C24 as stated fails: two stores hold the same two rows, high-priority
tasks of user 1 created at the same instant, in different storage order, and
GetTasksByUser returns them in different sequences; the two tasks are distinct
and the sort key admits both orders. -/
theorem c24_tied_rows_reorder :
    tieDB.rows.Perm tieDBswapped.rows ∧
    GetTasksByUser tieDB 10 healthy 1 (pageFilter 1 10) =
      .ok ([sampleTask 1 "high" 1 5, sampleTask 2 "high" 1 5], 2) ∧
    GetTasksByUser tieDBswapped 10 healthy 1 (pageFilter 1 10) =
      .ok ([sampleTask 2 "high" 1 5, sampleTask 1 "high" 1 5], 2) ∧
    GetTasksByUser tieDB 10 healthy 1 (pageFilter 1 10) ≠
      GetTasksByUser tieDBswapped 10 healthy 1 (pageFilter 1 10) ∧
    sampleTask 1 "high" 1 5 ≠ sampleTask 2 "high" 1 5 ∧
    listOrder (sampleTask 1 "high" 1 5) (sampleTask 2 "high" 1 5) ∧
    listOrder (sampleTask 2 "high" 1 5) (sampleTask 1 "high" 1 5) := by
  refine ⟨List.Perm.swap _ _ _, ?_, ?_, ?_, ?_, ?_, ?_⟩ <;> decide

/-! ## C21: page and limit values the list handler rejects -/

theorem digit_ne_sign {c : Char} (h : c.isDigit = true) : c ≠ '+' ∧ c ≠ '-' := by
  constructor
  · rintro rfl; exact absurd h (by decide)
  · rintro rfl; exact absurd h (by decide)

theorem digitsValue_eq (cs : List Char) :
    digitsValue cs = Nat.ofDigits 10 ((cs.map (fun c => c.toNat - 48)).reverse) :=
  foldl_digits_eq_ofDigits cs

theorem parseInt64_unsigned (s : String) (m : Nat) (h : IsNumeralOf s m) :
    parseInt64 s =
      if -(2 ^ 63) ≤ (m : Int) ∧ (m : Int) < 2 ^ 63 then .ok (m : Int)
      else .error "value out of range" := by
  obtain ⟨hne, hd, hv⟩ := h
  cases hl : s.toList with
  | nil => exact absurd hl hne
  | cons c cs =>
    rw [hl] at hd hv
    obtain ⟨h1, h2⟩ := digit_ne_sign (hd c (List.mem_cons_self c cs))
    have hall : (c :: cs).all Char.isDigit = true := List.all_eq_true.mpr hd
    have hval : digitsValue (c :: cs) = m := by rw [digitsValue_eq]; exact hv
    unfold parseInt64
    rw [hl]
    simp only [h1, h2, or_self, if_false, decide_False, List.isEmpty_cons, Bool.false_eq_true,
      hall, if_true, hval]

theorem parseInt64_signed (t : String) (m : Nat) (c : Char) (hc : c = '+' ∨ c = '-')
    (h : IsNumeralOf t m) :
    parseInt64 (String.singleton c ++ t) =
      if -(2 ^ 63) ≤ (if c = '-' then -(m : Int) else m) ∧
          (if c = '-' then -(m : Int) else m) < 2 ^ 63
      then .ok (if c = '-' then -(m : Int) else m)
      else .error "value out of range" := by
  obtain ⟨hne, hd, hv⟩ := h
  have hl : (String.singleton c ++ t).toList = c :: t.toList := by
    show (String.singleton c ++ t).data = c :: t.data
    rw [String.data_append]
    rfl
  have hall : t.toList.all Char.isDigit = true := List.all_eq_true.mpr hd
  have hval : digitsValue t.toList = m := by rw [digitsValue_eq]; exact hv
  have hemp : t.toList.isEmpty = false := by
    cases ht : t.toList with
    | nil => exact absurd ht hne
    | cons a as => rfl
  unfold parseInt64
  rw [hl]
  simp only [hc, if_true, hemp, Bool.false_eq_true, if_false, hall, hval, decide_eq_true_eq]

theorem parseInt64_integer (s : String) (n : Int) (h : IsIntegerOf s n) :
    parseInt64 s =
      if -(2 ^ 63) ≤ n ∧ n < 2 ^ 63 then .ok n else .error "value out of range" := by
  rcases h with ⟨m, hm, rfl⟩ | ⟨t, m, rfl, hm, rfl⟩ | ⟨t, m, rfl, hm, rfl⟩
  · exact parseInt64_unsigned s m hm
  · have := parseInt64_signed t m '+' (Or.inl rfl) hm
    simpa using this
  · have := parseInt64_signed t m '-' (Or.inr rfl) hm
    simpa using this

theorem IsIntegerOf_ne_empty {s : String} {n : Int} (h : IsIntegerOf s n) : s ≠ "" := by
  intro he
  have hl : s.toList = [] := (string_eq_empty_iff s).mp he
  rcases h with ⟨m, hm, _⟩ | ⟨t, m, rfl, _, _⟩ | ⟨t, m, rfl, _, _⟩
  · exact hm.1 hl
  · have : ("+" ++ t).data = '+' :: t.data := by rw [String.data_append]; rfl
    rw [show ("+" ++ t).toList = ("+" ++ t).data from rfl, this] at hl
    cases hl
  · have : ("-" ++ t).data = '-' :: t.data := by rw [String.data_append]; rfl
    rw [show ("-" ++ t).toList = ("-" ++ t).data from rfl, this] at hl
    cases hl
theorem bindQuery_ok_page {q : QueryParams} {f : TaskFilter} {s : String}
    (h : bindQuery q = .ok f) (hq : q.page = some s) :
    parseInt64 (if s = "" then "0" else s) = .ok f.Page := by
  unfold bindQuery at h
  simp only [hq] at h
  split at h
  · rename_i o pg lm h1 h2 h3
    simp only [Except.ok.injEq] at h
    rw [← h]
    exact h2
  · cases h
  · cases h
  · cases h

theorem bindQuery_ok_limit {q : QueryParams} {f : TaskFilter} {s : String}
    (h : bindQuery q = .ok f) (hq : q.limit = some s) :
    parseInt64 (if s = "" then "0" else s) = .ok f.Limit := by
  unfold bindQuery at h
  simp only [hq] at h
  split at h
  · rename_i o pg lm h1 h2 h3
    simp only [Except.ok.injEq] at h
    rw [← h]
    exact h3
  · cases h
  · cases h
  · cases h

theorem bound_integer {s : String} {n v : Int} (hi : IsIntegerOf s n)
    (h : parseInt64 (if s = "" then "0" else s) = .ok v) : v = n := by
  rw [if_neg (IsIntegerOf_ne_empty hi), parseInt64_integer s n hi] at h
  split at h
  · simp only [Except.ok.injEq] at h
    exact h.symm
  · cases h

theorem withDefaults_Page (f : TaskFilter) :
    (withDefaults f).Page = if f.Page = 0 then 1 else f.Page := by
  unfold withDefaults
  by_cases h1 : f.Page = 0 <;> by_cases h2 : f.Limit = 0 <;> simp [h1, h2]

theorem withDefaults_Limit (f : TaskFilter) :
    (withDefaults f).Limit = if f.Limit = 0 then 10 else f.Limit := by
  unfold withDefaults
  by_cases h1 : f.Page = 0 <;> by_cases h2 : f.Limit = 0 <;> simp [h1, h2]

theorem validateTaskFilter_page {g : TaskFilter} (h : ¬ 1 ≤ g.Page) :
    validateTaskFilter g = false := by
  simp [validateTaskFilter, h]

theorem validateTaskFilter_limit {g : TaskFilter} (h : ¬ (1 ≤ g.Limit ∧ g.Limit ≤ 100)) :
    validateTaskFilter g = false := by
  unfold validateTaskFilter
  by_cases h1 : 1 ≤ g.Limit
  · have h2 : ¬ g.Limit ≤ 100 := fun h2 => h ⟨h1, h2⟩
    simp [h2]
  · simp [h1]

theorem passedFilter_none_of_bad {q : QueryParams} {s : String} {n : Int}
    (h : (q.page = some s ∧ IsIntegerOf s n ∧ n < 0) ∨
      (q.limit = some s ∧ IsIntegerOf s n ∧ (n < 0 ∨ 100 < n))) :
    passedFilter q = none := by
  unfold passedFilter
  cases hb : bindQuery q with
  | error e => rfl
  | ok f =>
    have hv : validateTaskFilter (withDefaults f) = false := by
      rcases h with ⟨hq, hi, hn⟩ | ⟨hq, hi, hn⟩
      · have hp : f.Page = n := bound_integer hi (bindQuery_ok_page hb hq)
        apply validateTaskFilter_page
        rw [withDefaults_Page, hp]
        have : n ≠ 0 := by omega
        rw [if_neg this]
        omega
      · have hp : f.Limit = n := bound_integer hi (bindQuery_ok_limit hb hq)
        apply validateTaskFilter_limit
        rw [withDefaults_Limit, hp]
        have : n ≠ 0 := by omega
        rw [if_neg this]
        omega
    simp only [hv, Bool.false_eq_true, if_false]

theorem passedFilter_zero {q : QueryParams} {f : TaskFilter} (h : passedFilter q = some f) :
    (∀ s, q.page = some s → IsIntegerOf s 0 → f.Page = 1) ∧
    (∀ s, q.limit = some s → IsIntegerOf s 0 → f.Limit = 10) := by
  unfold passedFilter at h
  cases hb : bindQuery q with
  | error e => rw [hb] at h; cases h
  | ok f0 =>
    rw [hb] at h
    simp only at h
    split at h
    · simp only [Option.some.injEq] at h
      subst h
      constructor
      · intro s hq hi
        have hp : f0.Page = 0 := bound_integer hi (bindQuery_ok_page hb hq)
        rw [withDefaults_Page, if_pos hp]
      · intro s hq hi
        have hp : f0.Limit = 0 := bound_integer hi (bindQuery_ok_limit hb hq)
        rw [withDefaults_Limit, if_pos hp]
    · cases h

/-- C21 (amended): for every authenticated list request whose page parameter
is an integer less than 0, or whose limit parameter is an integer less than 0
or greater than 100, the GetTasks handler answers 400 and does not call the
task service; a page parameter that is the integer 0 is replaced by the
default 1 and a limit parameter that is the integer 0 by the default 10 before
validation, so whenever the filter is passed to the service it carries
page 1, respectively limit 10. -/
theorem c21_bad_page_limit_rejected (db : DB) (now : Time) (fault : Faults)
    (ctx : Option CtxValue) (q : QueryParams) (u : Nat)
    (hctx : GetUserIDFromContext ctx = .ok u) :
    (∀ (s : String) (n : Int),
      ((q.page = some s ∧ IsIntegerOf s n ∧ n < 0) ∨
        (q.limit = some s ∧ IsIntegerOf s n ∧ (n < 0 ∨ 100 < n))) →
      TaskHandler.GetTasks db now fault ctx q = rejected 400 db) ∧
    (∀ f : TaskFilter, passedFilter q = some f →
      (TaskHandler.GetTasks db now fault ctx q).serviceCalled = true ∧
      (∀ s, q.page = some s → IsIntegerOf s 0 → f.Page = 1) ∧
      (∀ s, q.limit = some s → IsIntegerOf s 0 → f.Limit = 10)) := by
  constructor
  · intro s n h
    exact GetTasks_rejected db now fault ctx q u hctx (passedFilter_none_of_bad h)
  · intro f hf
    exact ⟨(GetTasks_passed db now fault ctx q u f hctx hf).1, passedFilter_zero hf⟩

/-- Witness for C21: the query page=-1 of user 1 is answered 400 without a
service call. -/
theorem c21_bad_page_limit_rejected_witness :
    TaskHandler.GetTasks sampleDB 10 healthy (some (.uint 1)) negativePageParams =
      rejected 400 sampleDB :=
  (c21_bad_page_limit_rejected sampleDB 10 healthy (some (.uint 1)) negativePageParams 1
    rfl).1 "-1" (-1)
    (Or.inl ⟨rfl, Or.inr (Or.inr ⟨"1", 1, by decide, ⟨by decide, by decide, by decide⟩, rfl⟩),
      by decide⟩)

/-- C21 as stated fails: "0" is an integer less than 1 (and outside 1..100),
yet the queries page=0 and limit=0 of user 1 are answered 200 with the task
service called, on the filter page 1, limit 10. -/
theorem c21_zero_is_defaulted :
    IsIntegerOf "0" 0 ∧ (0 : Int) < 1 ∧
    TaskHandler.GetTasks sampleDB 10 healthy (some (.uint 1)) pageZeroParams =
      { status := 200, task := none, db := sampleDB, serviceCalled := true } ∧
    passedFilter pageZeroParams = some (pageFilter 1 10) ∧
    TaskHandler.GetTasks sampleDB 10 healthy (some (.uint 1)) limitZeroParams =
      { status := 200, task := none, db := sampleDB, serviceCalled := true } ∧
    passedFilter limitZeroParams = some (pageFilter 1 10) := by
  refine ⟨Or.inl ⟨0, ⟨by decide, by decide, by decide⟩, rfl⟩, by decide, ?_, ?_, ?_, ?_⟩ <;>
    decide

/-! ## C22: title validation and the titles of stored tasks -/

theorem validateCreate_title {req : CreateTaskRequest}
    (h : req.Title = "" ∨ 200 < req.Title.length) : validateCreateTaskRequest req = false := by
  unfold validateCreateTaskRequest
  rcases h with h | h
  · simp [h]
  · have : ¬ req.Title.length ≤ 200 := by omega
    simp [this]

theorem validateUpdate_title {req : UpdateTaskRequest} {title : String}
    (ht : req.Title = some title) (h : title = "" ∨ 200 < title.length) :
    validateUpdateTaskRequest req = false := by
  unfold validateUpdateTaskRequest
  rw [ht]
  rcases h with h | h
  · simp [h]
  · have : ¬ title.length ≤ 200 := by omega
    simp [this]

theorem titleOK_of_validCreate {req : CreateTaskRequest}
    (hv : validateCreateTaskRequest req = true) :
    1 ≤ req.Title.length ∧ req.Title.length ≤ 200 := by
  simp only [validateCreateTaskRequest, Bool.and_eq_true, decide_eq_true_eq] at hv
  exact ⟨hv.1.1.2, hv.1.2⟩

theorem titleOK_specUpdate {task : Task} {req : UpdateTaskRequest} (ht : titleOK task)
    (hv : validateUpdateTaskRequest req = true) : titleOK (specUpdate task req) := by
  rcases req with ⟨a, b, c, d, e⟩
  simp only [validateUpdateTaskRequest, Bool.and_eq_true] at hv
  obtain ⟨⟨hti, _⟩, _⟩ := hv
  unfold titleOK at *
  cases a with
  | none => exact ht
  | some v =>
    simp only [specUpdate]
    simpa using hti

theorem titleOK_replaceRow {db : DB} (id : Nat) {t : Task} (h : ∀ r ∈ db.rows, titleOK r)
    (ht : titleOK t) : ∀ r ∈ (db.replaceRow id t).rows, titleOK r := by
  intro r hr
  unfold DB.replaceRow at hr
  obtain ⟨r0, hr0, rfl⟩ := List.mem_map.mp hr
  by_cases hid : r0.ID = id
  · simpa [hid] using ht
  · simpa [hid] using h r0 hr0

theorem title_Save_loaded {db : DB} (now : Time) {fault : Faults} {u t : Nat} {task new : Task}
    (hwf : db.WF) (hinv : ∀ r ∈ db.rows, titleOK r) (hg : GetTaskByID db fault u t = .ok task)
    (hid : new.ID = task.ID) (hnew : titleOK new) :
    ∀ r ∈ (db.Save now new).1.rows, titleOK r := by
  obtain ⟨hmem, hlive, _, _⟩ := GetTaskByID_ok hg
  rw [Save_live now new hwf hmem hlive hid]
  exact titleOK_replaceRow _ hinv hnew

theorem title_apply {db : DB} (now : Time) (fault : Faults) (op : Op) (hv : op.valid = true)
    (hwf : db.WF) (hinv : ∀ r ∈ db.rows, titleOK r) :
    ∀ r ∈ (op.apply db now fault).rows, titleOK r := by
  cases op with
  | create u req =>
    simp only [Op.apply]
    cases hf : fault 0 with
    | some e => simpa [CreateTask, hf] using hinv
    | none =>
      rw [CreateTask_eq db now fault u req hf]
      intro r hr
      simp only [DB.Create, List.mem_append, List.mem_singleton] at hr
      rcases hr with hr | hr
      · exact hinv r hr
      · rw [hr]
        have hT := titleOK_of_validCreate hv
        unfold titleOK
        have hE : ∀ x : Task, x.BeforeCreate.Title = x.Title := by
          intro x
          unfold Task.BeforeCreate
          by_cases h1 : x.Priority = "" <;> by_cases h2 : x.Status = "" <;> simp [h1, h2]
        simp only [hE, newTask]
        exact hT
  | update u t req =>
    simp only [Op.apply]
    cases hg : GetTaskByID db fault u t with
    | error e => simpa [UpdateTask, hg] using hinv
    | ok task =>
      cases hf : fault 1 with
      | some e =>
        rcases req with ⟨a, b, c, d, e1⟩
        simpa [UpdateTask, hg, hf] using hinv
      | none =>
        rw [UpdateTask_eq db now fault u t req task hf hg]
        exact title_Save_loaded now hwf hinv hg rfl
          (titleOK_specUpdate (hinv task (GetTaskByID_ok hg).1) hv)
  | complete u t =>
    simp only [Op.apply]
    cases hg : GetTaskByID db fault u t with
    | error e => simpa [MarkTaskAsCompleted, hg] using hinv
    | ok task =>
      cases hf : fault 1 with
      | some e => simpa [MarkTaskAsCompleted, hg, hf] using hinv
      | none =>
        simp only [MarkTaskAsCompleted, hg, hf]
        exact title_Save_loaded now hwf hinv hg rfl (hinv task (GetTaskByID_ok hg).1)
  | pending u t =>
    simp only [Op.apply]
    cases hg : GetTaskByID db fault u t with
    | error e => simpa [MarkTaskAsPending, hg] using hinv
    | ok task =>
      cases hf : fault 1 with
      | some e => simpa [MarkTaskAsPending, hg, hf] using hinv
      | none =>
        simp only [MarkTaskAsPending, hg, hf]
        exact title_Save_loaded now hwf hinv hg rfl (hinv task (GetTaskByID_ok hg).1)
  | delete u t =>
    simp only [Op.apply]
    cases hf : fault 0 with
    | some e => simpa [DeleteTask, hf] using hinv
    | none =>
      have : ∀ r ∈ (db.Delete now (Query.start (condIDUser t u))).1.rows, titleOK r := by
        intro r hr
        unfold DB.Delete at hr
        obtain ⟨r0, hr0, rfl⟩ := List.mem_map.mp hr
        have := hinv r0 hr0
        by_cases h : (Query.start (condIDUser t u)).matches r0 = true
        · simpa [h, titleOK] using this
        · simpa [h] using this
      unfold DeleteTask
      simp only [hf]
      split <;> exact this
theorem handle_db (db : DB) (now : Time) (fault : Faults) (call : HttpCall) :
    (call.handle db now fault).db = db ∨
      ∃ op : Op, op.valid = true ∧ (call.handle db now fault).db = op.apply db now fault := by
  cases call with
  | create ctx body =>
    simp only [HttpCall.handle, TaskHandler.CreateTask]
    cases hc : GetUserIDFromContext ctx with
    | error e => exact Or.inl rfl
    | ok u =>
      cases body with
      | error e => exact Or.inl rfl
      | ok req =>
        cases hv : validateCreateTaskRequest req with
        | false => left; simp [hv]
        | true =>
          refine Or.inr ⟨.create u req, hv, ?_⟩
          simp only [Op.apply, hv, Bool.true_eq_false, if_false]
          rcases hs : CreateTask db now fault u req with ⟨r, db1⟩
          cases r <;> rfl
  | list ctx q =>
    left
    show (TaskHandler.GetTasks db now fault ctx q).db = db
    cases hc : GetUserIDFromContext ctx with
    | error e => simp only [TaskHandler.GetTasks, hc]
    | ok u =>
      cases hp : passedFilter q with
      | none => rw [GetTasks_rejected db now fault ctx q u hc hp]; rfl
      | some f => exact (GetTasks_passed db now fault ctx q u f hc hp).2.1
  | stats ctx =>
    left
    simp only [HttpCall.handle, TaskHandler.GetTaskStats]
    split
    · rfl
    · split <;> rfl
  | get ctx idParam =>
    left
    simp only [HttpCall.handle, TaskHandler.GetTask]
    split
    · rfl
    · split
      · rfl
      · split
        · split <;> rfl
        · rfl
  | update ctx idParam body =>
    simp only [HttpCall.handle, TaskHandler.UpdateTask]
    cases hc : GetUserIDFromContext ctx with
    | error e => exact Or.inl rfl
    | ok u =>
      cases hp : parseUint32 idParam with
      | error e => exact Or.inl rfl
      | ok t =>
        cases body with
        | error e => exact Or.inl rfl
        | ok req =>
          cases hv : validateUpdateTaskRequest req with
          | false => left; simp [hv]
          | true =>
            refine Or.inr ⟨.update u t req, hv, ?_⟩
            simp only [Op.apply, hv, Bool.true_eq_false, if_false]
            rcases hs : UpdateTask db now fault u t req with ⟨r, db1⟩
            cases r with
            | error e => simp only; split <;> rfl
            | ok v => rfl
  | delete ctx idParam =>
    simp only [HttpCall.handle, TaskHandler.DeleteTask]
    cases hc : GetUserIDFromContext ctx with
    | error e => exact Or.inl rfl
    | ok u =>
      cases hp : parseUint32 idParam with
      | error e => exact Or.inl rfl
      | ok t =>
        refine Or.inr ⟨.delete u t, rfl, ?_⟩
        simp only [Op.apply]
        rcases hs : DeleteTask db now fault u t with ⟨r, db1⟩
        cases r with
        | error e => simp only; split <;> rfl
        | ok v => rfl
  | complete ctx idParam =>
    simp only [HttpCall.handle, TaskHandler.MarkTaskAsCompleted]
    cases hc : GetUserIDFromContext ctx with
    | error e => exact Or.inl rfl
    | ok u =>
      cases hp : parseUint32 idParam with
      | error e => exact Or.inl rfl
      | ok t =>
        refine Or.inr ⟨.complete u t, rfl, ?_⟩
        simp only [Op.apply]
        rcases hs : MarkTaskAsCompleted db now fault u t with ⟨r, db1⟩
        cases r with
        | error e => simp only; split <;> rfl
        | ok v => rfl
  | pending ctx idParam =>
    simp only [HttpCall.handle, TaskHandler.MarkTaskAsPending]
    cases hc : GetUserIDFromContext ctx with
    | error e => exact Or.inl rfl
    | ok u =>
      cases hp : parseUint32 idParam with
      | error e => exact Or.inl rfl
      | ok t =>
        refine Or.inr ⟨.pending u t, rfl, ?_⟩
        simp only [Op.apply]
        rcases hs : MarkTaskAsPending db now fault u t with ⟨r, db1⟩
        cases r with
        | error e => simp only; split <;> rfl
        | ok v => rfl

theorem serve_inv (steps : List HttpStep) : ∀ {db : DB},
    (db.WF ∧ ∀ r ∈ db.rows, enumOK r) → (∀ r ∈ db.rows, titleOK r) →
    ((serve db steps).WF ∧ ∀ r ∈ (serve db steps).rows, enumOK r) ∧
      ∀ r ∈ (serve db steps).rows, titleOK r := by
  induction steps with
  | nil => intro db h1 h2; exact ⟨h1, h2⟩
  | cons s ss ih =>
    intro db h1 h2
    simp only [serve]
    rcases handle_db db s.now s.fault s.call with h | ⟨op, hv, h⟩
    · rw [h]; exact ih h1 h2
    · rw [h]
      exact ih (inv_apply s.now s.fault op hv h1) (title_apply s.now s.fault op hv h1.1 h2)

/-- C22: for every authenticated create request whose title is missing or
empty (the bound Title is the empty string) or longer than 200 characters, and
for every authenticated update request whose title is present and is empty or
longer than 200 characters, the handler answers 400, the task service is not
called and the store is unchanged; consequently, after any history of requests
to the task routes starting from the empty store, every stored task's title
has between 1 and 200 characters. -/
theorem c22_title_validation (db : DB) (now : Time) (fault : Faults) (ctx : Option CtxValue)
    (u : Nat) (hctx : GetUserIDFromContext ctx = .ok u) :
    (∀ req : CreateTaskRequest, (req.Title = "" ∨ 200 < req.Title.length) →
      TaskHandler.CreateTask db now fault ctx (.ok req) = rejected 400 db) ∧
    (∀ (idParam : String) (req : UpdateTaskRequest) (title : String),
      req.Title = some title → (title = "" ∨ 200 < title.length) →
      TaskHandler.UpdateTask db now fault ctx idParam (.ok req) = rejected 400 db) ∧
    (∀ steps : List HttpStep, ∀ r ∈ (serve DB.empty steps).rows,
      1 ≤ r.Title.length ∧ r.Title.length ≤ 200) := by
  refine ⟨?_, ?_, ?_⟩
  · intro req h
    simp only [TaskHandler.CreateTask, hctx, validateCreate_title h, if_true, rejected]
  · intro idParam req title ht h
    simp only [TaskHandler.UpdateTask, hctx, validateUpdate_title ht h, if_true, rejected]
    cases parseUint32 idParam <;> rfl
  · intro steps
    exact (serve_inv steps ⟨WF_empty, by simp [DB.empty]⟩ (by simp [DB.empty])).2

/-- Witness for C22: a create request of user 1 without title is answered 400
and leaves the sample store alone; the sample history of requests stores one
task, titled "Pay the rent". -/
theorem c22_title_validation_witness :
    TaskHandler.CreateTask sampleDB 10 healthy (some (.uint 1)) (.ok (titled "")) =
      rejected 400 sampleDB ∧
    (serve DB.empty sampleSteps).rows.all (fun r => decide (titleOK r)) = true :=
  ⟨(c22_title_validation sampleDB 10 healthy (some (.uint 1)) 1 rfl).1 (titled "") (Or.inl rfl),
    List.all_eq_true.mpr fun r hr => decide_eq_true
      ((c22_title_validation sampleDB 10 healthy (some (.uint 1)) 1 rfl).2.2 sampleSteps r hr)⟩

theorem sampleSteps_result :
    (serve DB.empty sampleSteps).rows =
      [{ ID := 1, Title := "Pay the rent", Description := none, Status := StatusCompleted,
         Priority := PriorityMedium, DueDate := none, UserID := 1, CreatedAt := 2,
         UpdatedAt := 5, DeletedAt := none }] := by
  decide

end TaskApp
